import Mathlib

/-!
# Cloudy_Spotify: the Deep Q-Learning core

A shallow embedding of the C++ sources `music_environment.cpp`,
`experience_buffer.cpp`, `neural_network.cpp` and `music_rl_engine.cpp`.

Numbers of C++ type `double` are elements of a linearly ordered field `K`
with a floor function (exact arithmetic; `ℚ` for evaluation, `ℝ` for the
statements about the exponential).  Rounding is not modelled.
-/

set_option autoImplicit false

namespace MusicAI

/-! ## Failures -/

/-- The ways the modelled code fails: it throws `std::invalid_argument` or
`std::runtime_error`, or it performs an operation whose precondition does not
hold (an access outside a container, `pop_front` on an empty deque, an Eigen
operation on operands of mismatched sizes, signed overflow, the conversion to
`int` of a `double` whose integer part no `int` holds, the use of a value that
was never read), for which C++ defines no behaviour. -/
inductive Error
  | invalid_argument (what : String)
  | undefined_behavior (what : String)
  | runtime_error (what : String)
  deriving DecidableEq, Repr

/-! ## `music_environment.h` / `music_environment.cpp` -/

/-- The enum class `MusicEnvironment::Action`; the constructors are listed in
the order of their underlying values 0..4. -/
inductive Action
  | CHILL_LOFI
  | POP_HITS
  | ROCK_ENERGY
  | JAZZ_SMOOTH
  | ELECTRONIC_DANCE
  deriving DecidableEq, Repr

/-- The underlying value of an `Action` (`static_cast<int>(action)`). -/
def Action.toInt : Action → Int
  | .CHILL_LOFI => 0
  | .POP_HITS => 1
  | .ROCK_ENERGY => 2
  | .JAZZ_SMOOTH => 3
  | .ELECTRONIC_DANCE => 4

/-- The struct `MusicEnvironment::State`. -/
structure State (K : Type) where
  temperature : K
  weather_condition : K
  hour_of_day : K
  day_of_week : K
  user_mood : K
  genre_history : Fin 3 → K

section Environment

variable {K : Type} [LinearOrderedField K]

/-- The conversion `static_cast<int>(x)` of a `double`: truncation toward zero.
The behaviour is undefined unless the truncated value is representable in the
32-bit type `int`. -/
def truncToInt [FloorRing K] (x : K) : Except Error Int :=
  let n : Int := if 0 ≤ x then ⌊x⌋ else ⌈x⌉
  if -2147483648 ≤ n ∧ n ≤ 2147483647 then pure n
  else throw (Error.undefined_behavior "value not representable in int")

/-- The function `MusicEnvironment::getWeatherMoodCompatibility`; `weather` is the underlying
value of the `WeatherCondition` (SUNNY = 0, CLOUDY = 1, RAINY = 2, SNOWY = 3,
STORMY = 4).  A value that is no enumerator falls through the outer switch. -/
def getWeatherMoodCompatibility (weather : Int) (action : Action) : K :=
  match weather, action with
  | 0, .POP_HITS => 0.8
  | 0, .ELECTRONIC_DANCE => 0.7
  | 0, .ROCK_ENERGY => 0.6
  | 0, .JAZZ_SMOOTH => 0.4
  | 0, .CHILL_LOFI => 0.3
  | 1, .CHILL_LOFI => 0.8
  | 1, .JAZZ_SMOOTH => 0.7
  | 1, .POP_HITS => 0.5
  | 1, .ROCK_ENERGY => 0.4
  | 1, .ELECTRONIC_DANCE => 0.3
  | 2, .CHILL_LOFI => 0.9
  | 2, .JAZZ_SMOOTH => 0.8
  | 2, .POP_HITS => 0.3
  | 2, .ROCK_ENERGY => 0.2
  | 2, .ELECTRONIC_DANCE => 0.1
  | 3, .JAZZ_SMOOTH => 0.8
  | 3, .CHILL_LOFI => 0.7
  | 3, .POP_HITS => 0.4
  | 3, .ROCK_ENERGY => 0.3
  | 3, .ELECTRONIC_DANCE => 0.2
  | 4, .ROCK_ENERGY => 0.8
  | 4, .ELECTRONIC_DANCE => 0.6
  | 4, .CHILL_LOFI => 0.5
  | 4, .JAZZ_SMOOTH => 0.4
  | 4, .POP_HITS => 0.3
  | _, _ => 0.5

/-- The function `MusicEnvironment::getTimeMoodCompatibility`. -/
def getTimeMoodCompatibility (hour : K) (action : Action) : K :=
  if 5 ≤ hour ∧ hour < 9 then
    match action with
    | .CHILL_LOFI => 0.8
    | .JAZZ_SMOOTH => 0.7
    | .POP_HITS => 0.5
    | .ROCK_ENERGY => 0.2
    | .ELECTRONIC_DANCE => 0.1
  else if 9 ≤ hour ∧ hour < 17 then
    match action with
    | .CHILL_LOFI => 0.9
    | .JAZZ_SMOOTH => 0.6
    | .POP_HITS => 0.4
    | .ROCK_ENERGY => 0.3
    | .ELECTRONIC_DANCE => 0.2
  else if 17 ≤ hour ∧ hour < 22 then
    match action with
    | .POP_HITS => 0.8
    | .ROCK_ENERGY => 0.7
    | .ELECTRONIC_DANCE => 0.6
    | .JAZZ_SMOOTH => 0.5
    | .CHILL_LOFI => 0.4
  else
    match action with
    | .CHILL_LOFI => 0.9
    | .JAZZ_SMOOTH => 0.8
    | .POP_HITS => 0.3
    | .ROCK_ENERGY => 0.1
    | .ELECTRONIC_DANCE => 0.1

/-- The function `MusicEnvironment::getGenreConsistency`: the loop over `i = 0, 1, 2` adds
`weight * (1 - |action_value - history[i]|)` to `similarity`, with
`weight = 1.0 - i * 0.2`; the result is `similarity / 3.0`. -/
def getGenreConsistency (history : Fin 3 → K) (action : Action) : K :=
  let action_value : K := (action.toInt : K) / 4.0
  let similarity : K :=
    ([0, 1, 2] : List (Fin 3)).foldl
      (fun similarity i =>
        let weight : K := 1.0 - ((i : Nat) : K) * 0.2
        similarity + weight * (1.0 - |action_value - history i|))
      0.0
  similarity / 3.0

/-- The local `base_reward` of `calculateReward`. -/
def baseReward (user_rating : K) : K :=
  (user_rating - 2.5) / 2.5

/-- The local `temp_bonus` of `calculateReward`. -/
def tempBonus (action : Action) (state : State K) : K :=
  if state.temperature > 0.5 ∧
      (action = Action.ELECTRONIC_DANCE ∨ action = Action.POP_HITS) then 0.1
  else if state.temperature < -0.5 ∧
      (action = Action.CHILL_LOFI ∨ action = Action.JAZZ_SMOOTH) then 0.1
  else 0.0

/-- The local `total_reward` of `calculateReward` (the sum before clamping). -/
def totalReward [FloorRing K] (action : Action) (state : State K) (user_rating : K) :
    Except Error K := do
  let base_reward := baseReward user_rating
  let weather ← truncToInt state.weather_condition
  let weather_bonus : K := getWeatherMoodCompatibility weather action
  let time_bonus := getTimeMoodCompatibility (state.hour_of_day * 24.0) action
  let consistency_bonus := getGenreConsistency state.genre_history action
  let temp_bonus := tempBonus action state
  pure (base_reward + 0.3 * weather_bonus + 0.2 * time_bonus +
    0.2 * consistency_bonus + temp_bonus)

/-- The function `MusicEnvironment::calculateReward`. -/
def calculateReward [FloorRing K] (action : Action) (state : State K) (user_rating : K) :
    Except Error K := do
  let total_reward ← totalReward action state user_rating
  pure (max (-1.0) (min 1.0 total_reward))

/-! ### The reward formula as the specification words it -/

/-- The specification's `clamp(x, lo, hi)`. -/
def specClamp (x lo hi : K) : K :=
  if x < lo then lo else if hi < x then hi else x

/-- The specification's weights `(1.0, 0.8, 0.6)` of the genre history. -/
def specWeights : Fin 3 → K := ![1.0, 0.8, 0.6]

/-- The specification's `gc = (1/3) Σ_{i=0..2} w_i · (1 − |a/4 − history_i|)`. -/
def specGenreConsistency (action : Action) (history : Fin 3 → K) : K :=
  (1 / 3) * ∑ i : Fin 3, specWeights i * (1 - |(action.toInt : K) / 4 - history i|)

/-- The specification's `tb`: 0.1 exactly when the temperature is above 0.5 and
the action energetic, or below −0.5 and the action calm; else 0. -/
def specTempBonus (action : Action) (temperature : K) : K :=
  if (temperature > 0.5 ∧ (action = Action.ELECTRONIC_DANCE ∨ action = Action.POP_HITS)) ∨
      (temperature < -0.5 ∧ (action = Action.CHILL_LOFI ∨ action = Action.JAZZ_SMOOTH))
  then 0.1 else 0

/-- The specification's index of an action: the five categories are "indexed
0..4 (CHILL_LOFI, POP_HITS, ROCK_ENERGY, JAZZ_SMOOTH, ELECTRONIC_DANCE)". -/
def specActionIndex : Action → Fin 5
  | .CHILL_LOFI => 0
  | .POP_HITS => 1
  | .ROCK_ENERGY => 2
  | .JAZZ_SMOOTH => 3
  | .ELECTRONIC_DANCE => 4

/-- The weather table: one row per weather code 0..4 (sunny, cloudy, rainy,
snowy, stormy), one column per action index. -/
def specWeatherTable : Fin 5 → Fin 5 → K :=
  ![![0.3, 0.8, 0.6, 0.4, 0.7],
    ![0.8, 0.5, 0.4, 0.7, 0.3],
    ![0.9, 0.3, 0.2, 0.8, 0.1],
    ![0.7, 0.4, 0.3, 0.8, 0.2],
    ![0.5, 0.3, 0.8, 0.4, 0.6]]

/-- The weather code "truncated to an integer": the sign of `x` times the
integer part of its absolute value. -/
def specTruncate [FloorRing K] (x : K) : Int :=
  (if x < 0 then -1 else 1) * ⌊|x|⌋

/-- The specification's `wm`: the entry of the weather table for a weather code
in `0..4`; "out-of-table combinations return 0.5". -/
def specWeatherEntry (code : Int) (action : Action) : K :=
  if h : 0 ≤ code ∧ code ≤ 4 then
    specWeatherTable ⟨code.toNat, by omega⟩ (specActionIndex action)
  else 0.5

/-- The four bands of the day, numbered 0 (early morning, `[5, 9)`), 1 (work,
`[9, 17)`), 2 (evening, `[17, 22)`) and 3 (night, from 22 to 5). -/
def specTimeBand (hour : K) : Fin 4 :=
  if hour < 5 then 3 else if hour < 9 then 0 else if hour < 17 then 1
  else if hour < 22 then 2 else 3

/-- The time table: one row per band, one column per action index. -/
def specTimeTable : Fin 4 → Fin 5 → K :=
  ![![0.8, 0.5, 0.2, 0.7, 0.1],
    ![0.9, 0.4, 0.3, 0.6, 0.2],
    ![0.4, 0.8, 0.7, 0.5, 0.6],
    ![0.9, 0.3, 0.1, 0.8, 0.1]]

/-- The specification's
`reward = clamp(base + 0.3·wm + 0.2·tm + 0.2·gc + tb, −1, +1)`, with `wm` the
weather table entry for the truncated weather code and `tm` the time table
entry for the band of the hour `24 * hour_of_day`. -/
def specReward [FloorRing K] (action : Action) (state : State K) (rating : K) : K :=
  let base : K := (rating - 2.5) / 2.5
  let wm : K := specWeatherEntry (specTruncate state.weather_condition) action
  let tm : K := specTimeTable (specTimeBand (24 * state.hour_of_day)) (specActionIndex action)
  let gc : K := specGenreConsistency action state.genre_history
  let tb : K := specTempBonus action state.temperature
  specClamp (base + 0.3 * wm + 0.2 * tm + 0.2 * gc + tb) (-1) 1

/-- The state of the reward-shaping scenario: temperature 0.8, weather 0
(SUNNY), hour 0.5, mood 2, genre history `[0.25, 0.25, 0.25]`; the day of the
week, which the scenario leaves open, is a parameter. -/
def scenarioState (day : K) : State K where
  temperature := 0.8
  weather_condition := 0
  hour_of_day := 0.5
  day_of_week := day
  user_mood := 2
  genre_history := ![0.25, 0.25, 0.25]

/-- The scenario state with the weather code `10000000000`, whose integer part
no `int` holds. -/
def outOfRangeState (K : Type) [LinearOrderedField K] : State K :=
  { scenarioState (0 : K) with weather_condition := 10000000000 }

end Environment

/-! ## `experience_buffer.h` / `experience_buffer.cpp` -/

/-- The checked element access `xs[i]` of a `std::vector`, `std::deque` or Eigen
object. -/
def elemAt {α : Type} (xs : List α) (i : Nat) : Except Error α :=
  match xs[i]? with
  | some a => pure a
  | none => throw (Error.undefined_behavior "index out of range")

/-- The struct `Experience`. -/
structure Experience (K : Type) where
  state : List K
  action : Int
  reward : K
  next_state : List K
  done : Bool

/-- The class `ExperienceBuffer`: the deque `buffer_` (front first) and
`max_size_`.  The generator `rng_` is not part of the state: the outcome of
each `std::shuffle` is an argument of `sample`. -/
structure ExperienceBuffer (K : Type) where
  buffer_ : List (Experience K)
  max_size_ : Nat

namespace ExperienceBuffer

variable {K : Type}

/-- The constructor `ExperienceBuffer(max_size)`. -/
def new (max_size : Nat) : ExperienceBuffer K :=
  { buffer_ := [], max_size_ := max_size }

/-- The function `std::deque::pop_front`; the deque must not be empty. -/
def pop_front {α : Type} : List α → Except Error (List α)
  | [] => throw (Error.undefined_behavior "pop_front on an empty deque")
  | _ :: rest => pure rest

/-- The function `ExperienceBuffer::add`. -/
def add (b : ExperienceBuffer K) (experience : Experience K) :
    Except Error (ExperienceBuffer K) := do
  let buffer ←
    if b.buffer_.length ≥ b.max_size_ then pop_front b.buffer_ else pure b.buffer_
  pure { b with buffer_ := buffer ++ [experience] }

/-- The function `ExperienceBuffer::size`. -/
def size (b : ExperienceBuffer K) : Nat :=
  b.buffer_.length

/-- The function `ExperienceBuffer::canSample`. -/
def canSample (b : ExperienceBuffer K) (batch_size : Nat) : Bool :=
  decide (b.buffer_.length ≥ batch_size)

/-- The loop `for (i = 0; i < batch_size; ++i) samples.push_back(buffer_[indices[i]])`
of `sample`, from index `i` on, with `count` iterations left. -/
def sampleLoop (buffer : List (Experience K)) (indices : List Nat) :
    Nat → Nat → Except Error (List (Experience K))
  | _, 0 => pure []
  | i, count + 1 => do
    let j ← elemAt indices i
    let e ← elemAt buffer j
    let rest ← sampleLoop buffer indices (i + 1) count
    pure (e :: rest)

/-- The function `ExperienceBuffer::sample`.  `shuffle` is what `std::shuffle` with the
current `rng_` does to the index vector `0, 1, .., size - 1`. -/
def sample (b : ExperienceBuffer K) (batch_size : Nat) (shuffle : List Nat → List Nat) :
    Except Error (List (Experience K)) :=
  if b.buffer_.length < batch_size then
    pure b.buffer_
  else
    let indices := shuffle (List.range b.buffer_.length)
    sampleLoop b.buffer_ indices 0 batch_size

/-- A sequence of `add` calls, in order. -/
def addAll (b : ExperienceBuffer K) : List (Experience K) → Except Error (ExperienceBuffer K)
  | [] => pure b
  | e :: es => do
    let b' ← add b e
    addAll b' es

/-- A transition that carries the number `i` (as its action and its reward);
transitions with different numbers are different. -/
def numbered (K : Type) [NatCast K] (i : Nat) : Experience K :=
  { state := [], action := i, reward := (i : K), next_state := [], done := false }

end ExperienceBuffer

/-! ## `neural_network.h` / `neural_network.cpp` -/

/-- The type `Eigen::VectorXd`: the coefficients in order. -/
abbrev VectorXd (K : Type) := List K

/-- The type `Eigen::MatrixXd`: the list of the rows, each row the list of its
coefficients.  All rows of a matrix have the same length. -/
abbrev MatrixXd (K : Type) := List (List K)

/-- The assignment `xs[i] = v` to an element of a `std::vector`, with the index
checked. -/
def setAt {α : Type} (xs : List α) (i : Nat) (v : α) : Except Error (List α) :=
  if i < xs.length then pure (xs.set i v)
  else throw (Error.undefined_behavior "index out of range")

/-- The constant `NeuralNetwork::INPUT_SIZE`. -/
def INPUT_SIZE : Nat := 8

/-- The constant `NeuralNetwork::OUTPUT_SIZE`. -/
def OUTPUT_SIZE : Nat := 5

/-- The local `layer_sizes` of `initializeWeights`. -/
def layer_sizes : List Nat := [INPUT_SIZE, 64, 32, 16, OUTPUT_SIZE]

/-- The class `NeuralNetwork`.  The constant table `layer_info_` (sizes, names
and colours of the five layers) is left out. -/
structure NeuralNetwork (K : Type) where
  weights_ : List (MatrixXd K)
  biases_ : List (VectorXd K)
  activations_ : List (VectorXd K)
  learning_rate_ : K

section Network

variable {K : Type} [LinearOrderedField K]

/-- The inner product of a row and a vector of the same length. -/
def dot (row x : VectorXd K) : K :=
  (List.zipWith (fun a b => a * b) row x).sum

/-- The value of `W * x + b`. -/
def affineVal (W : MatrixXd K) (x b : VectorXd K) : VectorXd K :=
  List.zipWith (fun a c => a + c) (W.map (fun row => dot row x)) b

/-- The Eigen expression `W * x + b`: the columns of `W` must match `x`, and the
rows of `W` must match `b`. -/
def affine (W : MatrixXd K) (x b : VectorXd K) : Except Error (VectorXd K) :=
  if (∀ row ∈ W, row.length = x.length) ∧ W.length = b.length then
    pure (affineVal W x b)
  else throw (Error.undefined_behavior "Eigen size mismatch")

/-- The function `NeuralNetwork::relu`. -/
def relu (x : K) : K := max 0.0 x

/-- The function `NeuralNetwork::softmax`; `exp` stands for `std::exp`. -/
def softmax (exp : K → K) (x : VectorXd K) : VectorXd K :=
  let exp_x := x.map exp
  exp_x.map (fun e => e / exp_x.sum)

namespace NeuralNetwork

/-- The constructor with `initializeWeights`: `draw i row col` is the value the
normal distribution yields for the coefficient `(row, col)` of layer `i`. -/
def new (learning_rate : K) (draw : Nat → Nat → Nat → K) : NeuralNetwork K :=
  let sizes := List.zip layer_sizes layer_sizes.tail
  { weights_ := sizes.enum.map (fun (i, input_size, output_size) =>
      (List.range output_size).map (fun row =>
        (List.range input_size).map (fun col => draw i row col)))
    biases_ := sizes.map (fun (_, output_size) => List.replicate output_size 0.01)
    activations_ := List.replicate INPUT_SIZE 0 ::
      sizes.map (fun (_, output_size) => List.replicate output_size 0)
    learning_rate_ := learning_rate }

/-- The loop over the hidden layers in `forward`, from layer `i` on with `count`
iterations left; `current` and the activations are the loop state. -/
def hiddenLoop (nn : NeuralNetwork K) :
    Nat → Nat → VectorXd K → List (VectorXd K) →
      Except Error (VectorXd K × List (VectorXd K))
  | _, 0, current, activations => pure (current, activations)
  | i, count + 1, current, activations => do
    let W ← elemAt nn.weights_ i
    let b ← elemAt nn.biases_ i
    let z ← affine W current b
    let current := z.map relu
    let activations ← setAt activations (i + 1) current
    hiddenLoop nn (i + 1) count current activations

/-- The function `NeuralNetwork::forward`: the network with the activations of this pass
cached, and the output.  With no layers `weights_.size() - 1` wraps around and
the first access is out of range. -/
def forward (exp : K → K) (nn : NeuralNetwork K) (input : VectorXd K) :
    Except Error (NeuralNetwork K × VectorXd K) := do
  if input.length ≠ INPUT_SIZE then
    throw (Error.invalid_argument "Input size mismatch")
  let activations ← setAt nn.activations_ 0 input
  if nn.weights_.length = 0 then
    throw (Error.undefined_behavior "index out of range")
  let (current, activations) ←
    hiddenLoop nn 0 (nn.weights_.length - 1) input activations
  let output_layer := nn.weights_.length - 1
  let W ← elemAt nn.weights_ output_layer
  let b ← elemAt nn.biases_ output_layer
  let z ← affine W current b
  let current := softmax exp z
  let activations ← setAt activations (output_layer + 1) current
  pure ({ nn with activations_ := activations }, current)

/-- The Eigen expression `a - b` on vectors of the same size. -/
def vecSub (a b : VectorXd K) : Except Error (VectorXd K) :=
  if a.length = b.length then pure (List.zipWith (fun x y => x - y) a b)
  else throw (Error.undefined_behavior "Eigen size mismatch")

/-- The number of columns of a matrix. -/
def cols (W : MatrixXd K) : Nat :=
  match W with
  | [] => 0
  | row :: _ => row.length

/-- The Eigen expression `W.transpose() * d`: the rows of `W` must match `d`. -/
def transposeMul (W : MatrixXd K) (d : VectorXd K) : Except Error (VectorXd K) :=
  if W.length = d.length then
    pure ((List.range (cols W)).map (fun j => dot (W.map (fun row => row.getD j 0)) d))
  else throw (Error.undefined_behavior "Eigen size mismatch")

/-- The loop `error(j) *= (activations_[i + 1](j) > 0) ? 1.0 : 0.0` over the
coefficients of `error`. -/
def reluMask (error activation : VectorXd K) : Except Error (VectorXd K) :=
  if error.length ≤ activation.length then
    pure (List.zipWith (fun e a => e * (if a > 0 then 1.0 else 0.0)) error activation)
  else throw (Error.undefined_behavior "index out of range")

/-- The backpropagation loop of `backward`, `i` running from `count - 1` down
to 0; `deltas` holds `deltas[count], deltas[count + 1], ..` (the entries
assigned so far). -/
def backpropLoop (nn : NeuralNetwork K) :
    Nat → List (VectorXd K) → Except Error (List (VectorXd K))
  | 0, deltas => pure deltas
  | i + 1, deltas => do
    let W ← elemAt nn.weights_ (i + 1)
    let d ← elemAt deltas 0
    let error ← transposeMul W d
    let a ← elemAt nn.activations_ (i + 1)
    let error ← reluMask error a
    backpropLoop nn i (error :: deltas)

/-- The Eigen expression `learning_rate_ * (d * prev.transpose())`. -/
def scaledOuter (learning_rate : K) (d prev : VectorXd K) : MatrixXd K :=
  d.map (fun di => prev.map (fun pj => learning_rate * (di * pj)))

/-- The Eigen assignment `W -= G` on matrices of the same shape. -/
def matSub (W G : MatrixXd K) : Except Error (MatrixXd K) :=
  if W.length = G.length ∧ ∀ p ∈ List.zip W G, p.1.length = p.2.length then
    pure (List.zipWith (fun r g => List.zipWith (fun x y => x - y) r g) W G)
  else throw (Error.undefined_behavior "Eigen size mismatch")

/-- The update loop of `backward`, from layer `i` on with `count` iterations
left. -/
def updateLoop (input : VectorXd K) (deltas : List (VectorXd K)) :
    Nat → Nat → NeuralNetwork K → Except Error (NeuralNetwork K)
  | _, 0, nn => pure nn
  | i, count + 1, nn => do
    let prev_activation ← if i = 0 then pure input else elemAt nn.activations_ i
    let d ← elemAt deltas i
    let W ← elemAt nn.weights_ i
    let W ← matSub W (scaledOuter nn.learning_rate_ d prev_activation)
    let weights ← setAt nn.weights_ i W
    let b ← elemAt nn.biases_ i
    let b ← vecSub b (d.map (fun di => nn.learning_rate_ * di))
    let biases ← setAt nn.biases_ i b
    updateLoop input deltas (i + 1) count { nn with weights_ := weights, biases_ := biases }

/-- The function `NeuralNetwork::backward`. -/
def backward (exp : K → K) (nn : NeuralNetwork K) (input target : VectorXd K) :
    Except Error (NeuralNetwork K) := do
  let (nn, output) ← forward exp nn input
  let delta ← vecSub output target
  let deltas ← backpropLoop nn (nn.weights_.length - 1) [delta]
  updateLoop input deltas 0 nn.weights_.length nn

/-- The function `NeuralNetwork::updateWeights`: the loop over `i < inputs.size()`, from
index `i` on with `count` iterations left. -/
def updateWeightsLoop (exp : K → K) (inputs targets : List (VectorXd K)) :
    Nat → Nat → NeuralNetwork K → Except Error (NeuralNetwork K)
  | _, 0, nn => pure nn
  | i, count + 1, nn => do
    let input ← elemAt inputs i
    let target ← elemAt targets i
    let nn ← backward exp nn input target
    updateWeightsLoop exp inputs targets (i + 1) count nn

/-- The function `NeuralNetwork::updateWeights`. -/
def updateWeights (exp : K → K) (nn : NeuralNetwork K)
    (inputs targets : List (VectorXd K)) : Except Error (NeuralNetwork K) :=
  updateWeightsLoop exp inputs targets 0 inputs.length nn

/-- A matrix with `rows` rows and `cols` columns. -/
def IsMatrix (W : MatrixXd K) (rows cols : Nat) : Prop :=
  W.length = rows ∧ ∀ row ∈ W, row.length = cols

/-- The invariant of the fixed architecture 8 → 64 → 32 → 16 → 5: four
parameter layers, layer `i` with a `layer_sizes[i+1]` by `layer_sizes[i]` weight
matrix and a bias of length `layer_sizes[i+1]`, and five activation vectors. -/
def WellShaped (nn : NeuralNetwork K) : Prop :=
  nn.weights_.length = 4 ∧ nn.biases_.length = 4 ∧ nn.activations_.length = 5 ∧
  ∀ i : Fin 4,
    IsMatrix (nn.weights_.getD i []) (layer_sizes.getD (i + 1) 0) (layer_sizes.getD i 0) ∧
    (nn.biases_.getD i []).length = layer_sizes.getD (i + 1) 0

end NeuralNetwork

end Network

/-! ## `music_rl_engine.h` / `music_rl_engine.cpp` -/

/-- The class `MusicRecommendationDQN`.  The member `environment_` is left out:
no method of the agent reads it. -/
structure MusicRecommendationDQN (K : Type) where
  q_network_ : NeuralNetwork K
  target_network_ : NeuralNetwork K
  experience_buffer_ : ExperienceBuffer K
  epsilon_ : K
  epsilon_decay_ : K
  epsilon_min_ : K
  gamma_ : K
  target_update_freq_ : Int
  training_step_ : Int

section Agent

variable {K : Type} [LinearOrderedField K]

/-- The value of `best_action` after the iterations `i = 1, .., n` of the loop
`for (i = 1; i < q.size(); ++i) if (q(i) > q(best_action)) best_action = i;`. -/
def bestActionAfter (q : VectorXd K) : Nat → Nat
  | 0 => 0
  | n + 1 =>
    let best_action := bestActionAfter q n
    if q.getD (n + 1) 0 > q.getD best_action 0 then n + 1 else best_action

/-- The greedy choice shared by `predict` and `replayExperience`: `best_action`
after the whole loop. -/
def bestAction (q : VectorXd K) : Nat :=
  bestActionAfter q (q.length - 1)

/-- The Eigen assignment `v(i) = x` with an `int` index. -/
def setCoeff (v : VectorXd K) (i : Int) (x : K) : Except Error (VectorXd K) :=
  if 0 ≤ i ∧ i.toNat < v.length then pure (v.set i.toNat x)
  else throw (Error.undefined_behavior "index out of range")

namespace MusicRecommendationDQN

/-- The function `MusicRecommendationDQN::updateTargetNetwork`: the target becomes a copy of
the value network. -/
def updateTargetNetwork (agent : MusicRecommendationDQN K) : MusicRecommendationDQN K :=
  { agent with target_network_ := agent.q_network_ }

/-- The constructor; `draw` and `draw_target` are the random initial weights of
the two networks (the second is overwritten at once), and the buffer has the
default capacity. -/
def new (learning_rate epsilon epsilon_decay epsilon_min gamma : K)
    (draw draw_target : Nat → Nat → Nat → K) : MusicRecommendationDQN K :=
  updateTargetNetwork
    { q_network_ := NeuralNetwork.new learning_rate draw
      target_network_ := NeuralNetwork.new learning_rate draw_target
      experience_buffer_ := ExperienceBuffer.new 10000
      epsilon_ := epsilon
      epsilon_decay_ := epsilon_decay
      epsilon_min_ := epsilon_min
      gamma_ := gamma
      target_update_freq_ := 100
      training_step_ := 0 }

/-- The function `MusicRecommendationDQN::predict`; `u` is the draw `dis(gen)` from `[0, 1)`
and `random_action` the draw `action_dis(gen)` from `0..4` of the exploring
branch. -/
def predict (exp : K → K) (agent : MusicRecommendationDQN K) (state : List K)
    (u : K) (random_action : Int) : Except Error (MusicRecommendationDQN K × Int) := do
  let (q, q_values) ← NeuralNetwork.forward exp agent.q_network_ state
  let agent := { agent with q_network_ := q }
  if u < agent.epsilon_ then
    pure (agent, random_action)
  else
    pure (agent, (bestAction q_values : Int))

/-- The function `MusicRecommendationDQN::getQValues`. -/
def getQValues (exp : K → K) (agent : MusicRecommendationDQN K) (state : List K) :
    Except Error (MusicRecommendationDQN K × List K) := do
  let (q, q_values) ← NeuralNetwork.forward exp agent.q_network_ state
  pure ({ agent with q_network_ := q }, q_values)

/-- The body of the loop over the sampled experiences in `replayExperience`:
the two networks after their forward passes, and the vector `target_q`. -/
def replayTarget (exp : K → K) (gamma : K) (q target : NeuralNetwork K)
    (e : Experience K) :
    Except Error (NeuralNetwork K × NeuralNetwork K × VectorXd K) := do
  let (q, current_q) ← NeuralNetwork.forward exp q e.state
  if e.done then
    let target_q ← setCoeff current_q e.action e.reward
    pure (q, target, target_q)
  else
    let (q, next_q_main) ← NeuralNetwork.forward exp q e.next_state
    let (target, next_q_target) ← NeuralNetwork.forward exp target e.next_state
    let best_action := bestAction next_q_main
    let next_value ← elemAt next_q_target best_action
    let target_q ← setCoeff current_q e.action (e.reward + gamma * next_value)
    pure (q, target, target_q)

/-- The loop over the sampled experiences in `replayExperience`: the two
networks, and the collected `states` and `targets`. -/
def replayLoop (exp : K → K) (gamma : K) :
    List (Experience K) → NeuralNetwork K → NeuralNetwork K →
      Except Error (NeuralNetwork K × NeuralNetwork K × List (VectorXd K) × List (VectorXd K))
  | [], q, target => pure (q, target, [], [])
  | e :: rest, q, target => do
    let (q, target, target_q) ← replayTarget exp gamma q target e
    let (q, target, states, targets) ← replayLoop exp gamma rest q target
    pure (q, target, e.state :: states, target_q :: targets)

/-- The function `MusicRecommendationDQN::replayExperience`; `shuffle` is the outcome of the
shuffle inside `sample`. -/
def replayExperience (exp : K → K) (agent : MusicRecommendationDQN K)
    (shuffle : List Nat → List Nat) : Except Error (MusicRecommendationDQN K) := do
  let batch_size := 32
  let experiences ← agent.experience_buffer_.sample batch_size shuffle
  let (q, target, states, targets) ←
    replayLoop exp agent.gamma_ experiences agent.q_network_ agent.target_network_
  let q ← NeuralNetwork.updateWeights exp q states targets
  pure { agent with q_network_ := q, target_network_ := target }

/-- The last two steps of `train`: the increment of `training_step_` with the
periodic synchronisation of the target network, and the decay of `epsilon_`.
The counter is an `int`: incrementing `INT_MAX` is undefined, and so is a
remainder by zero. -/
def finishTrain (agent : MusicRecommendationDQN K) : Except Error (MusicRecommendationDQN K) :=
  if agent.training_step_ = 2147483647 then
    throw (Error.undefined_behavior "signed integer overflow")
  else if agent.target_update_freq_ = 0 then
    throw (Error.undefined_behavior "division by zero")
  else
    let agent := { agent with training_step_ := agent.training_step_ + 1 }
    let agent := if Int.tmod agent.training_step_ agent.target_update_freq_ = 0 then
      updateTargetNetwork agent else agent
    let agent := if agent.epsilon_ > agent.epsilon_min_ then
      { agent with epsilon_ := agent.epsilon_ * agent.epsilon_decay_ } else agent
    pure agent

/-- The function `MusicRecommendationDQN::train`; `shuffle` is the outcome of the shuffle of
the replay step, if one runs. -/
def train (exp : K → K) (agent : MusicRecommendationDQN K) (state : List K) (action : Int)
    (reward : K) (next_state : List K) (done : Bool) (shuffle : List Nat → List Nat) :
    Except Error (MusicRecommendationDQN K) := do
  let experience : Experience K :=
    { state := state, action := action, reward := reward, next_state := next_state,
      done := done }
  let buffer ← agent.experience_buffer_.add experience
  let agent := { agent with experience_buffer_ := buffer }
  let agent ← if agent.experience_buffer_.canSample 32 then replayExperience exp agent shuffle
    else pure agent
  finishTrain agent

/-- The arguments of one `train` call, with the outcome of the shuffle that its
replay step performs. -/
structure TrainCall (K : Type) where
  state : List K
  action : Int
  reward : K
  next_state : List K
  done : Bool
  shuffle : List Nat → List Nat

/-- A sequence of `train` calls, in order. -/
def trainAll (exp : K → K) (agent : MusicRecommendationDQN K) :
    List (TrainCall K) → Except Error (MusicRecommendationDQN K)
  | [] => pure agent
  | c :: rest => do
    let agent ← train exp agent c.state c.action c.reward c.next_state c.done c.shuffle
    trainAll exp agent rest

/-- A sequence of `predict` calls on the same state, one pair of draws per
call: the agent after the calls and the actions returned, in order. -/
def predictAll (exp : K → K) (agent : MusicRecommendationDQN K) (state : List K) :
    List (K × Int) → Except Error (MusicRecommendationDQN K × List Int)
  | [] => pure (agent, [])
  | (u, random_action) :: rest => do
    let (agent, action) ← predict exp agent state u random_action
    let (agent, actions) ← predictAll exp agent state rest
    pure (agent, action :: actions)

end MusicRecommendationDQN

end Agent

/-! ### The replay target as the specification words it -/

section AgentSpec

variable {K : Type} [LinearOrderedField K]

/-- The specification's `a* = argmax_i v[i]` with ties broken by the lowest
index: `a` is an index of `v`, no entry of `v` exceeds `v[a]`, and every entry
before `a` is smaller than `v[a]`. -/
def IsLowestArgmax (v : VectorXd K) (a : Nat) : Prop :=
  a < v.length ∧ (∀ j, j < v.length → v.getD j 0 ≤ v.getD a 0) ∧
    ∀ j, j < a → v.getD j 0 < v.getD a 0

/-- The specification's target vector `τ` of a transition `(s, a, r, s', done)`:
`τ` agrees with `Network.Forward(s)` off the coordinate `a`; `τ[a] = r` if done,
else `τ[a] = r + γ · TargetNetwork.Forward(s')[a*]` with
`a* = argmax_i Network.Forward(s')[i]`. -/
def IsReplayTarget (exp : K → K) (gamma : K) (q target : NeuralNetwork K)
    (e : Experience K) (τ : VectorXd K) : Prop :=
  ∃ (q1 : NeuralNetwork K) (current_q : VectorXd K),
    NeuralNetwork.forward exp q e.state = Except.ok (q1, current_q) ∧
    τ.length = current_q.length ∧
    (∀ i : Nat, i ≠ e.action.toNat → τ[i]? = current_q[i]?) ∧
    (e.done = true → τ[e.action.toNat]? = some e.reward) ∧
    (e.done = false →
      ∃ (q2 t2 : NeuralNetwork K) (next_q_main next_q_target : VectorXd K) (a_star : Nat)
          (v : K),
        NeuralNetwork.forward exp q e.next_state = Except.ok (q2, next_q_main) ∧
        NeuralNetwork.forward exp target e.next_state = Except.ok (t2, next_q_target) ∧
        IsLowestArgmax next_q_main a_star ∧ next_q_target[a_star]? = some v ∧
        τ[e.action.toNat]? = some (e.reward + gamma * v))

end AgentSpec

/-! ## Further operations of the environment, the network and the agent -/

section MoreEnvironment

variable {K : Type} [LinearOrderedField K]

/-- The function `MusicEnvironment::stateToVector`. -/
def stateToVector (state : State K) : List K :=
  [state.temperature,
   state.weather_condition / 4.0,
   state.hour_of_day,
   state.day_of_week,
   state.user_mood / 4.0,
   state.genre_history 0,
   state.genre_history 1,
   state.genre_history 2]

/-- The function `MusicEnvironment::vectorToState`; after the size check the
eight accesses `vec[0]`, .., `vec[7]` are in range. -/
def vectorToState (vec : List K) : Except Error (State K) :=
  if vec.length ≠ 8 then
    throw (Error.invalid_argument "State vector must have exactly 8 elements")
  else
    pure
      { temperature := vec.getD 0 0
        weather_condition := vec.getD 1 0 * 4.0
        hour_of_day := vec.getD 2 0
        day_of_week := vec.getD 3 0
        user_mood := vec.getD 4 0 * 4.0
        genre_history := ![vec.getD 5 0, vec.getD 6 0, vec.getD 7 0] }

end MoreEnvironment

/-- The conversion `static_cast<Action>(i)` of an underlying value `i` in `0..4`. -/
def Action.ofFin : Fin 5 → Action
  | 0 => .CHILL_LOFI
  | 1 => .POP_HITS
  | 2 => .ROCK_ENERGY
  | 3 => .JAZZ_SMOOTH
  | 4 => .ELECTRONIC_DANCE

/-- The function `MusicEnvironment::intToAction`. -/
def intToAction (action_int : Int) : Except Error Action :=
  if h : action_int < 0 ∨ action_int > 4 then
    throw (Error.invalid_argument "Action must be in range [0, 4]")
  else
    pure (Action.ofFin ⟨action_int.toNat, by omega⟩)

/-- The function `MusicEnvironment::actionToString`: the switch over the underlying value of
the action, with its `default` branch. -/
def actionToString (action : Action) : String :=
  match action.toInt with
  | 0 => "Chill/Lofi"
  | 1 => "Pop Hits"
  | 2 => "Rock/Energy"
  | 3 => "Jazz/Smooth"
  | 4 => "Electronic/Dance"
  | _ => "Unknown"

/-- The list of labels as the specification gives it. -/
def specLabels : List String :=
  ["Chill/Lofi", "Pop Hits", "Rock/Energy", "Jazz/Smooth", "Electronic/Dance"]

section MoreNetwork

variable {K : Type} [LinearOrderedField K]

namespace NeuralNetwork

/-- The function `NeuralNetwork::getActivations`. -/
def getActivations (nn : NeuralNetwork K) (layer : Int) : List K :=
  if layer < 0 ∨ layer ≥ (nn.activations_.length : Int) then []
  else nn.activations_.getD layer.toNat []

/-- The loop over the hidden layers in `forward` as it acts on the object: the
network when the loop ends or fails, and the outcome. -/
def hiddenLoopEffect (nn : NeuralNetwork K) :
    Nat → Nat → VectorXd K → NeuralNetwork K × Except Error (VectorXd K)
  | _, 0, current => (nn, Except.ok current)
  | i, count + 1, current =>
    match elemAt nn.weights_ i with
    | Except.error err => (nn, Except.error err)
    | Except.ok W =>
      match elemAt nn.biases_ i with
      | Except.error err => (nn, Except.error err)
      | Except.ok b =>
        match affine W current b with
        | Except.error err => (nn, Except.error err)
        | Except.ok z =>
          match setAt nn.activations_ (i + 1) (z.map relu) with
          | Except.error err => (nn, Except.error err)
          | Except.ok activations =>
            hiddenLoopEffect { nn with activations_ := activations } (i + 1) count
              (z.map relu)

/-- The function `NeuralNetwork::forward` as it acts on the object, statement
by statement: the network at the moment the call returns or fails, and the
outcome.  (After undefined behaviour the network listed is the one before the
offending statement.) -/
def forwardEffect (exp : K → K) (nn : NeuralNetwork K) (input : VectorXd K) :
    NeuralNetwork K × Except Error (VectorXd K) :=
  if input.length ≠ INPUT_SIZE then
    (nn, Except.error (Error.invalid_argument "Input size mismatch"))
  else
    match setAt nn.activations_ 0 input with
    | Except.error err => (nn, Except.error err)
    | Except.ok activations =>
      let nn1 := { nn with activations_ := activations }
      if nn1.weights_.length = 0 then
        (nn1, Except.error (Error.undefined_behavior "index out of range"))
      else
        match hiddenLoopEffect nn1 0 (nn1.weights_.length - 1) input with
        | (nn2, Except.error err) => (nn2, Except.error err)
        | (nn2, Except.ok current) =>
          match elemAt nn2.weights_ (nn2.weights_.length - 1) with
          | Except.error err => (nn2, Except.error err)
          | Except.ok W =>
            match elemAt nn2.biases_ (nn2.weights_.length - 1) with
            | Except.error err => (nn2, Except.error err)
            | Except.ok b =>
              match affine W current b with
              | Except.error err => (nn2, Except.error err)
              | Except.ok z =>
                match setAt nn2.activations_ (nn2.weights_.length - 1 + 1)
                    (softmax exp z) with
                | Except.error err => (nn2, Except.error err)
                | Except.ok activations =>
                  ({ nn2 with activations_ := activations }, Except.ok (softmax exp z))

end NeuralNetwork

end MoreNetwork

section MoreAgent

variable {K : Type} [LinearOrderedField K]

namespace MusicRecommendationDQN

/-- The function `MusicRecommendationDQN::getActivations`. -/
def getActivations (agent : MusicRecommendationDQN K) (layer : Int) : List K :=
  agent.q_network_.getActivations layer

/-- The function `MusicRecommendationDQN::getEpsilon`. -/
def getEpsilon (agent : MusicRecommendationDQN K) : K :=
  agent.epsilon_

/-- The function `MusicRecommendationDQN::getTrainingStep`. -/
def getTrainingStep (agent : MusicRecommendationDQN K) : Int :=
  agent.training_step_

/-- The value of `epsilon_` after one `train` call that returns. -/
def decayOnce (epsilon_decay epsilon_min epsilon : K) : K :=
  if epsilon > epsilon_min then epsilon * epsilon_decay else epsilon

/-- The transition that a `train` call stores. -/
def TrainCall.experience (call : TrainCall K) : Experience K :=
  { state := call.state, action := call.action, reward := call.reward,
    next_state := call.next_state, done := call.done }

end MusicRecommendationDQN

end MoreAgent

/-! ## Model files: `saveWeights` and `loadWeights` -/

/-- A value held by a model file: the file is the sequence of the values
written, each one a `size_t`, an `int` or a `double` stored as its raw bytes. -/
inductive Datum (K : Type)
  | size_t (n : Nat)
  | int (i : Int)
  | double (x : K)

section ModelFile

variable {K : Type} [LinearOrderedField K]

namespace NeuralNetwork

/-- The columns `c`, `c + 1`, .. (`count` of them) of a matrix, one after the
other, each from the first row to the last. -/
def columnsFrom (W : MatrixXd K) : Nat → Nat → List K
  | _, 0 => []
  | c, count + 1 => W.map (fun row => row.getD c 0) ++ columnsFrom W (c + 1) count

/-- The coefficients that `MatrixXd::data()` points to, in storage order.  The
type `Eigen::MatrixXd` has Eigen's default storage order, which is column-major
(the sources select no other order): the first column comes first. -/
def data (W : MatrixXd K) : List K :=
  columnsFrom W 0 (cols W)

/-- The matrix with `rows` rows and `cols` columns whose storage, in the order
of `data()`, is `storage`. -/
def ofData (rows cols : Nat) (storage : List K) : MatrixXd K :=
  (List.range rows).map (fun r =>
    (List.range cols).map (fun c => storage.getD (c * rows + r) 0))

/-- What one iteration of the loop of `saveWeights` writes for a layer with
weights `W` and bias `b`: `rows`, `cols`, the `rows * cols` doubles at
`W.data()`, `bias_size`, and the doubles at `b.data()`. -/
def layerBlock (W : MatrixXd K) (b : VectorXd K) : List (Datum K) :=
  [Datum.int (W.length : Int), Datum.int (cols W : Int)] ++ (data W).map Datum.double ++
    [Datum.int (b.length : Int)] ++ b.map Datum.double

/-- The loop of `saveWeights`, from layer `i` on with `count` iterations left:
the values written. -/
def saveLoop (nn : NeuralNetwork K) : Nat → Nat → Except Error (List (Datum K))
  | _, 0 => pure []
  | i, count + 1 => do
    let W ← elemAt nn.weights_ i
    let b ← elemAt nn.biases_ i
    let rest ← saveLoop nn (i + 1) count
    pure (layerBlock W b ++ rest)

/-- The function `NeuralNetwork::saveWeights`: the content of the file written;
`is_open` tells whether the file could be opened. -/
def saveWeights (nn : NeuralNetwork K) (is_open : Bool) : Except Error (List (Datum K)) :=
  if is_open = false then
    throw (Error.runtime_error "Cannot open file for writing")
  else do
    let layers ← saveLoop nn 0 nn.weights_.length
    pure (Datum.size_t nn.weights_.length :: layers)

/-- A `file.read` into a `size_t`.  A read that the file cannot serve leaves the
variable without a value. -/
def readSizeT : List (Datum K) → Except Error (Nat × List (Datum K))
  | Datum.size_t n :: rest => pure (n, rest)
  | _ => throw (Error.undefined_behavior "use of a value that was never read")

/-- A `file.read` into an `int`. -/
def readInt : List (Datum K) → Except Error (Int × List (Datum K))
  | Datum.int i :: rest => pure (i, rest)
  | _ => throw (Error.undefined_behavior "use of a value that was never read")

/-- A `file.read` of `count` doubles. -/
def readDoubles : Nat → List (Datum K) → Except Error (List K × List (Datum K))
  | 0, stream => pure ([], stream)
  | count + 1, Datum.double x :: rest => do
    let (xs, stream) ← readDoubles count rest
    pure (x :: xs, stream)
  | _ + 1, _ => throw (Error.undefined_behavior "use of a value that was never read")

/-- The loop of `loadWeights` over the layers, with `count` iterations left: the
weights and biases pushed.  The sizes read must not be negative. -/
def loadLoop : Nat → List (Datum K) →
    Except Error (List (MatrixXd K) × List (VectorXd K))
  | 0, _ => pure ([], [])
  | count + 1, stream => do
    let (rows, stream) ← readInt stream
    let (cols, stream) ← readInt stream
    if rows < 0 ∨ cols < 0 then
      throw (Error.undefined_behavior "negative matrix size")
    let (storage, stream) ← readDoubles (rows.toNat * cols.toNat) stream
    let weight := ofData rows.toNat cols.toNat storage
    let (bias_size, stream) ← readInt stream
    if bias_size < 0 then
      throw (Error.undefined_behavior "negative vector size")
    let (bias, stream) ← readDoubles bias_size.toNat stream
    let (weights, biases) ← loadLoop count stream
    pure (weight :: weights, bias :: biases)

/-- The function `NeuralNetwork::loadWeights`; `file` is the content of the
file, or `none` when it cannot be opened. -/
def loadWeights (nn : NeuralNetwork K) (file : Option (List (Datum K))) :
    Except Error (NeuralNetwork K) :=
  match file with
  | none => throw (Error.runtime_error "Cannot open file for reading")
  | some stream => do
    let (num_layers, stream) ← readSizeT stream
    let (weights, biases) ← loadLoop num_layers stream
    pure
      { nn with
        weights_ := weights
        biases_ := biases
        activations_ := List.replicate INPUT_SIZE 0 ::
          weights.map (fun weight => List.replicate weight.length 0) }

end NeuralNetwork

namespace MusicRecommendationDQN

/-- The function `MusicRecommendationDQN::saveModel`. -/
def saveModel (agent : MusicRecommendationDQN K) (is_open : Bool) :
    Except Error (List (Datum K)) :=
  agent.q_network_.saveWeights is_open

/-- The function `MusicRecommendationDQN::loadModel`. -/
def loadModel (agent : MusicRecommendationDQN K) (file : Option (List (Datum K))) :
    Except Error (MusicRecommendationDQN K) := do
  let q ← agent.q_network_.loadWeights file
  pure (updateTargetNetwork { agent with q_network_ := q })

end MusicRecommendationDQN

end ModelFile

/-! ### The invariant of an agent in use -/

section AgentInvariant

variable {K : Type} [LinearOrderedField K]

/-- A transition that the replay step can process: an 8-element state, an
8-element next state unless the transition is terminal, and an action in `0..4`. -/
def Experience.Valid (e : Experience K) : Prop :=
  e.state.length = 8 ∧ (e.done = false → e.next_state.length = 8) ∧
    0 ≤ e.action ∧ e.action ≤ 4

namespace MusicRecommendationDQN

/-- The invariant of an agent between `train` calls with valid arguments: both
networks have the fixed architecture, the buffer has a positive capacity and
holds transitions the replay step can process, and the period of the target
synchronisation is not 0. -/
def Usable (agent : MusicRecommendationDQN K) : Prop :=
  NeuralNetwork.WellShaped agent.q_network_ ∧
  NeuralNetwork.WellShaped agent.target_network_ ∧
  0 < agent.experience_buffer_.max_size_ ∧
  (∀ e ∈ agent.experience_buffer_.buffer_, Experience.Valid e) ∧
  agent.target_update_freq_ ≠ 0

/-- A `train` call with valid arguments, whose shuffle permutes the index
vector it is given. -/
def TrainCall.Valid (call : TrainCall K) : Prop :=
  Experience.Valid call.experience ∧
    ∀ n : Nat, (call.shuffle (List.range n)).Perm (List.range n)

end MusicRecommendationDQN

end AgentInvariant

/-! ### The output-layer errors of a replay step -/

section ReplayErrors

variable {K : Type} [LinearOrderedField K]

namespace NeuralNetwork

/-- The value that `backward` assigns to `deltas[weights_.size() - 1]`: the
output of its forward pass minus the target. -/
def outputError (exp : K → K) (nn : NeuralNetwork K) (input target : VectorXd K) :
    Except Error (VectorXd K) := do
  let (_, output) ← forward exp nn input
  vecSub output target

/-- The loop of `updateWeights`, from index `i` on with `count` iterations left,
recording the output-layer error of each `backward` call. -/
def updateWeightsErrors (exp : K → K) (inputs targets : List (VectorXd K)) :
    Nat → Nat → NeuralNetwork K → Except Error (List (VectorXd K))
  | _, 0, _ => pure []
  | i, count + 1, nn => do
    let input ← elemAt inputs i
    let target ← elemAt targets i
    let error ← outputError exp nn input target
    let nn ← backward exp nn input target
    let rest ← updateWeightsErrors exp inputs targets (i + 1) count nn
    pure (error :: rest)

end NeuralNetwork

namespace MusicRecommendationDQN

/-- The function `MusicRecommendationDQN::replayExperience`, recording instead of the new
agent the sampled transitions and, in the same order, the output-layer errors
of the `backward` calls that `updateWeights` makes for them. -/
def replayErrors (exp : K → K) (agent : MusicRecommendationDQN K)
    (shuffle : List Nat → List Nat) :
    Except Error (List (Experience K) × List (VectorXd K)) := do
  let batch_size := 32
  let experiences ← agent.experience_buffer_.sample batch_size shuffle
  let (q, _, states, targets) ←
    replayLoop exp agent.gamma_ experiences agent.q_network_ agent.target_network_
  let errors ← NeuralNetwork.updateWeightsErrors exp states targets 0 states.length q
  pure (experiences, errors)

end MusicRecommendationDQN

end ReplayErrors

/-! ### A family of networks with five free parameters -/

/-- The free parameters of a network of the family: the bias `beta` of the third
layer, the output-layer weights `u` (row 2) and `v` (other rows) and the
output-layer biases `c` (coordinate 2) and `d` (other coordinates). -/
structure Probe (K : Type) where
  beta : K
  u : K
  v : K
  c : K
  d : K

namespace Probe

variable {K : Type} [LinearOrderedField K]

/-- The network with the fixed architecture whose first two layers have zero
weights and biases, whose third layer has zero weights and the bias `beta` in
each of its 16 units, and whose output layer has the weight `u` in row 2, `v`
in the other rows, and the biases `c` at coordinate 2 and `d` elsewhere. -/
def network (learning_rate : K) (p : Probe K) (activations : List (VectorXd K)) :
    NeuralNetwork K :=
  { weights_ :=
      [List.replicate 64 (List.replicate 8 0), List.replicate 32 (List.replicate 64 0),
       List.replicate 16 (List.replicate 32 0),
       [List.replicate 16 p.v, List.replicate 16 p.v, List.replicate 16 p.u,
        List.replicate 16 p.v, List.replicate 16 p.v]]
    biases_ :=
      [List.replicate 64 0, List.replicate 32 0, List.replicate 16 p.beta,
       [p.d, p.d, p.c, p.d, p.d]]
    activations_ := activations
    learning_rate_ := learning_rate }

/-- The pre-softmax output at coordinate 2 on the zero state, for `beta ≥ 0`. -/
def z2 (p : Probe K) : K := 16 * (p.u * p.beta) + p.c

/-- The pre-softmax output at the other coordinates on the zero state. -/
def zo (p : Probe K) : K := 16 * (p.v * p.beta) + p.d

/-- The denominator of the softmax. -/
def total (exp : K → K) (p : Probe K) : K := 4 * exp p.zo + exp p.z2

/-- The output at coordinate 2 on the zero state. -/
def p2 (exp : K → K) (p : Probe K) : K := exp p.z2 / p.total exp

/-- The output at each other coordinate on the zero state. -/
def po (exp : K → K) (p : Probe K) : K := exp p.zo / p.total exp

/-- The output on the zero state. -/
def output (exp : K → K) (p : Probe K) : VectorXd K :=
  [p.po exp, p.po exp, p.p2 exp, p.po exp, p.po exp]

/-- The parameters after one `backward` call on the zero state with the target
`[target_o, target_o, target_2, target_o, target_o]`. -/
def step (exp : K → K) (learning_rate target_o target_2 : K) (p : Probe K) : Probe K :=
  let δ2 := p.p2 exp - target_2
  let δo := p.po exp - target_o
  let g := 4 * (p.v * δo) + p.u * δ2
  { beta := p.beta - learning_rate * (g * (if p.beta > 0 then 1 else 0))
    u := p.u - learning_rate * (δ2 * p.beta)
    v := p.v - learning_rate * (δo * p.beta)
    c := p.c - learning_rate * δ2
    d := p.d - learning_rate * δo }

end Probe

/-! ### A family of networks with nine free parameters -/

/-- The free parameters of a network of the second family: the bias `b0` of the
first layer, the weight `w1` and the bias `b1` of the second layer, the weight
`w2` and the bias `b2` of the third layer, and the output layer as in `Probe`:
the weights `u` (row 2) and `v` (other rows) and the biases `c` (coordinate 2)
and `d` (other coordinates). -/
structure Tower (K : Type) where
  b0 : K
  w1 : K
  b1 : K
  w2 : K
  b2 : K
  u : K
  v : K
  c : K
  d : K

namespace Tower

variable {K : Type} [LinearOrderedField K]

/-- The network with the fixed architecture whose first layer has the weights
`W0` and the bias `b0` in each unit, whose second and third layers have the
same weight (`w1`, `w2`) in every coefficient and the same bias (`b1`, `b2`) in
every unit, and whose output layer has the weight `u` in row 2, `v` in the other
rows, and the biases `c` at coordinate 2 and `d` elsewhere. -/
def network (learning_rate : K) (W0 : MatrixXd K) (t : Tower K)
    (activations : List (VectorXd K)) : NeuralNetwork K :=
  { weights_ :=
      [W0, List.replicate 32 (List.replicate 64 t.w1),
       List.replicate 16 (List.replicate 32 t.w2),
       [List.replicate 16 t.v, List.replicate 16 t.v, List.replicate 16 t.u,
        List.replicate 16 t.v, List.replicate 16 t.v]]
    biases_ :=
      [List.replicate 64 t.b0, List.replicate 32 t.b1, List.replicate 16 t.b2,
       [t.d, t.d, t.c, t.d, t.d]]
    activations_ := activations
    learning_rate_ := learning_rate }

/-- The activation of each unit of the first layer on the zero state. -/
def s1 (t : Tower K) : K := relu t.b0

/-- The activation of each unit of the second layer on the zero state. -/
def s2 (t : Tower K) : K := relu (64 * (t.w1 * t.s1) + t.b1)

/-- The activation of each unit of the third layer on the zero state. -/
def s3 (t : Tower K) : K := relu (32 * (t.w2 * t.s2) + t.b2)

/-- The output layer on the zero state, as a member of the first family: the
third-layer activation takes the place of `beta`. -/
def head (t : Tower K) : Probe K :=
  { beta := t.s3, u := t.u, v := t.v, c := t.c, d := t.d }

/-- The entry of `deltas[2]` in a `backward` call on the zero state with the
target `[target_o, target_o, target_2, target_o, target_o]`. -/
def g3 (exp : K → K) (target_o target_2 : K) (t : Tower K) : K :=
  (4 * (t.v * (t.head.po exp - target_o)) + t.u * (t.head.p2 exp - target_2)) *
    (if t.s3 > 0 then 1 else 0)

/-- The entry of `deltas[1]` in that call. -/
def g2 (exp : K → K) (target_o target_2 : K) (t : Tower K) : K :=
  16 * (t.w2 * t.g3 exp target_o target_2) * (if t.s2 > 0 then 1 else 0)

/-- The entry of `deltas[0]` in that call. -/
def g1 (exp : K → K) (target_o target_2 : K) (t : Tower K) : K :=
  32 * (t.w1 * t.g2 exp target_o target_2) * (if t.s1 > 0 then 1 else 0)

/-- The parameters after one `backward` call on the zero state with the target
`[target_o, target_o, target_2, target_o, target_o]`. -/
def step (exp : K → K) (learning_rate target_o target_2 : K) (t : Tower K) : Tower K :=
  { b0 := t.b0 - learning_rate * t.g1 exp target_o target_2
    w1 := t.w1 - learning_rate * (t.g2 exp target_o target_2 * t.s1)
    b1 := t.b1 - learning_rate * t.g2 exp target_o target_2
    w2 := t.w2 - learning_rate * (t.g3 exp target_o target_2 * t.s2)
    b2 := t.b2 - learning_rate * t.g3 exp target_o target_2
    u := t.u - learning_rate * ((t.head.p2 exp - target_2) * t.s3)
    v := t.v - learning_rate * ((t.head.po exp - target_o) * t.s3)
    c := t.c - learning_rate * (t.head.p2 exp - target_2)
    d := t.d - learning_rate * (t.head.po exp - target_o) }

end Tower

/-! ### Concrete inputs -/

/-- The network the constructor yields when every weight is drawn as 0. -/
def zeroNetwork (K : Type) [LinearOrderedField K] : NeuralNetwork K :=
  NeuralNetwork.new 0.001 (fun _ _ _ => 0)

/-- A non-terminal transition between zero states, with action 0 and reward 0. -/
def bootstrapTransition : Experience ℚ :=
  { state := List.replicate 8 0, action := 0, reward := 0,
    next_state := List.replicate 8 0, done := false }

/-- The terminal transition of the first scenario: zero states, action 2 and
reward 0.7. -/
def terminalTransition : Experience ℚ :=
  { state := List.replicate 8 0, action := 2, reward := 0.7,
    next_state := List.replicate 8 0, done := true }

/-- An agent as constructed with the default hyperparameters, every weight
drawn as 0. -/
def defaultAgent : MusicRecommendationDQN ℚ :=
  MusicRecommendationDQN.new 0.001 1.0 0.995 0.01 0.95 (fun _ _ _ => 0) (fun _ _ _ => 0)

/-- An agent as constructed with the default hyperparameters over any field,
every weight drawn as 0. -/
def defaultAgentOver (K : Type) [LinearOrderedField K] : MusicRecommendationDQN K :=
  MusicRecommendationDQN.new 0.001 1.0 0.995 0.01 0.95 (fun _ _ _ => 0) (fun _ _ _ => 0)

/-- A `train` call on the zero state with action 0, reward 0, not terminal,
whose shuffle leaves the index vector as it is. -/
def plainCall (K : Type) [LinearOrderedField K] : MusicRecommendationDQN.TrainCall K :=
  { state := List.replicate 8 0, action := 0, reward := 0,
    next_state := List.replicate 8 0, done := false, shuffle := id }

/-- A network as constructed whose only non-zero weight is the coefficient at
row 0 and column 1 of the first layer. -/
def markedNetwork : NeuralNetwork ℚ :=
  NeuralNetwork.new 0.001 (fun i row col => if i = 0 ∧ row = 0 ∧ col = 1 then 1 else 0)

/-- The same agent with exploration switched off (`epsilon = 0`). -/
def greedyAgent : MusicRecommendationDQN ℚ :=
  MusicRecommendationDQN.new 0.001 0 0.995 0 0.95 (fun _ _ _ => 0) (fun _ _ _ => 0)

/-- The terminal transition of the first scenario over any field: zero states,
action 2 and reward 0.7. -/
def terminalTransitionOver (K : Type) [LinearOrderedField K] : Experience K :=
  { state := List.replicate 8 0, action := 2, reward := 0.7,
    next_state := List.replicate 8 0, done := true }

/-- An agent with the value network `nn` whose replay memory holds 32 copies of
the terminal transition, so that the minibatch of its next replay step consists
of these copies; the hyperparameters are the default ones. -/
def batchAgent {K : Type} [LinearOrderedField K] (nn : NeuralNetwork K) :
    MusicRecommendationDQN K :=
  { q_network_ := nn
    target_network_ := nn
    experience_buffer_ :=
      { buffer_ := List.replicate 32 (terminalTransitionOver K), max_size_ := 10000 }
    epsilon_ := 1.0
    epsilon_decay_ := 0.995
    epsilon_min_ := 0.01
    gamma_ := 0.95
    target_update_freq_ := 100
    training_step_ := 31 }

/-- The five cached activations of a network before its first forward pass. -/
def zeroActivations (K : Type) [LinearOrderedField K] : List (VectorXd K) :=
  [List.replicate 8 0, List.replicate 64 0, List.replicate 32 0, List.replicate 16 0,
    List.replicate 5 0]

/-- The member of the family with all parameters zero. -/
def Probe.flat (K : Type) [LinearOrderedField K] : Probe K :=
  { beta := 0, u := 0, v := 0, c := 0, d := 0 }

/-- The specification's statement about one replay step on a minibatch of
copies of the terminal transition, for the value network `nn` run with the
learning rate `alpha`: the squared error `(forward(state)[2] - 0.7)^2` is no
larger after the step than before it, and strictly smaller if
`forward(state)[2]` was not `0.7`. -/
def SpecDescent (nn : NeuralNetwork ℝ) (alpha : ℝ) : Prop :=
  ∀ shuffle : List Nat → List Nat,
    (shuffle (List.range 32)).Perm (List.range 32) →
    ∃ (agent' : MusicRecommendationDQN ℝ) (q q' : NeuralNetwork ℝ) (out out' : VectorXd ℝ),
      MusicRecommendationDQN.replayExperience Real.exp
        (batchAgent { nn with learning_rate_ := alpha }) shuffle = Except.ok agent' ∧
      NeuralNetwork.forward Real.exp { nn with learning_rate_ := alpha } (List.replicate 8 0) =
        Except.ok (q, out) ∧
      NeuralNetwork.forward Real.exp agent'.q_network_ (List.replicate 8 0) =
        Except.ok (q', out') ∧
      (out'.getD 2 0 - 0.7) ^ 2 ≤ (out.getD 2 0 - 0.7) ^ 2 ∧
      (out.getD 2 0 ≠ 0.7 → (out'.getD 2 0 - 0.7) ^ 2 < (out.getD 2 0 - 0.7) ^ 2)

section EnvironmentProofs

variable {K : Type} [LinearOrderedField K]

/-- The loop of `getGenreConsistency`, unrolled. -/
theorem getGenreConsistency_eq (history : Fin 3 → K) (action : Action) :
    getGenreConsistency history action =
      ((1 - |(action.toInt : K) / 4 - history 0|)
        + 0.8 * (1 - |(action.toInt : K) / 4 - history 1|)
        + 0.6 * (1 - |(action.toInt : K) / 4 - history 2|)) / 3 := by
  simp only [getGenreConsistency, List.foldl_cons, List.foldl_nil]
  norm_num

/-- The weather code of `outOfRangeState` is beyond the range of `int`. -/
theorem outOfRangeState_large : (2147483648 : K) ≤ (outOfRangeState K).weather_condition := by
  simp only [outOfRangeState]
  norm_num

/-- The two formulations of the clamp agree. -/
theorem specClamp_eq (x : K) : specClamp x (-1) 1 = max (-1.0) (min 1.0 x) := by
  unfold specClamp
  have h1 : (1.0 : K) = 1 := by norm_num
  rw [h1]
  split_ifs with h h'
  · rw [max_eq_left]
    exact le_trans (min_le_right _ _) h.le
  · rw [min_eq_left h'.le, max_eq_right]
    norm_num
  · push_neg at h h'
    rw [min_eq_right h', max_eq_right h]

theorem specGenreConsistency_eq (action : Action) (history : Fin 3 → K) :
    specGenreConsistency action history = getGenreConsistency history action := by
  rw [getGenreConsistency_eq]
  simp only [specGenreConsistency, specWeights, Fin.sum_univ_three, Matrix.cons_val_zero,
    Matrix.cons_val_one, Matrix.head_cons, Matrix.cons_val_two, Matrix.tail_cons]
  norm_num
  ring

theorem specTempBonus_eq (action : Action) (state : State K) :
    specTempBonus action state.temperature = tempBonus action state := by
  unfold specTempBonus tempBonus
  by_cases h1 : state.temperature > 0.5 ∧
      (action = Action.ELECTRONIC_DANCE ∨ action = Action.POP_HITS)
  · rw [if_pos (Or.inl h1), if_pos h1]
  · rw [if_neg h1]
    by_cases h2 : state.temperature < -0.5 ∧
        (action = Action.CHILL_LOFI ∨ action = Action.JAZZ_SMOOTH)
    · rw [if_pos (Or.inr h2), if_pos h2]
    · rw [if_neg h2, if_neg (not_or.mpr ⟨h1, h2⟩)]
      norm_num

theorem getWeatherMoodCompatibility_eq (weather : Int) (action : Action) :
    (getWeatherMoodCompatibility weather action : K) = specWeatherEntry weather action := by
  unfold specWeatherEntry
  by_cases h : 0 ≤ weather ∧ weather ≤ 4
  · rw [dif_pos h]
    obtain ⟨h0, h4⟩ := h
    have hcases : weather = 0 ∨ weather = 1 ∨ weather = 2 ∨ weather = 3 ∨ weather = 4 := by
      omega
    rcases hcases with rfl | rfl | rfl | rfl | rfl <;> cases action <;>
      simp [getWeatherMoodCompatibility, specWeatherTable, specActionIndex]
  · rw [dif_neg h]
    unfold getWeatherMoodCompatibility
    split <;> first | rfl | (exfalso; exact h ⟨by decide, by decide⟩)

theorem getTimeMoodCompatibility_eq (hour : K) (action : Action) :
    getTimeMoodCompatibility hour action =
      specTimeTable (specTimeBand hour) (specActionIndex action) := by
  unfold getTimeMoodCompatibility specTimeBand
  by_cases h5 : hour < 5
  · rw [if_neg (fun h => absurd h.1 (not_le.2 h5)),
      if_neg (fun h => absurd h.1 (not_le.2 (lt_trans h5 (by norm_num)))),
      if_neg (fun h => absurd h.1 (not_le.2 (lt_trans h5 (by norm_num)))), if_pos h5]
    cases action <;> simp [specTimeTable, specActionIndex]
  · rw [if_neg h5]
    by_cases h9 : hour < 9
    · rw [if_pos ⟨not_lt.1 h5, h9⟩, if_pos h9]
      cases action <;> simp [specTimeTable, specActionIndex]
    · rw [if_neg (fun h => h9 h.2), if_neg h9]
      by_cases h17 : hour < 17
      · rw [if_pos ⟨not_lt.1 h9, h17⟩, if_pos h17]
        cases action <;> simp [specTimeTable, specActionIndex]
      · rw [if_neg (fun h => h17 h.2), if_neg h17]
        by_cases h22 : hour < 22
        · rw [if_pos ⟨not_lt.1 h17, h22⟩, if_pos h22]
          cases action <;> simp [specTimeTable, specActionIndex]
        · rw [if_neg (fun h => h22 h.2), if_neg h22]
          cases action <;> simp [specTimeTable, specActionIndex]

theorem clamp_mem_Icc (x : K) : -1 ≤ max (-1.0) (min 1.0 x) ∧ max (-1.0 : K) (min 1.0 x) ≤ 1 := by
  have h1 : (1.0 : K) = 1 := by norm_num
  rw [h1]
  exact ⟨le_max_left _ _, max_le (by norm_num) (min_le_left _ _)⟩

variable [FloorRing K]

/-- The conversion to `int` is defined for the numbers strictly between
`-2147483649` and `2147483648`, and there it truncates toward zero. -/
theorem truncToInt_of_range (x : K) (h1 : -2147483649 < x) (h2 : x < 2147483648) :
    truncToInt x = Except.ok (specTruncate x) := by
  unfold truncToInt specTruncate
  dsimp only
  by_cases h0 : 0 ≤ x
  · have hf0 : (0 : Int) ≤ ⌊x⌋ := Int.floor_nonneg.2 h0
    have hf1 : ⌊x⌋ < 2147483648 := Int.floor_lt.2 (by exact_mod_cast h2)
    rw [if_pos h0, if_neg (not_lt.2 h0), abs_of_nonneg h0, one_mul,
      if_pos ⟨by omega, by omega⟩]
    rfl
  · have hneg : x < 0 := not_le.1 h0
    have hc0 : ⌈x⌉ ≤ 0 := Int.ceil_le.2 (by exact_mod_cast hneg.le)
    have hc1 : -2147483649 < ⌈x⌉ := Int.lt_ceil.2 (by exact_mod_cast h1)
    rw [if_neg h0, if_pos hneg, abs_of_neg hneg, Int.floor_neg, if_pos ⟨by omega, by omega⟩]
    simp [pure, Except.pure]

theorem truncToInt_of_large (x : K) (h : 2147483648 ≤ x) :
    truncToInt x =
      Except.error (Error.undefined_behavior "value not representable in int") := by
  unfold truncToInt
  dsimp only
  have h0 : 0 ≤ x := le_trans (by norm_num) h
  have hf : (2147483648 : Int) ≤ ⌊x⌋ := Int.le_floor.2 (by exact_mod_cast h)
  rw [if_pos h0, if_neg (fun hc => by omega)]
  rfl

theorem truncToInt_of_small (x : K) (h : x ≤ -2147483649) :
    truncToInt x =
      Except.error (Error.undefined_behavior "value not representable in int") := by
  unfold truncToInt
  dsimp only
  have h0 : ¬ 0 ≤ x := fun hc => absurd (le_trans hc h) (by norm_num)
  have hc : ⌈x⌉ ≤ (-2147483649 : Int) := Int.ceil_le.2 (by exact_mod_cast h)
  rw [if_neg h0, if_neg (fun hc => by omega)]
  rfl

theorem truncToInt_zero : truncToInt (0 : K) = Except.ok 0 := by
  simp [truncToInt, pure, Except.pure]

/-- The value of `calculateReward` when the conversion of the weather code
yields `weather`. -/
theorem calculateReward_of_weather (action : Action) (state : State K) (rating : K)
    (weather : Int) (h : truncToInt state.weather_condition = Except.ok weather) :
    totalReward action state rating =
      Except.ok (baseReward rating + 0.3 * getWeatherMoodCompatibility weather action +
        0.2 * getTimeMoodCompatibility (state.hour_of_day * 24.0) action +
        0.2 * getGenreConsistency state.genre_history action + tempBonus action state) ∧
    calculateReward action state rating =
      Except.ok (max (-1.0) (min 1.0
        (baseReward rating + 0.3 * getWeatherMoodCompatibility weather action +
        0.2 * getTimeMoodCompatibility (state.hour_of_day * 24.0) action +
        0.2 * getGenreConsistency state.genre_history action + tempBonus action state))) := by
  have htotal : totalReward action state rating =
      Except.ok (baseReward rating + 0.3 * getWeatherMoodCompatibility weather action +
        0.2 * getTimeMoodCompatibility (state.hour_of_day * 24.0) action +
        0.2 * getGenreConsistency state.genre_history action + tempBonus action state) := by
    unfold totalReward
    dsimp only
    rw [h]
    rfl
  refine ⟨htotal, ?_⟩
  unfold calculateReward
  rw [htotal]
  rfl

/-- When the conversion of the weather code is undefined, so is the reward. -/
theorem calculateReward_of_large (action : Action) (state : State K) (rating : K)
    (h : 2147483648 ≤ state.weather_condition) :
    calculateReward action state rating =
      Except.error (Error.undefined_behavior "value not representable in int") := by
  unfold calculateReward totalReward
  dsimp only
  rw [truncToInt_of_large _ h]
  rfl

theorem calculateReward_eq_specReward (action : Action) (state : State K) (rating : K)
    (h1 : -2147483649 < state.weather_condition) (h2 : state.weather_condition < 2147483648) :
    calculateReward action state rating = Except.ok (specReward action state rating) := by
  rw [(calculateReward_of_weather action state rating _
    (truncToInt_of_range _ h1 h2)).2]
  unfold specReward baseReward
  simp only []
  rw [specClamp_eq, specGenreConsistency_eq, specTempBonus_eq, getWeatherMoodCompatibility_eq,
    getTimeMoodCompatibility_eq]
  have h24 : state.hour_of_day * 24.0 = 24 * state.hour_of_day := by norm_num; ring
  rw [h24]

theorem scenario_terms (day : K) :
    baseReward (5 : K) = 1 ∧
    truncToInt (scenarioState day).weather_condition = Except.ok 0 ∧
    (getWeatherMoodCompatibility 0 Action.ELECTRONIC_DANCE : K) = 0.7 ∧
    getTimeMoodCompatibility ((scenarioState day).hour_of_day * 24.0)
        Action.ELECTRONIC_DANCE = 0.2 ∧
    getGenreConsistency (scenarioState day).genre_history Action.ELECTRONIC_DANCE = 0.2 ∧
    tempBonus Action.ELECTRONIC_DANCE (scenarioState day) = 0.1 := by
  refine ⟨?_, truncToInt_zero, ?_, ?_, ?_, ?_⟩
  · norm_num [baseReward]
  · simp only [getWeatherMoodCompatibility]
  · simp only [scenarioState, getTimeMoodCompatibility]
    norm_num
  · rw [getGenreConsistency_eq]
    simp only [scenarioState, Action.toInt, Matrix.cons_val_zero,
      Matrix.cons_val_one, Matrix.head_cons, Matrix.cons_val_two, Matrix.tail_cons]
    norm_num
    rw [abs_of_nonneg (by norm_num)]
    norm_num
  · simp only [scenarioState, tempBonus]
    norm_num

theorem scenario_total (day : K) :
    totalReward Action.ELECTRONIC_DANCE (scenarioState day) 5 = Except.ok 1.39 := by
  obtain ⟨hb, hc, hw, ht, hg, hp⟩ := scenario_terms day
  rw [(calculateReward_of_weather Action.ELECTRONIC_DANCE (scenarioState day) 5 0 hc).1,
    hb, hw, ht, hg, hp]
  norm_num

theorem scenario_reward (day : K) :
    calculateReward Action.ELECTRONIC_DANCE (scenarioState day) 5 = Except.ok 1 := by
  obtain ⟨hb, hc, hw, ht, hg, hp⟩ := scenario_terms day
  rw [(calculateReward_of_weather Action.ELECTRONIC_DANCE (scenarioState day) 5 0 hc).2,
    hb, hw, ht, hg, hp]
  norm_num

/-- Whatever `calculateReward` returns lies between -1 and 1. -/
theorem calculateReward_bounds (action : Action) (state : State K) (rating r : K)
    (h : calculateReward action state rating = Except.ok r) : -1 ≤ r ∧ r ≤ 1 := by
  cases hn : truncToInt state.weather_condition with
  | error err =>
    unfold calculateReward totalReward at h
    dsimp only at h
    rw [hn] at h
    cases h
  | ok weather =>
    rw [(calculateReward_of_weather action state rating weather hn).2] at h
    cases h
    exact clamp_mem_Icc _

/-- C1 (amended): for every action, every user rating and every state whose
weather code lies strictly between -2147483649 and 2147483648, so that its
conversion to `int` is defined, `calculateReward` returns a value in the closed
interval from -1 to 1. -/
theorem calculateReward_mem_Icc (action : Action) (state : State K) (user_rating : K)
    (h1 : -2147483649 < state.weather_condition)
    (h2 : state.weather_condition < 2147483648) :
    ∃ r : K, calculateReward action state user_rating = Except.ok r ∧ -1 ≤ r ∧ r ≤ 1 := by
  have hr := calculateReward_eq_specReward action state user_rating h1 h2
  exact ⟨_, hr, calculateReward_bounds action state user_rating _ hr⟩

/-- C1 (amended) at a concrete input: the scenario state with ELECTRONIC_DANCE
and the rating 5. -/
theorem calculateReward_mem_Icc_witness :
    -2147483649 < (scenarioState (0 : ℚ)).weather_condition ∧
    (scenarioState (0 : ℚ)).weather_condition < 2147483648 ∧
    ∃ r : ℚ, calculateReward Action.ELECTRONIC_DANCE (scenarioState (0 : ℚ)) 5 = Except.ok r ∧
      -1 ≤ r ∧ r ≤ 1 :=
  ⟨by norm_num [scenarioState], by norm_num [scenarioState],
    calculateReward_mem_Icc _ _ _ (by norm_num [scenarioState]) (by norm_num [scenarioState])⟩

/-- C1 (as stated) fails: for the state with the weather code `10000000000` the
conversion `static_cast<int>(state.weather_condition)` is undefined, and
`calculateReward` yields no value at all, hence none in the interval from -1
to 1. -/
theorem calculateReward_undefined_out_of_range :
    calculateReward Action.ELECTRONIC_DANCE (outOfRangeState ℚ) 5 =
      Except.error (Error.undefined_behavior "value not representable in int") ∧
    ¬ ∃ r : ℚ, calculateReward Action.ELECTRONIC_DANCE (outOfRangeState ℚ) 5 = Except.ok r ∧
      -1 ≤ r ∧ r ≤ 1 := by
  have h := calculateReward_of_large Action.ELECTRONIC_DANCE (outOfRangeState ℚ) 5
    outOfRangeState_large
  refine ⟨h, ?_⟩
  rintro ⟨r, hr, -⟩
  rw [h] at hr
  cases hr

/-- C2 (amended): for every action, rating and state whose weather code lies
strictly between -2147483649 and 2147483648, `calculateReward` returns the clamp
of `base + 0.3 wm + 0.2 tm + 0.2 gc + tb` with the terms as the specification
defines them (`wm` the weather table entry for the truncated weather code, 0.5
outside the table; `tm` the entry for the band of the hour `24 * hour_of_day`);
the outcome does not depend on `user_mood` or `day_of_week`; and at the
scenario state with ELECTRONIC_DANCE and rating 5 the value is exactly 1. -/
theorem calculateReward_spec :
    (∀ (action : Action) (state : State K) (rating : K),
        -2147483649 < state.weather_condition → state.weather_condition < 2147483648 →
        calculateReward action state rating = Except.ok (specReward action state rating)) ∧
    (∀ (action : Action) (state : State K) (rating mood day : K),
        calculateReward action { state with user_mood := mood, day_of_week := day } rating =
          calculateReward action state rating) ∧
    (∀ day : K, calculateReward Action.ELECTRONIC_DANCE (scenarioState day) 5 = Except.ok 1) := by
  refine ⟨calculateReward_eq_specReward, ?_, scenario_reward⟩
  intro action state rating mood day
  rfl

/-- C2 (amended) at a concrete input: the scenario state with ROCK_ENERGY and
the rating 3. -/
theorem calculateReward_spec_witness :
    -2147483649 < (scenarioState (0 : ℚ)).weather_condition ∧
    (scenarioState (0 : ℚ)).weather_condition < 2147483648 ∧
    calculateReward Action.ROCK_ENERGY (scenarioState (0 : ℚ)) 3 =
      Except.ok (specReward Action.ROCK_ENERGY (scenarioState (0 : ℚ)) 3) :=
  ⟨by norm_num [scenarioState], by norm_num [scenarioState],
    calculateReward_spec.1 _ _ _ (by norm_num [scenarioState]) (by norm_num [scenarioState])⟩

/-- C2 (as stated) fails: for the state with the weather code `10000000000` the
specification's formula has a value (with `wm = 0.5`, the code being outside
the table), but the conversion of the weather code is undefined in the code and
`calculateReward` does not return that value. -/
theorem calculateReward_not_spec_out_of_range :
    calculateReward Action.ELECTRONIC_DANCE (outOfRangeState ℚ) 5 ≠
      Except.ok (specReward Action.ELECTRONIC_DANCE (outOfRangeState ℚ) 5) := by
  rw [calculateReward_of_large Action.ELECTRONIC_DANCE (outOfRangeState ℚ) 5
    outOfRangeState_large]
  intro h
  cases h

/-- C3 (as amended): at the scenario state with ELECTRONIC_DANCE and rating 5
the weather code converts to 0 and the shaping terms are base = 1, wm = 0.7,
tm = 0.2, gc = 0.2 and tb = 0.1, and the total before clamping is 1.39. -/
theorem scenario_shaping_terms (day : K) :
    baseReward (5 : K) = 1 ∧
    truncToInt (scenarioState day).weather_condition = Except.ok 0 ∧
    (getWeatherMoodCompatibility 0 Action.ELECTRONIC_DANCE : K) = 0.7 ∧
    getTimeMoodCompatibility ((scenarioState day).hour_of_day * 24.0)
        Action.ELECTRONIC_DANCE = 0.2 ∧
    getGenreConsistency (scenarioState day).genre_history Action.ELECTRONIC_DANCE = 0.2 ∧
    tempBonus Action.ELECTRONIC_DANCE (scenarioState day) = 0.1 ∧
    totalReward Action.ELECTRONIC_DANCE (scenarioState day) 5 = Except.ok 1.39 := by
  obtain ⟨hb, hc, hw, ht, hg, hp⟩ := scenario_terms day
  exact ⟨hb, hc, hw, ht, hg, hp, scenario_total day⟩

/-- C3 (as stated) fails: over the rationals the genre-consistency term of the
scenario is not 0.6 and the total before clamping is not 1.47. -/
theorem scenario_genre_term_not_as_stated :
    getGenreConsistency (scenarioState (0 : ℚ)).genre_history Action.ELECTRONIC_DANCE ≠ 0.6 ∧
    totalReward Action.ELECTRONIC_DANCE (scenarioState (0 : ℚ)) 5 ≠ Except.ok 1.47 ∧
    ¬ (baseReward (5 : ℚ) = 1 ∧
      truncToInt (scenarioState (0 : ℚ)).weather_condition = Except.ok 0 ∧
      (getWeatherMoodCompatibility 0 Action.ELECTRONIC_DANCE : ℚ) = 0.7 ∧
      getTimeMoodCompatibility ((scenarioState (0 : ℚ)).hour_of_day * 24.0)
        Action.ELECTRONIC_DANCE = 0.2 ∧
      getGenreConsistency (scenarioState (0 : ℚ)).genre_history Action.ELECTRONIC_DANCE = 0.6 ∧
      tempBonus Action.ELECTRONIC_DANCE (scenarioState (0 : ℚ)) = 0.1 ∧
      totalReward Action.ELECTRONIC_DANCE (scenarioState (0 : ℚ)) 5 = Except.ok 1.47) := by
  have hne : getGenreConsistency (scenarioState (0 : ℚ)).genre_history
      Action.ELECTRONIC_DANCE ≠ 0.6 := by
    rw [(scenario_terms (0 : ℚ)).2.2.2.2.1]
    norm_num
  refine ⟨hne, ?_, ?_⟩
  · rw [scenario_total]
    intro h
    have h2 := Except.ok.inj h
    norm_num at h2
  · rintro ⟨-, -, -, -, hg, -, -⟩
    exact hne hg

end EnvironmentProofs

/-! ## Theorems: the replay memory -/

section BufferProofs

variable {K : Type}

namespace ExperienceBuffer

theorem add_of_lt (b : ExperienceBuffer K) (e : Experience K)
    (h : b.buffer_.length < b.max_size_) :
    add b e = Except.ok { b with buffer_ := b.buffer_ ++ [e] } := by
  unfold add
  rw [if_neg (by omega)]
  rfl

theorem add_of_full (b : ExperienceBuffer K) (e : Experience K)
    (h : b.max_size_ ≤ b.buffer_.length) (hpos : 0 < b.buffer_.length) :
    add b e = Except.ok { b with buffer_ := b.buffer_.tail ++ [e] } := by
  unfold add
  rw [if_pos h]
  cases hb : b.buffer_ with
  | nil => rw [hb] at hpos; exact absurd hpos (by simp)
  | cons x rest => rfl

/-- The state after a sequence of `add` calls on a buffer that respects a
positive capacity: the last `max_size_` elements of the old content followed
by the added ones. -/
theorem addAll_eq (es : List (Experience K)) :
    ∀ b : ExperienceBuffer K, 0 < b.max_size_ → b.buffer_.length ≤ b.max_size_ →
      addAll b es = Except.ok
        { b with buffer_ := (b.buffer_ ++ es).drop ((b.buffer_ ++ es).length - b.max_size_) } := by
  induction es with
  | nil =>
    intro b _ hle
    simp only [addAll, List.append_nil]
    rw [Nat.sub_eq_zero_of_le hle]
    rfl
  | cons e es ih =>
    intro b hpos hle
    unfold addAll
    by_cases hfull : b.max_size_ ≤ b.buffer_.length
    · have hlen : b.buffer_.length = b.max_size_ := le_antisymm hle hfull
      rw [add_of_full b e hfull (by omega)]
      simp only [bind, Except.bind]
      rw [ih { b with buffer_ := b.buffer_.tail ++ [e] } hpos (by simp; omega)]
      congr 2
      obtain ⟨x, rest, hb⟩ : ∃ x rest, b.buffer_ = x :: rest := by
        cases hb : b.buffer_ with
        | nil => rw [hb] at hlen; simp at hlen; omega
        | cons x rest => exact ⟨x, rest, rfl⟩
      rw [hb] at hlen ⊢
      simp only [List.tail_cons, List.length_append, List.length_cons, List.length_nil,
        List.append_assoc, List.singleton_append, List.cons_append] at hlen ⊢
      have h1 : rest.length + (es.length + 1) + 1 - b.max_size_
          = (rest.length + (es.length + 1) - b.max_size_) + 1 := by omega
      rw [h1, List.drop_succ_cons]
      simp only [List.nil_append, Nat.zero_add]
    · rw [add_of_lt b e (by omega)]
      simp only [bind, Except.bind]
      rw [ih { b with buffer_ := b.buffer_ ++ [e] } hpos (by simp; omega)]
      simp only [List.append_assoc, List.singleton_append]

theorem numbered_injective (K : Type) [NatCast K] :
    Function.Injective (numbered K) := by
  intro i j h
  have h2 : (numbered K i).action = (numbered K j).action := by rw [h]
  simpa [numbered] using h2

theorem addAll_new_eq (C : Nat) (es : List (Experience K)) (hC : 1 ≤ C) :
    addAll (new C) es =
      Except.ok { buffer_ := es.drop (es.length - min es.length C), max_size_ := C } := by
  rw [addAll_eq es (new C) hC (by simp [new])]
  simp only [new, List.nil_append]
  congr 3
  omega

/-- C5: for every capacity `C ≥ 1` and every sequence of transitions added to an
empty buffer of capacity `C`, every `add` succeeds and the stored sequence is
the last `min n C` added transitions in insertion order; after adding 10001
distinct transitions to a buffer of capacity 10000 the size is 10000, the first
transition is absent and the last one is present. -/
theorem addAll_retains_most_recent :
    (∀ (C : Nat) (es : List (Experience K)), 1 ≤ C →
      ∃ b : ExperienceBuffer K, addAll (new C) es = Except.ok b ∧
        b.buffer_ = es.drop (es.length - min es.length C) ∧
        b.size = min es.length C ∧ b.max_size_ = C) ∧
    (∀ es : List (Experience K), es.length = 10001 → es.Nodup →
      ∃ b : ExperienceBuffer K, addAll (new 10000) es = Except.ok b ∧
        b.size = 10000 ∧
        (∀ e, es[0]? = some e → e ∉ b.buffer_) ∧
        (∀ e, es[10000]? = some e → e ∈ b.buffer_)) := by
  have key := addAll_new_eq (K := K)
  constructor
  · intro C es hC
    refine ⟨_, key C es hC, rfl, ?_, rfl⟩
    simp only [size, List.length_drop]
    omega
  · intro es hlen hnd
    refine ⟨_, key 10000 es (by norm_num), ?_, ?_, ?_⟩
    · simp only [size, List.length_drop]
      omega
    · intro e he
      have h1 : es.length - min es.length 10000 = 1 := by omega
      simp only [h1]
      cases es with
      | nil => simp at he
      | cons x rest =>
        simp only [List.getElem?_cons_zero, Option.some.injEq] at he
        subst he
        simpa using (List.nodup_cons.mp hnd).1
    · intro e he
      have h1 : es.length - min es.length 10000 = 1 := by omega
      simp only [h1]
      have h2 : (es.drop 1)[9999]? = some e := by
        rw [List.getElem?_drop]
        exact he
      exact List.getElem?_mem h2

/-- C5 at concrete inputs: three numbered transitions into a buffer of capacity 2,
and the transitions numbered 0..10000 into a buffer of capacity 10000. -/
theorem addAll_retains_most_recent_witness :
    (1 ≤ 2 ∧ ∃ b : ExperienceBuffer ℚ,
      addAll (new 2) [numbered ℚ 0, numbered ℚ 1, numbered ℚ 2] = Except.ok b ∧
        b.buffer_ = [numbered ℚ 1, numbered ℚ 2] ∧ b.size = 2 ∧ b.max_size_ = 2) ∧
    (((List.range 10001).map (numbered ℚ)).length = 10001 ∧
      ((List.range 10001).map (numbered ℚ)).Nodup ∧
      ∃ b : ExperienceBuffer ℚ,
        addAll (new 10000) ((List.range 10001).map (numbered ℚ)) = Except.ok b ∧
        b.size = 10000 ∧
        (∀ e, ((List.range 10001).map (numbered ℚ))[0]? = some e → e ∉ b.buffer_) ∧
        (∀ e, ((List.range 10001).map (numbered ℚ))[10000]? = some e → e ∈ b.buffer_)) :=
  ⟨⟨by decide, addAll_retains_most_recent.1 2 [numbered ℚ 0, numbered ℚ 1, numbered ℚ 2]
      (by decide)⟩,
    by simp, (List.nodup_range 10001).map (numbered_injective ℚ),
    addAll_retains_most_recent.2 ((List.range 10001).map (numbered ℚ)) (by simp)
      ((List.nodup_range 10001).map (numbered_injective ℚ))⟩

/-- C6 (the failing input): on an empty buffer of capacity 0 the first `add`
finds `size() >= max_size_` and calls `pop_front` on the empty deque, so the
call has no defined result and no state with `size() <= 0` is reached. -/
theorem add_capacity_zero_undefined (e : Experience K) :
    add (new 0) e = Except.error (Error.undefined_behavior "pop_front on an empty deque") ∧
    ¬ ∃ b : ExperienceBuffer K, add (new 0) e = Except.ok b ∧ b.size ≤ 0 := by
  have h : add (new 0 : ExperienceBuffer K) e
      = Except.error (Error.undefined_behavior "pop_front on an empty deque") := rfl
  refine ⟨h, ?_⟩
  rintro ⟨b, hb, -⟩
  rw [h] at hb
  cases hb

/-- The bound `size() <= max_size_` after every sequence of `add` calls on an
empty buffer of positive capacity. -/
theorem addAll_size_le (C : Nat) (hC : 1 ≤ C) (es : List (Experience K)) :
    ∃ b : ExperienceBuffer K, addAll (new C) es = Except.ok b ∧ b.size ≤ C := by
  refine ⟨_, addAll_new_eq C es hC, ?_⟩
  simp only [size, List.length_drop]
  omega

theorem elemAt_of_lt {α : Type} (xs : List α) (i : Nat) (h : i < xs.length) :
    elemAt xs i = Except.ok (xs.get ⟨i, h⟩) := by
  unfold elemAt
  rw [List.getElem?_eq_getElem h]
  rfl

/-- The sampling loop succeeds when the index vector is long enough and holds
valid positions, and it returns the elements at the positions it reads. -/
theorem sampleLoop_spec (buffer : List (Experience K)) (indices : List Nat)
    (hidx : ∀ j ∈ indices, j < buffer.length) :
    ∀ (count i : Nat), i + count ≤ indices.length →
      ∃ out : List (Experience K), sampleLoop buffer indices i count = Except.ok out ∧
        List.Forall₂ (fun e p => buffer[p]? = some e) out ((indices.drop i).take count) := by
  intro count
  induction count with
  | zero =>
    intro i _
    exact ⟨[], rfl, by simp⟩
  | succ n ih =>
    intro i hi
    have hlt : i < indices.length := by omega
    obtain ⟨rest, hrest, hall⟩ := ih (i + 1) (by omega)
    have hj : indices.get ⟨i, hlt⟩ < buffer.length := hidx _ (List.get_mem _ _ _)
    refine ⟨buffer.get ⟨indices.get ⟨i, hlt⟩, hj⟩ :: rest, ?_, ?_⟩
    · unfold sampleLoop
      rw [elemAt_of_lt indices i hlt]
      simp only [bind, Except.bind]
      rw [elemAt_of_lt buffer _ hj, hrest]
      rfl
    · rw [List.drop_eq_getElem_cons hlt, List.take_succ_cons]
      refine List.Forall₂.cons ?_ hall
      simp only [List.get_eq_getElem]
      exact List.getElem?_eq_getElem _

/-- C7: whatever permutation the shuffle produces, `sample(k)` returns exactly
`min k size` transitions, each the stored transition at some position, the
positions pairwise distinct; it returns exactly `k` transitions iff
`canSample(k)`, and the whole buffer when fewer than `k` are stored. -/
theorem sample_spec (b : ExperienceBuffer K) (k : Nat) (shuffle : List Nat → List Nat)
    (hperm : (shuffle (List.range b.size)).Perm (List.range b.size)) :
    ∃ (out : List (Experience K)) (positions : List Nat),
      sample b k shuffle = Except.ok out ∧
      out.length = min k b.size ∧
      positions.Nodup ∧
      List.Forall₂ (fun e p => b.buffer_[p]? = some e) out positions ∧
      (out.length = k ↔ canSample b k = true) ∧
      (b.size < k → out = b.buffer_) := by
  unfold size at hperm
  by_cases hlt : b.buffer_.length < k
  · refine ⟨b.buffer_, List.range b.buffer_.length, ?_, ?_, List.nodup_range _, ?_, ?_, ?_⟩
    · unfold sample
      rw [if_pos hlt]
      rfl
    · simp only [size]
      omega
    · rw [List.forall₂_iff_get]
      refine ⟨by simp, ?_⟩
      intro i h1 h2
      simp only [List.get_eq_getElem, List.getElem_range]
      exact List.getElem?_eq_getElem h1
    · simp only [canSample, decide_eq_true_eq]
      omega
    · intro _
      rfl
  · have hlen : (shuffle (List.range b.buffer_.length)).length = b.buffer_.length := by
      rw [hperm.length_eq, List.length_range]
    have hidx : ∀ j ∈ shuffle (List.range b.buffer_.length), j < b.buffer_.length := by
      intro j hj
      exact List.mem_range.mp (hperm.mem_iff.mp hj)
    obtain ⟨out, hout, hall⟩ :=
      sampleLoop_spec b.buffer_ (shuffle (List.range b.buffer_.length)) hidx k 0 (by omega)
    have hk : out.length = k := by
      rw [hall.length_eq, List.drop_zero, List.length_take, hlen]
      omega
    refine ⟨out, (shuffle (List.range b.buffer_.length)).take k, ?_, ?_, ?_, ?_, ?_, ?_⟩
    · unfold sample
      rw [if_neg hlt]
      exact hout
    · simp only [size]
      omega
    · exact (hperm.nodup_iff.mpr (List.nodup_range _)).sublist (List.take_sublist _ _)
    · simpa using hall
    · simp only [canSample, decide_eq_true_eq]
      omega
    · intro h
      simp only [size] at h
      omega

/-- C7 at a concrete input: a buffer of three transitions, `k = 2`, and the
shuffle that reverses the index vector. -/
theorem sample_spec_witness :
    (List.reverse (List.range (ExperienceBuffer.size
        ({ buffer_ := [numbered ℚ 0, numbered ℚ 1, numbered ℚ 2], max_size_ := 5 } :
          ExperienceBuffer ℚ)))).Perm
      (List.range (ExperienceBuffer.size
        ({ buffer_ := [numbered ℚ 0, numbered ℚ 1, numbered ℚ 2], max_size_ := 5 } :
          ExperienceBuffer ℚ))) ∧
    ∃ (out : List (Experience ℚ)) (positions : List Nat),
      sample { buffer_ := [numbered ℚ 0, numbered ℚ 1, numbered ℚ 2], max_size_ := 5 } 2
        List.reverse = Except.ok out ∧
      out.length = min 2 (ExperienceBuffer.size
        ({ buffer_ := [numbered ℚ 0, numbered ℚ 1, numbered ℚ 2], max_size_ := 5 } :
          ExperienceBuffer ℚ)) ∧
      positions.Nodup ∧
      List.Forall₂ (fun e p => [numbered ℚ 0, numbered ℚ 1, numbered ℚ 2][p]? = some e)
        out positions ∧
      (out.length = 2 ↔ canSample
        ({ buffer_ := [numbered ℚ 0, numbered ℚ 1, numbered ℚ 2], max_size_ := 5 } :
          ExperienceBuffer ℚ) 2 = true) ∧
      (ExperienceBuffer.size
        ({ buffer_ := [numbered ℚ 0, numbered ℚ 1, numbered ℚ 2], max_size_ := 5 } :
          ExperienceBuffer ℚ) < 2 → out = [numbered ℚ 0, numbered ℚ 1, numbered ℚ 2]) :=
  ⟨List.reverse_perm _,
    sample_spec { buffer_ := [numbered ℚ 0, numbered ℚ 1, numbered ℚ 2], max_size_ := 5 } 2
      List.reverse (List.reverse_perm _)⟩

end ExperienceBuffer

end BufferProofs

/-! ## Theorems: the network -/

section NetworkProofs

set_option linter.unusedSectionVars false

variable {K : Type} [LinearOrderedField K]

namespace NeuralNetwork

theorem length_affineVal (W : MatrixXd K) (x b : VectorXd K) (rows : Nat)
    (hW : W.length = rows) (hb : b.length = rows) :
    (affineVal W x b).length = rows := by
  simp [affineVal, hW, hb]

theorem affine_ok (W : MatrixXd K) (x b : VectorXd K) (rows cols : Nat)
    (hW : IsMatrix W rows cols) (hx : x.length = cols) (hb : b.length = rows) :
    affine W x b = Except.ok (affineVal W x b) := by
  unfold affine
  rw [if_pos]
  · rfl
  · exact ⟨fun row hrow => by rw [hW.2 row hrow, hx], by rw [hW.1, hb]⟩

/-- The forward pass of a well-shaped network on an input of length 8, computed
layer by layer. -/
theorem forward_explicit (exp : K → K) (W0 W1 W2 W3 : MatrixXd K)
    (b0 b1 b2 b3 a0 a1 a2 a3 a4 x : VectorXd K) (lr : K)
    (hx : x.length = 8)
    (h0 : IsMatrix W0 64 8) (h1 : IsMatrix W1 32 64) (h2 : IsMatrix W2 16 32)
    (h3 : IsMatrix W3 5 16)
    (hb0 : b0.length = 64) (hb1 : b1.length = 32) (hb2 : b2.length = 16)
    (hb3 : b3.length = 5) :
    forward exp
        { weights_ := [W0, W1, W2, W3], biases_ := [b0, b1, b2, b3],
          activations_ := [a0, a1, a2, a3, a4], learning_rate_ := lr } x =
      Except.ok
        ({ weights_ := [W0, W1, W2, W3], biases_ := [b0, b1, b2, b3],
           activations_ :=
            [x, (affineVal W0 x b0).map relu,
              (affineVal W1 ((affineVal W0 x b0).map relu) b1).map relu,
              (affineVal W2 ((affineVal W1 ((affineVal W0 x b0).map relu) b1).map relu)
                b2).map relu,
              softmax exp (affineVal W3
                ((affineVal W2 ((affineVal W1 ((affineVal W0 x b0).map relu) b1).map relu)
                  b2).map relu) b3)],
           learning_rate_ := lr },
          softmax exp (affineVal W3
            ((affineVal W2 ((affineVal W1 ((affineVal W0 x b0).map relu) b1).map relu)
              b2).map relu) b3)) := by
  have e0 := affine_ok W0 x b0 64 8 h0 hx hb0
  have l0 : ((affineVal W0 x b0).map relu).length = 64 := by
    rw [List.length_map]; exact length_affineVal W0 x b0 64 h0.1 hb0
  have e1 := affine_ok W1 _ b1 32 64 h1 l0 hb1
  have l1 : ((affineVal W1 ((affineVal W0 x b0).map relu) b1).map relu).length = 32 := by
    rw [List.length_map]; exact length_affineVal W1 _ b1 32 h1.1 hb1
  have e2 := affine_ok W2 _ b2 16 32 h2 l1 hb2
  have l2 : ((affineVal W2 ((affineVal W1 ((affineVal W0 x b0).map relu) b1).map relu)
      b2).map relu).length = 16 := by
    rw [List.length_map]; exact length_affineVal W2 _ b2 16 h2.1 hb2
  have e3 := affine_ok W3 _ b3 5 16 h3 l2 hb3
  simp [forward, hiddenLoop, elemAt, setAt, INPUT_SIZE, hx, e0, e1, e2, e3, bind, Except.bind,
    pure, Except.pure]

theorem exists_of_length_four {α : Type} (l : List α) (h : l.length = 4) :
    ∃ a b c d, l = [a, b, c, d] := by
  rcases l with _ | ⟨a, _ | ⟨b, _ | ⟨c, _ | ⟨d, _ | ⟨e, l⟩⟩⟩⟩⟩ <;> simp at h
  exact ⟨a, b, c, d, rfl⟩

theorem exists_of_length_five {α : Type} (l : List α) (h : l.length = 5) :
    ∃ a b c d e, l = [a, b, c, d, e] := by
  rcases l with _ | ⟨a, _ | ⟨b, _ | ⟨c, _ | ⟨d, _ | ⟨e, _ | ⟨f, l⟩⟩⟩⟩⟩⟩ <;> simp at h
  exact ⟨a, b, c, d, e, rfl⟩

/-- A well-shaped network, taken apart. -/
theorem WellShaped.exists_eq {nn : NeuralNetwork K} (h : WellShaped nn) :
    ∃ (W0 W1 W2 W3 : MatrixXd K) (b0 b1 b2 b3 a0 a1 a2 a3 a4 : VectorXd K),
      nn = { weights_ := [W0, W1, W2, W3], biases_ := [b0, b1, b2, b3],
             activations_ := [a0, a1, a2, a3, a4], learning_rate_ := nn.learning_rate_ } ∧
      IsMatrix W0 64 8 ∧ IsMatrix W1 32 64 ∧ IsMatrix W2 16 32 ∧ IsMatrix W3 5 16 ∧
      b0.length = 64 ∧ b1.length = 32 ∧ b2.length = 16 ∧ b3.length = 5 := by
  obtain ⟨hw, hb, ha, hall⟩ := h
  obtain ⟨W0, W1, W2, W3, hW⟩ := exists_of_length_four _ hw
  obtain ⟨b0, b1, b2, b3, hB⟩ := exists_of_length_four _ hb
  obtain ⟨a0, a1, a2, a3, a4, hA⟩ := exists_of_length_five _ ha
  have q0 := hall 0
  have q1 := hall 1
  have q2 := hall 2
  have q3 := hall 3
  rw [hW, hB] at q0 q1 q2 q3
  simp [layer_sizes, INPUT_SIZE, OUTPUT_SIZE] at q0 q1 q2 q3
  refine ⟨W0, W1, W2, W3, b0, b1, b2, b3, a0, a1, a2, a3, a4, ?_,
    q0.1, q1.1, q2.1, q3.1, q0.2, q1.2, q2.2, q3.2⟩
  cases nn
  simp only at hW hB hA
  rw [hW, hB, hA]

theorem wellShaped_mk (W0 W1 W2 W3 : MatrixXd K)
    (b0 b1 b2 b3 a0 a1 a2 a3 a4 : VectorXd K) (lr : K)
    (h0 : IsMatrix W0 64 8) (h1 : IsMatrix W1 32 64) (h2 : IsMatrix W2 16 32)
    (h3 : IsMatrix W3 5 16)
    (hb0 : b0.length = 64) (hb1 : b1.length = 32) (hb2 : b2.length = 16)
    (hb3 : b3.length = 5) :
    WellShaped
      { weights_ := [W0, W1, W2, W3], biases_ := [b0, b1, b2, b3],
        activations_ := [a0, a1, a2, a3, a4], learning_rate_ := lr } := by
  refine ⟨rfl, rfl, rfl, ?_⟩
  intro i
  fin_cases i <;> simp [layer_sizes, INPUT_SIZE, OUTPUT_SIZE, *]

/-- The forward pass of a well-shaped network on an input of length 8 succeeds;
it replaces the five cached activations and nothing else, and its output is the
softmax of a vector of length 5.  Activations and output are the same for every
network with the same parameters. -/
theorem forward_ok (exp : K → K) (nn : NeuralNetwork K) (x : VectorXd K)
    (h : WellShaped nn) (hx : x.length = 8) :
    ∃ (acts : List (VectorXd K)) (z : VectorXd K),
      z.length = 5 ∧ acts.length = 5 ∧ acts[0]? = some x ∧
      acts[4]? = some (softmax exp z) ∧
      ∀ nn' : NeuralNetwork K, WellShaped nn' → nn'.weights_ = nn.weights_ →
        nn'.biases_ = nn.biases_ →
        forward exp nn' x =
          Except.ok ({ nn' with activations_ := acts }, softmax exp z) := by
  obtain ⟨W0, W1, W2, W3, b0, b1, b2, b3, a0, a1, a2, a3, a4, hnn, h0, h1, h2, h3,
    hb0, hb1, hb2, hb3⟩ := h.exists_eq
  refine ⟨[x, (affineVal W0 x b0).map relu,
      (affineVal W1 ((affineVal W0 x b0).map relu) b1).map relu,
      (affineVal W2 ((affineVal W1 ((affineVal W0 x b0).map relu) b1).map relu) b2).map relu,
      softmax exp (affineVal W3
        ((affineVal W2 ((affineVal W1 ((affineVal W0 x b0).map relu) b1).map relu)
          b2).map relu) b3)],
    affineVal W3
      ((affineVal W2 ((affineVal W1 ((affineVal W0 x b0).map relu) b1).map relu) b2).map relu)
      b3, ?_, ?_, ?_, ?_, ?_⟩
  pick_goal 5
  · intro nn' h' hw hb
    obtain ⟨V0, V1, V2, V3, c0, c1, c2, c3, d0, d1, d2, d3, d4, hnn', -⟩ := h'.exists_eq
    rw [hnn'] at hw hb ⊢
    rw [hnn] at hw hb
    simp only at hw hb
    rw [hw, hb]
    exact forward_explicit exp W0 W1 W2 W3 b0 b1 b2 b3 d0 d1 d2 d3 d4 x nn'.learning_rate_
      hx h0 h1 h2 h3 hb0 hb1 hb2 hb3
  · exact length_affineVal W3 _ b3 5 h3.1 hb3
  · rfl
  · rfl
  · rfl

theorem wellShaped_of_params {nn nn' : NeuralNetwork K} (h : WellShaped nn)
    (hw : nn'.weights_ = nn.weights_) (hb : nn'.biases_ = nn.biases_)
    (ha : nn'.activations_.length = 5) : WellShaped nn' := by
  obtain ⟨h1, h2, -, h4⟩ := h
  exact ⟨by rw [hw, h1], by rw [hb, h2], ha, by rw [hw, hb]; exact h4⟩

theorem wellShaped_new (learning_rate : K) (draw : Nat → Nat → Nat → K) :
    WellShaped (NeuralNetwork.new learning_rate draw) := by
  refine ⟨rfl, rfl, rfl, ?_⟩
  intro i
  fin_cases i <;>
    simp [NeuralNetwork.new, layer_sizes, INPUT_SIZE, OUTPUT_SIZE, IsMatrix, List.enum,
      List.enumFrom]

/-- The softmax of a non-empty vector, for a positive exponential: the length
is kept, every entry lies in `[0, 1]` and the entries sum to 1. -/
theorem softmax_spec (exp : K → K) (hexp : ∀ t, 0 < exp t) (z : VectorXd K) (hz : z ≠ []) :
    (softmax exp z).length = z.length ∧
    (∀ y ∈ softmax exp z, 0 ≤ y ∧ y ≤ 1) ∧
    (softmax exp z).sum = 1 := by
  have hpos : ∀ e ∈ z.map exp, 0 < e := by
    intro e he
    obtain ⟨t, -, rfl⟩ := List.mem_map.mp he
    exact hexp t
  have hne : z.map exp ≠ [] := by simpa using hz
  have hS : 0 < (z.map exp).sum := List.sum_pos _ hpos hne
  refine ⟨by simp [softmax], ?_, ?_⟩
  · intro y hy
    simp only [softmax, List.mem_map] at hy
    obtain ⟨e, ⟨t, ht, rfl⟩, rfl⟩ := hy
    have hle : exp t ≤ (z.map exp).sum :=
      List.single_le_sum (fun e he => (hpos e he).le) _ (List.mem_map_of_mem exp ht)
    exact ⟨div_nonneg (hexp t).le hS.le, (div_le_one hS).mpr hle⟩
  · simp only [softmax, div_eq_mul_inv]
    have := List.sum_map_mul_right (z.map exp) (fun e => e) ((z.map exp).sum)⁻¹
    simp only [List.map_id'] at this
    rw [this]
    exact mul_inv_cancel₀ hS.ne'

/-- The forward pass of a well-shaped network on an input of length 8 returns a
vector of length 5 with entries in `[0, 1]` and sum 1, when `exp` is positive. -/
theorem forward_distribution (exp : K → K) (hexp : ∀ t, 0 < exp t) (nn : NeuralNetwork K)
    (x : VectorXd K) (h : WellShaped nn) (hx : x.length = 8) :
    ∃ (nn' : NeuralNetwork K) (out : VectorXd K),
      forward exp nn x = Except.ok (nn', out) ∧ out.length = 5 ∧
      (∀ y ∈ out, 0 ≤ y ∧ y ≤ 1) ∧ out.sum = 1 := by
  obtain ⟨acts, z, hz, -, -, -, hf⟩ := forward_ok exp nn x h hx
  have hne : z ≠ [] := by
    intro h0
    rw [h0] at hz
    simp at hz
  obtain ⟨hl, hmem, hsum⟩ := softmax_spec exp hexp z hne
  exact ⟨_, _, hf nn h rfl rfl, by rw [hl, hz], hmem, hsum⟩

/-- C4: for every network with the fixed 8-64-32-16-5 parameter shapes and every
input of length 8, `forward` over the real numbers with the real exponential
succeeds and returns a vector of length 5 whose entries lie in `[0, 1]` and sum
to 1. -/
theorem forward_real_softmax (nn : NeuralNetwork ℝ) (x : VectorXd ℝ)
    (h : WellShaped nn) (hx : x.length = 8) :
    ∃ (nn' : NeuralNetwork ℝ) (out : VectorXd ℝ),
      forward Real.exp nn x = Except.ok (nn', out) ∧ out.length = 5 ∧
      (∀ y ∈ out, 0 ≤ y ∧ y ≤ 1) ∧ out.sum = 1 :=
  forward_distribution Real.exp Real.exp_pos nn x h hx

/-- C4 at a concrete input: the network constructed with all weights 0 and the
scenario vector. -/
theorem forward_real_softmax_witness :
    WellShaped (NeuralNetwork.new (0.001 : ℝ) (fun _ _ _ => 0)) ∧
    ([1, 0, 0.5, 0, 0.5, 0.25, 0.25, 0.25] : VectorXd ℝ).length = 8 ∧
    ∃ (nn' : NeuralNetwork ℝ) (out : VectorXd ℝ),
      forward Real.exp (NeuralNetwork.new (0.001 : ℝ) (fun _ _ _ => 0))
        [1, 0, 0.5, 0, 0.5, 0.25, 0.25, 0.25] = Except.ok (nn', out) ∧ out.length = 5 ∧
      (∀ y ∈ out, 0 ≤ y ∧ y ≤ 1) ∧ out.sum = 1 :=
  ⟨wellShaped_new _ _, rfl,
    forward_real_softmax (NeuralNetwork.new (0.001 : ℝ) (fun _ _ _ => 0))
      [1, 0, 0.5, 0, 0.5, 0.25, 0.25, 0.25] (wellShaped_new _ _) rfl⟩

end NeuralNetwork

end NetworkProofs

/-! ## Theorems: the agent -/

section AgentProofs

set_option linter.unusedSectionVars false

variable {K : Type} [LinearOrderedField K]

open NeuralNetwork

/-- The loop invariant of the greedy choice: after the iterations up to `n` the
variable `best_action` is the lowest index of a maximum among the entries
`0..n`. -/
theorem bestActionAfter_spec (q : VectorXd K) (n : Nat) :
    bestActionAfter q n ≤ n ∧
    (∀ j, j ≤ n → q.getD j 0 ≤ q.getD (bestActionAfter q n) 0) ∧
    (∀ j, j < bestActionAfter q n → q.getD j 0 < q.getD (bestActionAfter q n) 0) := by
  induction n with
  | zero =>
    refine ⟨le_refl _, ?_, ?_⟩
    · intro j hj
      have : j = 0 := by omega
      subst this
      exact le_refl _
    · intro j hj
      simp [bestActionAfter] at hj
  | succ n ih =>
    obtain ⟨h1, h2, h3⟩ := ih
    unfold bestActionAfter
    simp only []
    split_ifs with hgt
    · refine ⟨le_refl _, ?_, ?_⟩
      · intro j hj
        rcases Nat.lt_or_ge j (n + 1) with hlt | hge
        · exact le_trans (h2 j (by omega)) hgt.le
        · have : j = n + 1 := by omega
          subst this
          exact le_refl _
      · intro j hj
        exact lt_of_le_of_lt (h2 j (by omega)) hgt
    · refine ⟨by omega, ?_, h3⟩
      intro j hj
      rcases Nat.lt_or_ge j (n + 1) with hlt | hge
      · exact h2 j (by omega)
      · have : j = n + 1 := by omega
        subst this
        exact not_lt.mp hgt

theorem bestAction_isLowestArgmax (q : VectorXd K) (hq : 0 < q.length) :
    IsLowestArgmax q (bestAction q) := by
  obtain ⟨h1, h2, h3⟩ := bestActionAfter_spec q (q.length - 1)
  refine ⟨?_, ?_, h3⟩
  · unfold bestAction
    omega
  · intro j hj
    exact h2 j (by omega)

theorem IsLowestArgmax.unique {v : VectorXd K} {a b : Nat} (ha : IsLowestArgmax v a)
    (hb : IsLowestArgmax v b) : a = b := by
  rcases Nat.lt_trichotomy a b with h | h | h
  · exact absurd (hb.2.2 a h) (not_lt.mpr (ha.2.1 b hb.1))
  · exact h
  · exact absurd (ha.2.2 b h) (not_lt.mpr (hb.2.1 a ha.1))

theorem setCoeff_ok (v : VectorXd K) (i : Int) (x : K) (h0 : 0 ≤ i)
    (h1 : i.toNat < v.length) : setCoeff v i x = Except.ok (v.set i.toNat x) := by
  unfold setCoeff
  rw [if_pos ⟨h0, h1⟩]
  rfl

theorem length_softmax (exp : K → K) (z : VectorXd K) :
    (softmax exp z).length = z.length := by
  simp [softmax]

/-- One iteration of the replay loop on networks `q`, `target` that have the
parameters of `q0`, `t0`: it succeeds, keeps the parameters, and its `target_q`
is the specification's target for `q0`, `t0`. -/
theorem replayTarget_ok (exp : K → K) (gamma : K) (q0 t0 q target : NeuralNetwork K)
    (e : Experience K) (hq0 : WellShaped q0) (ht0 : WellShaped t0)
    (hq : WellShaped q) (hqw : q.weights_ = q0.weights_) (hqb : q.biases_ = q0.biases_)
    (ht : WellShaped target) (htw : target.weights_ = t0.weights_)
    (htb : target.biases_ = t0.biases_)
    (hs : e.state.length = 8) (hns : e.done = false → e.next_state.length = 8)
    (ha0 : 0 ≤ e.action) (ha4 : e.action ≤ 4) :
    ∃ (q' t' : NeuralNetwork K) (τ : VectorXd K),
      MusicRecommendationDQN.replayTarget exp gamma q target e = Except.ok (q', t', τ) ∧
      WellShaped q' ∧ q'.weights_ = q0.weights_ ∧ q'.biases_ = q0.biases_ ∧
      q'.learning_rate_ = q.learning_rate_ ∧
      WellShaped t' ∧ t'.weights_ = t0.weights_ ∧ t'.biases_ = t0.biases_ ∧
      t'.learning_rate_ = target.learning_rate_ ∧
      IsReplayTarget exp gamma q0 t0 e τ := by
  obtain ⟨acts, z, hz, hacts, -, -, hf⟩ := forward_ok exp q0 e.state hq0 hs
  have hfq := hf q hq hqw hqb
  have hcl : (softmax exp z).length = 5 := by rw [length_softmax, hz]
  have hidx : e.action.toNat < (softmax exp z).length := by rw [hcl]; omega
  have hq1 : WellShaped { q with activations_ := acts } :=
    wellShaped_of_params hq rfl rfl hacts
  cases hdone : e.done with
  | true =>
    refine ⟨{ q with activations_ := acts }, target,
      (softmax exp z).set e.action.toNat e.reward, ?_, hq1, hqw, hqb, rfl, ht, htw, htb, rfl, ?_⟩
    · unfold MusicRecommendationDQN.replayTarget
      rw [hfq]
      simp only [bind, Except.bind, hdone, if_true]
      rw [setCoeff_ok _ _ _ ha0 hidx]
      rfl
    · refine ⟨_, _, hf q0 hq0 rfl rfl, by simp, ?_, ?_, ?_⟩
      · intro i hi
        exact List.getElem?_set_ne (Ne.symm hi)
      · intro _
        exact List.getElem?_set_self hidx
      · intro h
        rw [hdone] at h
        cases h
  | false =>
    obtain ⟨acts2, z2, hz2, hacts2, -, -, hf2⟩ :=
      forward_ok exp q0 e.next_state hq0 (hns hdone)
    obtain ⟨acts3, z3, hz3, hacts3, -, -, hf3⟩ :=
      forward_ok exp t0 e.next_state ht0 (hns hdone)
    have hfq2 := hf2 { q with activations_ := acts } hq1 hqw hqb
    have hft := hf3 target ht htw htb
    have hl2 : (softmax exp z2).length = 5 := by rw [length_softmax, hz2]
    have hl3 : (softmax exp z3).length = 5 := by rw [length_softmax, hz3]
    have hbest := bestAction_isLowestArgmax (softmax exp z2) (by rw [hl2]; norm_num)
    have hblt : bestAction (softmax exp z2) < (softmax exp z3).length := by
      rw [hl3, ← hl2]; exact hbest.1
    refine ⟨{ q with activations_ := acts2 }, { target with activations_ := acts3 },
      (softmax exp z).set e.action.toNat
        (e.reward + gamma * (softmax exp z3).get ⟨bestAction (softmax exp z2), hblt⟩),
      ?_, wellShaped_of_params hq rfl rfl hacts2, hqw, hqb, rfl,
      wellShaped_of_params ht rfl rfl hacts3, htw, htb, rfl, ?_⟩
    · unfold MusicRecommendationDQN.replayTarget
      rw [hfq]
      simp only [bind, Except.bind, hdone]
      rw [hfq2]
      simp only [hft, ExperienceBuffer.elemAt_of_lt _ _ hblt, Bool.false_eq_true, if_false]
      rw [setCoeff_ok _ _ _ ha0 hidx]
      rfl
    · refine ⟨_, _, hf q0 hq0 rfl rfl, by simp, ?_, ?_, ?_⟩
      · intro i hi
        exact List.getElem?_set_ne (Ne.symm hi)
      · intro h
        rw [hdone] at h
        cases h
      · intro _
        refine ⟨_, _, _, _, bestAction (softmax exp z2),
          (softmax exp z3).get ⟨bestAction (softmax exp z2), hblt⟩,
          hf2 q0 hq0 rfl rfl, hf3 t0 ht0 rfl rfl, hbest, ?_, ?_⟩
        · simp only [List.get_eq_getElem]
          exact List.getElem?_eq_getElem hblt
        · exact List.getElem?_set_self hidx

/-- The loop of the replay step over any list of valid transitions: it
succeeds, pairs each state with the specification's target for the networks at
the start of the loop, and keeps the parameters of both networks. -/
theorem replayLoop_ok (exp : K → K) (gamma : K) (q0 t0 : NeuralNetwork K)
    (hq0 : WellShaped q0) (ht0 : WellShaped t0) :
    ∀ (es : List (Experience K)) (q target : NeuralNetwork K),
      WellShaped q → q.weights_ = q0.weights_ → q.biases_ = q0.biases_ →
      WellShaped target → target.weights_ = t0.weights_ → target.biases_ = t0.biases_ →
      (∀ e ∈ es, e.state.length = 8 ∧ (e.done = false → e.next_state.length = 8) ∧
        0 ≤ e.action ∧ e.action ≤ 4) →
      ∃ (q' t' : NeuralNetwork K) (targets : List (VectorXd K)),
        MusicRecommendationDQN.replayLoop exp gamma es q target =
          Except.ok (q', t', es.map (fun e => e.state), targets) ∧
        WellShaped q' ∧ q'.weights_ = q0.weights_ ∧ q'.biases_ = q0.biases_ ∧
        q'.learning_rate_ = q.learning_rate_ ∧
        WellShaped t' ∧ t'.weights_ = t0.weights_ ∧ t'.biases_ = t0.biases_ ∧
        t'.learning_rate_ = target.learning_rate_ ∧
        List.Forall₂ (IsReplayTarget exp gamma q0 t0) es targets := by
  intro es
  induction es with
  | nil =>
    intro q target hq hqw hqb ht htw htb _
    exact ⟨q, target, [], rfl, hq, hqw, hqb, rfl, ht, htw, htb, rfl, List.Forall₂.nil⟩
  | cons e rest ih =>
    intro q target hq hqw hqb ht htw htb hes
    obtain ⟨hs, hns, ha0, ha4⟩ := hes e (List.mem_cons_self _ _)
    obtain ⟨q1, t1, τ, hstep, hq1, hq1w, hq1b, hq1l, ht1, ht1w, ht1b, ht1l, hτ⟩ :=
      replayTarget_ok exp gamma q0 t0 q target e hq0 ht0 hq hqw hqb ht htw htb hs hns ha0 ha4
    obtain ⟨q2, t2, targets, hloop, hq2, hq2w, hq2b, hq2l, ht2, ht2w, ht2b, ht2l, hall⟩ :=
      ih q1 t1 hq1 hq1w hq1b ht1 ht1w ht1b
        (fun e' he' => hes e' (List.mem_cons_of_mem _ he'))
    refine ⟨q2, t2, τ :: targets, ?_, hq2, hq2w, hq2b, by rw [hq2l, hq1l], ht2, ht2w, ht2b,
      by rw [ht2l, ht1l], List.Forall₂.cons hτ hall⟩
    unfold MusicRecommendationDQN.replayLoop
    rw [hstep]
    simp only [bind, Except.bind]
    rw [hloop]
    rfl

/-- C8: in a replay step, for every transition `(s, a, r, s', done)` of the
batch with `a` in `0..4`, the target vector paired with `s` equals the value
network's `forward(s)` off the coordinate `a`, and at `a` it is `r` when done,
else `r + gamma * targetNetwork.forward(s')[a*]` with `a*` the lowest index
maximising `valueNetwork.forward(s')`; with `gamma = 0.95`, `r = 0` and
`targetNetwork.forward(s')[a*] = 0.4` that entry is `0.38`. -/
theorem replay_targets (exp : K → K) (gamma : K) (q target : NeuralNetwork K)
    (es : List (Experience K)) (hq : WellShaped q) (ht : WellShaped target)
    (hes : ∀ e ∈ es, e.state.length = 8 ∧ (e.done = false → e.next_state.length = 8) ∧
      0 ≤ e.action ∧ e.action ≤ 4) :
    ∃ (q' t' : NeuralNetwork K) (targets : List (VectorXd K)),
      MusicRecommendationDQN.replayLoop exp gamma es q target =
        Except.ok (q', t', es.map (fun e => e.state), targets) ∧
      List.Forall₂ (IsReplayTarget exp gamma q target) es targets ∧
      List.Forall₂ (fun e τ =>
        gamma = 0.95 → e.reward = 0 → e.done = false →
        ∀ (q2 t2 : NeuralNetwork K) (next_q_main next_q_target : VectorXd K) (a_star : Nat),
          forward exp q e.next_state = Except.ok (q2, next_q_main) →
          forward exp target e.next_state = Except.ok (t2, next_q_target) →
          IsLowestArgmax next_q_main a_star → next_q_target[a_star]? = some 0.4 →
          τ[e.action.toNat]? = some 0.38) es targets := by
  obtain ⟨q', t', targets, hloop, -, -, -, -, -, -, -, -, hall⟩ :=
    replayLoop_ok exp gamma q target hq ht es q target hq rfl rfl ht rfl rfl hes
  refine ⟨q', t', targets, hloop, hall, ?_⟩
  refine hall.imp ?_
  intro e τ hτ hg hr hd q2 t2 qn tn a hfq hft ha hv
  obtain ⟨-, -, -, -, -, -, hnd⟩ := hτ
  obtain ⟨q2', t2', qn', tn', a', v, hfq', hft', ha', hv', hτa⟩ := hnd hd
  rw [hfq] at hfq'
  rw [hft] at hft'
  cases hfq'
  cases hft'
  have haa : a = a' := ha.unique ha'
  subst haa
  rw [hv] at hv'
  cases hv'
  rw [hτa, hg, hr]
  norm_num

/-- C8 at a concrete input: a batch of one non-terminal and one terminal
transition on the networks constructed with all weights 0. -/
theorem replay_targets_witness :
    WellShaped (zeroNetwork ℚ) ∧
    (∀ e ∈ [bootstrapTransition, terminalTransition],
      e.state.length = 8 ∧ (e.done = false → e.next_state.length = 8) ∧
        0 ≤ e.action ∧ e.action ≤ 4) ∧
    ∃ (q' t' : NeuralNetwork ℚ) (targets : List (VectorXd ℚ)),
      MusicRecommendationDQN.replayLoop (fun _ => 1) 0.95
          [bootstrapTransition, terminalTransition] (zeroNetwork ℚ) (zeroNetwork ℚ) =
        Except.ok (q', t', [bootstrapTransition, terminalTransition].map (fun e => e.state),
          targets) ∧
      List.Forall₂ (IsReplayTarget (fun _ => 1) 0.95 (zeroNetwork ℚ) (zeroNetwork ℚ))
        [bootstrapTransition, terminalTransition] targets ∧
      List.Forall₂ (fun e τ =>
        (0.95 : ℚ) = 0.95 → e.reward = 0 → e.done = false →
        ∀ (q2 t2 : NeuralNetwork ℚ) (next_q_main next_q_target : VectorXd ℚ) (a_star : Nat),
          forward (fun _ => 1) (zeroNetwork ℚ) e.next_state = Except.ok (q2, next_q_main) →
          forward (fun _ => 1) (zeroNetwork ℚ) e.next_state = Except.ok (t2, next_q_target) →
          IsLowestArgmax next_q_main a_star → next_q_target[a_star]? = some 0.4 →
          τ[e.action.toNat]? = some 0.38) [bootstrapTransition, terminalTransition] targets :=
  ⟨wellShaped_new _ _, by decide,
    replay_targets (fun _ => 1) 0.95 (zeroNetwork ℚ) (zeroNetwork ℚ)
      [bootstrapTransition, terminalTransition] (wellShaped_new _ _) (wellShaped_new _ _)
      (by decide)⟩

namespace MusicRecommendationDQN

/-- A `predict` call whose draw `u` is not below `epsilon`, on an agent whose
value network has the parameters of `q0`. -/
theorem predict_exploit (exp : K → K) (q0 : NeuralNetwork K) (v : List K)
    (acts : List (VectorXd K)) (z : VectorXd K)
    (hf : ∀ nn' : NeuralNetwork K, WellShaped nn' → nn'.weights_ = q0.weights_ →
      nn'.biases_ = q0.biases_ →
      forward exp nn' v = Except.ok ({ nn' with activations_ := acts }, softmax exp z))
    (agent : MusicRecommendationDQN K) (hq : WellShaped agent.q_network_)
    (hw : agent.q_network_.weights_ = q0.weights_)
    (hb : agent.q_network_.biases_ = q0.biases_)
    (u : K) (random_action : Int) (hu : agent.epsilon_ ≤ u) :
    predict exp agent v u random_action =
      Except.ok ({ agent with q_network_ := { agent.q_network_ with activations_ := acts } },
        (bestAction (softmax exp z) : Int)) := by
  unfold predict
  rw [hf _ hq hw hb]
  simp only [bind, Except.bind]
  rw [if_neg (not_lt.mpr hu)]
  rfl

/-- Consecutive `predict` calls on the same state, none of them exploring. -/
theorem predictAll_exploit (exp : K → K) (q0 : NeuralNetwork K) (v : List K)
    (acts : List (VectorXd K)) (z : VectorXd K) (hacts : acts.length = 5)
    (hf : ∀ nn' : NeuralNetwork K, WellShaped nn' → nn'.weights_ = q0.weights_ →
      nn'.biases_ = q0.biases_ →
      forward exp nn' v = Except.ok ({ nn' with activations_ := acts }, softmax exp z)) :
    ∀ (draws : List (K × Int)) (agent : MusicRecommendationDQN K),
      WellShaped agent.q_network_ → agent.q_network_.weights_ = q0.weights_ →
      agent.q_network_.biases_ = q0.biases_ →
      (∀ d ∈ draws, agent.epsilon_ ≤ d.1) →
      ∃ agent' : MusicRecommendationDQN K,
        predictAll exp agent v draws =
          Except.ok (agent', List.replicate draws.length (bestAction (softmax exp z) : Int)) ∧
        agent'.epsilon_ = agent.epsilon_ ∧
        agent'.q_network_.weights_ = agent.q_network_.weights_ ∧
        agent'.q_network_.biases_ = agent.q_network_.biases_ ∧
        agent'.target_network_ = agent.target_network_ := by
  intro draws
  induction draws with
  | nil =>
    intro agent _ _ _ _
    exact ⟨agent, rfl, rfl, rfl, rfl, rfl⟩
  | cons d rest ih =>
    intro agent hq hw hb hdraws
    obtain ⟨u, random_action⟩ := d
    have hu : agent.epsilon_ ≤ u := hdraws (u, random_action) (List.mem_cons_self _ _)
    obtain ⟨agent', hrest, he, hw', hb', ht'⟩ :=
      ih { agent with q_network_ := { agent.q_network_ with activations_ := acts } }
        (wellShaped_of_params hq rfl rfl hacts) hw hb
        (fun d hd => hdraws d (List.mem_cons_of_mem _ hd))
    refine ⟨agent', ?_, he, hw', hb', ht'⟩
    unfold predictAll
    rw [predict_exploit exp q0 v acts z hf agent hq hw hb u random_action hu]
    simp only [bind, Except.bind]
    rw [hrest]
    rfl

/-- C9: whenever the draw `u` is not below `epsilon` (always, when
`epsilon = 0` and `u` is drawn from `[0, 1)`), `predict(v)` on a vector of
length 8 returns the smallest index at which `Q = valueNetwork.forward(v)` is
maximal; it changes neither `epsilon` nor the parameters of the networks, and
any number of consecutive such calls all return that index. -/
theorem predict_greedy (exp : K → K) (agent : MusicRecommendationDQN K) (v : List K)
    (hq : WellShaped agent.q_network_) (hv : v.length = 8) :
    ∃ (q' : NeuralNetwork K) (Q : VectorXd K) (best : Nat),
      forward exp agent.q_network_ v = Except.ok (q', Q) ∧
      Q.length = 5 ∧ IsLowestArgmax Q best ∧
      (∀ (u : K) (random_action : Int), agent.epsilon_ ≤ u →
        ∃ agent' : MusicRecommendationDQN K,
          predict exp agent v u random_action = Except.ok (agent', (best : Int)) ∧
          agent'.epsilon_ = agent.epsilon_ ∧
          agent'.q_network_.weights_ = agent.q_network_.weights_ ∧
          agent'.q_network_.biases_ = agent.q_network_.biases_ ∧
          agent'.target_network_ = agent.target_network_) ∧
      (∀ draws : List (K × Int), (∀ d ∈ draws, agent.epsilon_ ≤ d.1) →
        ∃ agent' : MusicRecommendationDQN K,
          predictAll exp agent v draws =
            Except.ok (agent', List.replicate draws.length (best : Int)) ∧
          agent'.epsilon_ = agent.epsilon_ ∧
          agent'.q_network_.weights_ = agent.q_network_.weights_ ∧
          agent'.q_network_.biases_ = agent.q_network_.biases_ ∧
          agent'.target_network_ = agent.target_network_) ∧
      (agent.epsilon_ = 0 →
        ∀ draws : List (K × Int), (∀ d ∈ draws, 0 ≤ d.1 ∧ d.1 < 1) →
          ∃ agent' : MusicRecommendationDQN K,
            predictAll exp agent v draws =
              Except.ok (agent', List.replicate draws.length (best : Int))) := by
  obtain ⟨acts, z, hz, hacts, -, -, hf⟩ := forward_ok exp agent.q_network_ v hq hv
  have hall := predictAll_exploit exp agent.q_network_ v acts z hacts hf
  refine ⟨_, softmax exp z, bestAction (softmax exp z), hf _ hq rfl rfl,
    by rw [length_softmax, hz],
    bestAction_isLowestArgmax _ (by rw [length_softmax, hz]; norm_num), ?_, ?_, ?_⟩
  · intro u random_action hu
    exact ⟨_, predict_exploit exp agent.q_network_ v acts z hf agent hq rfl rfl u
      random_action hu, rfl, rfl, rfl, rfl⟩
  · intro draws hdraws
    exact hall draws agent hq rfl rfl hdraws
  · intro h0 draws hdraws
    obtain ⟨agent', h, -⟩ := hall draws agent hq rfl rfl
      (fun d hd => by rw [h0]; exact (hdraws d hd).1)
    exact ⟨agent', h⟩

/-- C9 at a concrete input: the agent constructed with `epsilon = 0` and the zero
state vector. -/
theorem predict_greedy_witness :
    WellShaped greedyAgent.q_network_ ∧ (List.replicate 8 (0 : ℚ)).length = 8 ∧
    ∃ (q' : NeuralNetwork ℚ) (Q : VectorXd ℚ) (best : Nat),
      forward (fun _ => 1) greedyAgent.q_network_ (List.replicate 8 0) = Except.ok (q', Q) ∧
      Q.length = 5 ∧ IsLowestArgmax Q best ∧
      (∀ (u : ℚ) (random_action : Int), greedyAgent.epsilon_ ≤ u →
        ∃ agent' : MusicRecommendationDQN ℚ,
          predict (fun _ => 1) greedyAgent (List.replicate 8 0) u random_action =
            Except.ok (agent', (best : Int)) ∧
          agent'.epsilon_ = greedyAgent.epsilon_ ∧
          agent'.q_network_.weights_ = greedyAgent.q_network_.weights_ ∧
          agent'.q_network_.biases_ = greedyAgent.q_network_.biases_ ∧
          agent'.target_network_ = greedyAgent.target_network_) ∧
      (∀ draws : List (ℚ × Int), (∀ d ∈ draws, greedyAgent.epsilon_ ≤ d.1) →
        ∃ agent' : MusicRecommendationDQN ℚ,
          predictAll (fun _ => 1) greedyAgent (List.replicate 8 0) draws =
            Except.ok (agent', List.replicate draws.length (best : Int)) ∧
          agent'.epsilon_ = greedyAgent.epsilon_ ∧
          agent'.q_network_.weights_ = greedyAgent.q_network_.weights_ ∧
          agent'.q_network_.biases_ = greedyAgent.q_network_.biases_ ∧
          agent'.target_network_ = greedyAgent.target_network_) ∧
      (greedyAgent.epsilon_ = 0 →
        ∀ draws : List (ℚ × Int), (∀ d ∈ draws, 0 ≤ d.1 ∧ d.1 < 1) →
          ∃ agent' : MusicRecommendationDQN ℚ,
            predictAll (fun _ => 1) greedyAgent (List.replicate 8 0) draws =
              Except.ok (agent', List.replicate draws.length (best : Int))) :=
  ⟨wellShaped_new _ _, rfl,
    predict_greedy (fun _ => 1) greedyAgent (List.replicate 8 0) (wellShaped_new _ _) rfl⟩

/-- A successful replay step changes the two networks only. -/
theorem replayExperience_frame (exp : K → K) (agent agent' : MusicRecommendationDQN K)
    (shuffle : List Nat → List Nat)
    (h : replayExperience exp agent shuffle = Except.ok agent') :
    agent'.epsilon_ = agent.epsilon_ ∧ agent'.epsilon_decay_ = agent.epsilon_decay_ ∧
    agent'.epsilon_min_ = agent.epsilon_min_ ∧ agent'.gamma_ = agent.gamma_ ∧
    agent'.target_update_freq_ = agent.target_update_freq_ ∧
    agent'.training_step_ = agent.training_step_ ∧
    agent'.experience_buffer_ = agent.experience_buffer_ := by
  unfold replayExperience at h
  simp only [bind, Except.bind] at h
  split at h
  · cases h
  · split at h
    · cases h
    · split at h
      · cases h
      · cases h
        exact ⟨rfl, rfl, rfl, rfl, rfl, rfl, rfl⟩

theorem finishTrain_epsilon (agent agent' : MusicRecommendationDQN K)
    (h : finishTrain agent = Except.ok agent') :
    agent'.epsilon_decay_ = agent.epsilon_decay_ ∧
    agent'.epsilon_min_ = agent.epsilon_min_ ∧
    agent'.epsilon_ =
      if agent.epsilon_ > agent.epsilon_min_ then agent.epsilon_ * agent.epsilon_decay_
      else agent.epsilon_ := by
  by_cases h1 : agent.training_step_ = 2147483647
  · rw [finishTrain, if_pos h1] at h
    cases h
  · by_cases h2 : agent.target_update_freq_ = 0
    · rw [finishTrain, if_neg h1, if_pos h2] at h
      cases h
    · rw [finishTrain, if_neg h1, if_neg h2] at h
      simp only [pure, Except.pure, Except.ok.injEq] at h
      subst h
      by_cases ht : Int.tmod (agent.training_step_ + 1) agent.target_update_freq_ = 0 <;>
        by_cases he : agent.epsilon_ > agent.epsilon_min_ <;>
        simp [updateTargetNetwork, ht, he]

/-- The effect of a successful `train` call on the exploration rate:
`epsilon` is multiplied by `epsilon_decay` when it is above `epsilon_min`, and
kept otherwise; `epsilon_decay` and `epsilon_min` never change. -/
theorem train_epsilon (exp : K → K) (agent agent' : MusicRecommendationDQN K)
    (state : List K) (action : Int) (reward : K) (next_state : List K) (done : Bool)
    (shuffle : List Nat → List Nat)
    (h : train exp agent state action reward next_state done shuffle = Except.ok agent') :
    agent'.epsilon_decay_ = agent.epsilon_decay_ ∧
    agent'.epsilon_min_ = agent.epsilon_min_ ∧
    agent'.epsilon_ =
      if agent.epsilon_ > agent.epsilon_min_ then agent.epsilon_ * agent.epsilon_decay_
      else agent.epsilon_ := by
  unfold train at h
  dsimp only at h
  cases hadd : agent.experience_buffer_.add
      { state := state, action := action, reward := reward, next_state := next_state,
        done := done } with
  | error err =>
    rw [hadd] at h
    cases h
  | ok buffer =>
    rw [hadd] at h
    simp only [bind, Except.bind] at h
    split_ifs at h with hcs
    · cases hrep : replayExperience exp { agent with experience_buffer_ := buffer } shuffle with
      | error err =>
        rw [hrep] at h
        cases h
      | ok a1 =>
        rw [hrep] at h
        obtain ⟨h1, h2, h3, -⟩ := replayExperience_frame exp _ _ shuffle hrep
        obtain ⟨g1, g2, g3⟩ := finishTrain_epsilon a1 agent' h
        simp only at h1 h2 h3
        rw [g1, g2, g3, h1, h2, h3]
        exact ⟨rfl, rfl, rfl⟩
    · exact finishTrain_epsilon { agent with experience_buffer_ := buffer } agent' h

/-- The invariant `epsilon_min * epsilon_decay ≤ epsilon` is kept by every
sequence of successful `train` calls, for a positive decay factor. -/
theorem trainAll_epsilon_inv (exp : K → K) (calls : List (TrainCall K)) :
    ∀ agent agent' : MusicRecommendationDQN K,
      0 < agent.epsilon_decay_ →
      agent.epsilon_min_ * agent.epsilon_decay_ ≤ agent.epsilon_ →
      trainAll exp agent calls = Except.ok agent' →
      agent'.epsilon_decay_ = agent.epsilon_decay_ ∧
      agent'.epsilon_min_ = agent.epsilon_min_ ∧
      agent.epsilon_min_ * agent.epsilon_decay_ ≤ agent'.epsilon_ := by
  induction calls with
  | nil =>
    intro agent agent' _ hinv h
    cases h
    exact ⟨rfl, rfl, hinv⟩
  | cons c rest ih =>
    intro agent agent' hd hinv h
    unfold trainAll at h
    cases hstep : train exp agent c.state c.action c.reward c.next_state c.done c.shuffle with
    | error err =>
      rw [hstep] at h
      cases h
    | ok a1 =>
      rw [hstep] at h
      simp only [bind, Except.bind] at h
      obtain ⟨h1, h2, h3⟩ := train_epsilon exp agent a1 _ _ _ _ _ _ hstep
      have hinv1 : a1.epsilon_min_ * a1.epsilon_decay_ ≤ a1.epsilon_ := by
        rw [h1, h2, h3]
        split_ifs with hgt
        · exact mul_le_mul_of_nonneg_right hgt.le hd.le
        · exact hinv
      obtain ⟨g1, g2, g3⟩ := ih a1 agent' (by rw [h1]; exact hd) hinv1 h
      exact ⟨g1.trans h1, g2.trans h2, by rw [← h1, ← h2]; exact g3⟩

/-- C10: for an agent with `0 < epsilon_decay ≤ 1`, `epsilon_min ≥ 0` and
`epsilon ≥ epsilon_min`, after any finite sequence of successful `train` calls
the exploration rate is at least `epsilon_min * epsilon_decay`. -/
theorem trainAll_epsilon_floor (exp : K → K) (agent agent' : MusicRecommendationDQN K)
    (calls : List (TrainCall K))
    (hd0 : 0 < agent.epsilon_decay_) (hd1 : agent.epsilon_decay_ ≤ 1)
    (hmin : 0 ≤ agent.epsilon_min_) (heps : agent.epsilon_min_ ≤ agent.epsilon_)
    (h : trainAll exp agent calls = Except.ok agent') :
    agent'.epsilon_min_ * agent'.epsilon_decay_ ≤ agent'.epsilon_ := by
  have hinit : agent.epsilon_min_ * agent.epsilon_decay_ ≤ agent.epsilon_ :=
    le_trans (mul_le_of_le_one_right hmin hd1) heps
  obtain ⟨g1, g2, g3⟩ := trainAll_epsilon_inv exp calls agent agent' hd0 hinit h
  rw [g1, g2]
  exact g3

/-- A `train` call on an agent whose buffer holds fewer than 31 transitions and
is not full: no replay step runs and the call succeeds. -/
theorem train_no_replay (exp : K → K) (agent : MusicRecommendationDQN K)
    (state : List K) (action : Int) (reward : K) (next_state : List K) (done : Bool)
    (shuffle : List Nat → List Nat)
    (hcap : agent.experience_buffer_.buffer_.length < agent.experience_buffer_.max_size_)
    (hsmall : agent.experience_buffer_.buffer_.length + 1 < 32) :
    train exp agent state action reward next_state done shuffle =
      finishTrain
        { agent with
          experience_buffer_ :=
            { agent.experience_buffer_ with
              buffer_ := agent.experience_buffer_.buffer_ ++
                [{ state := state, action := action, reward := reward,
                   next_state := next_state, done := done }] } } := by
  unfold train
  dsimp only
  rw [ExperienceBuffer.add_of_lt _ _ hcap]
  simp only [bind, Except.bind]
  rw [if_neg]
  · rfl
  · simp only [ExperienceBuffer.canSample, List.length_append, List.length_cons,
      List.length_nil, decide_eq_true_eq]
    omega

theorem finishTrain_ok (agent : MusicRecommendationDQN K)
    (hstep : agent.training_step_ ≠ 2147483647) (hfreq : agent.target_update_freq_ ≠ 0) :
    ∃ agent' : MusicRecommendationDQN K, finishTrain agent = Except.ok agent' := by
  unfold finishTrain
  rw [if_neg hstep, if_neg hfreq]
  exact ⟨_, rfl⟩

/-- C10 at a concrete input: one `train` call on the agent constructed with the
default hyperparameters. -/
theorem trainAll_epsilon_floor_witness :
    0 < defaultAgent.epsilon_decay_ ∧ defaultAgent.epsilon_decay_ ≤ 1 ∧
    0 ≤ defaultAgent.epsilon_min_ ∧ defaultAgent.epsilon_min_ ≤ defaultAgent.epsilon_ ∧
    ∃ agent' : MusicRecommendationDQN ℚ,
      trainAll (fun _ => 1) defaultAgent
        [{ state := List.replicate 8 0, action := 2, reward := 0.7,
           next_state := List.replicate 8 0, done := true, shuffle := List.reverse }] =
        Except.ok agent' ∧
      agent'.epsilon_min_ * agent'.epsilon_decay_ ≤ agent'.epsilon_ := by
  have hrun : ∃ agent' : MusicRecommendationDQN ℚ,
      trainAll (fun _ => 1) defaultAgent
        [{ state := List.replicate 8 0, action := 2, reward := 0.7,
           next_state := List.replicate 8 0, done := true, shuffle := List.reverse }] =
        Except.ok agent' := by
    unfold trainAll
    rw [train_no_replay _ _ _ _ _ _ _ _ (by decide) (by decide)]
    obtain ⟨a1, h1⟩ := finishTrain_ok
      { defaultAgent with
        experience_buffer_ :=
          { defaultAgent.experience_buffer_ with
            buffer_ := defaultAgent.experience_buffer_.buffer_ ++
              [{ state := List.replicate 8 (0 : ℚ), action := 2, reward := 0.7,
                 next_state := List.replicate 8 0, done := true }] } }
      (by decide) (by decide)
    rw [h1]
    exact ⟨a1, rfl⟩
  obtain ⟨agent', hrun⟩ := hrun
  have h1 : 0 < defaultAgent.epsilon_decay_ := by
    norm_num [defaultAgent, new, updateTargetNetwork]
  have h2 : defaultAgent.epsilon_decay_ ≤ 1 := by
    norm_num [defaultAgent, new, updateTargetNetwork]
  have h3 : 0 ≤ defaultAgent.epsilon_min_ := by
    norm_num [defaultAgent, new, updateTargetNetwork]
  have h4 : defaultAgent.epsilon_min_ ≤ defaultAgent.epsilon_ := by
    norm_num [defaultAgent, new, updateTargetNetwork]
  exact ⟨h1, h2, h3, h4, agent', hrun,
    trainAll_epsilon_floor (fun _ => 1) defaultAgent agent' _ h1 h2 h3 h4 hrun⟩

end MusicRecommendationDQN

end AgentProofs

/-! ## Theorems: the coding of states as vectors -/

section CodingProofs

variable {K : Type} [LinearOrderedField K]

theorem exists_of_length_eight {α : Type} (v : List α) (hv : v.length = 8) :
    ∃ temp weather hour day mood g0 g1 g2 : α,
      v = [temp, weather, hour, day, mood, g0, g1, g2] := by
  match v, hv with
  | [temp, weather, hour, day, mood, g0, g1, g2], _ =>
    exact ⟨temp, weather, hour, day, mood, g0, g1, g2, rfl⟩

theorem vectorToState_stateToVector (s : State K) :
    vectorToState (stateToVector s) = Except.ok s := by
  unfold vectorToState stateToVector
  rw [if_neg (by simp)]
  cases s with
  | mk temperature weather hour day mood history =>
    simp only [pure, Except.pure, List.getD_cons_zero, List.getD_cons_succ, Except.ok.injEq,
      State.mk.injEq, true_and]
    refine ⟨by norm_num, by norm_num, ?_⟩
    funext i
    fin_cases i <;> rfl

theorem stateToVector_vectorToState (v : List K) (hv : v.length = 8) :
    ∃ s : State K, vectorToState v = Except.ok s ∧ stateToVector s = v := by
  obtain ⟨temp, weather, hour, day, mood, g0, g1, g2, rfl⟩ := exists_of_length_eight v hv
  refine ⟨_, by unfold vectorToState; rw [if_neg (by simp)]; rfl, ?_⟩
  simp only [stateToVector, List.getD_cons_zero, List.getD_cons_succ, Matrix.cons_val_zero,
    Matrix.cons_val_one, Matrix.head_cons, Matrix.cons_val_two, Matrix.tail_cons]
  norm_num

theorem vectorToState_throws_iff (v : List K) :
    (∃ what, vectorToState v = Except.error (Error.invalid_argument what)) ↔ v.length ≠ 8 := by
  unfold vectorToState
  by_cases h : v.length = 8
  · rw [if_neg (by simpa using h)]
    constructor
    · rintro ⟨what, hw⟩
      cases hw
    · intro hne
      exact absurd h hne
  · rw [if_pos h]
    exact ⟨fun _ => h, fun _ => ⟨_, rfl⟩⟩

/-- C20: `vectorToState` and `stateToVector` are mutually inverse (for every
state `s`, `vectorToState (stateToVector s)` succeeds and is `s`; for every `v`
of length 8, `vectorToState v` succeeds and `stateToVector` gives `v` back), and
`vectorToState v` throws `std::invalid_argument` exactly when the length of `v`
is not 8. -/
theorem vector_state_coding :
    (∀ s : State K, vectorToState (stateToVector s) = Except.ok s) ∧
    (∀ v : List K, v.length = 8 →
      ∃ s : State K, vectorToState v = Except.ok s ∧ stateToVector s = v) ∧
    (∀ v : List K,
      (∃ what, vectorToState v = Except.error (Error.invalid_argument what)) ↔
        v.length ≠ 8) :=
  ⟨vectorToState_stateToVector, stateToVector_vectorToState, vectorToState_throws_iff⟩

/-- C20 at concrete inputs: the scenario state, and a vector of length 8. -/
theorem vector_state_coding_witness :
    vectorToState (stateToVector (scenarioState (0 : ℚ))) = Except.ok (scenarioState 0) ∧
    (([0.8, 0, 0.5, 0, 0.5, 0.25, 0.25, 0.25] : List ℚ).length = 8 ∧
      ∃ s : State ℚ, vectorToState [0.8, 0, 0.5, 0, 0.5, 0.25, 0.25, 0.25] = Except.ok s ∧
        stateToVector s = [0.8, 0, 0.5, 0, 0.5, 0.25, 0.25, 0.25]) ∧
    ((∃ what, vectorToState ([1, 2, 3] : List ℚ) = Except.error (Error.invalid_argument what)) ↔
      ([1, 2, 3] : List ℚ).length ≠ 8) :=
  ⟨vector_state_coding.1 _, ⟨rfl, vector_state_coding.2.1 _ rfl⟩, vector_state_coding.2.2 _⟩

end CodingProofs

/-! ## Theorems: the training step and the exploration rate -/

section TrainProofs

set_option linter.unusedSectionVars false

variable {K : Type} [LinearOrderedField K]

open NeuralNetwork

namespace MusicRecommendationDQN

/-- The last steps of `train`, field by field: they succeed unless the counter
is `INT_MAX` or the period is 0. -/
theorem finishTrain_spec (agent : MusicRecommendationDQN K)
    (hstep : agent.training_step_ ≠ 2147483647) (hfreq : agent.target_update_freq_ ≠ 0) :
    ∃ agent' : MusicRecommendationDQN K, finishTrain agent = Except.ok agent' ∧
      agent'.training_step_ = agent.training_step_ + 1 ∧
      agent'.epsilon_ = decayOnce agent.epsilon_decay_ agent.epsilon_min_ agent.epsilon_ ∧
      agent'.q_network_ = agent.q_network_ ∧
      agent'.target_network_ =
        (if Int.tmod (agent.training_step_ + 1) agent.target_update_freq_ = 0
          then agent.q_network_ else agent.target_network_) ∧
      agent'.experience_buffer_ = agent.experience_buffer_ ∧
      agent'.epsilon_decay_ = agent.epsilon_decay_ ∧
      agent'.epsilon_min_ = agent.epsilon_min_ ∧
      agent'.gamma_ = agent.gamma_ ∧
      agent'.target_update_freq_ = agent.target_update_freq_ := by
  unfold finishTrain
  rw [if_neg hstep, if_neg hfreq]
  refine ⟨_, rfl, ?_⟩
  by_cases ht : Int.tmod (agent.training_step_ + 1) agent.target_update_freq_ = 0 <;>
    by_cases he : agent.epsilon_ > agent.epsilon_min_ <;>
    simp [updateTargetNetwork, decayOnce, ht, he]

theorem decayOnce_le (d m e : K) (hd1 : d ≤ 1) (hm : 0 ≤ m) : decayOnce d m e ≤ e := by
  unfold decayOnce
  split_ifs with h
  · exact mul_le_of_le_one_right (le_trans hm h.le) hd1
  · exact le_refl _

theorem predict_epsilon (exp : K → K) (agent agent' : MusicRecommendationDQN K)
    (state : List K) (u : K) (random_action action : Int)
    (h : predict exp agent state u random_action = Except.ok (agent', action)) :
    agent'.epsilon_ = agent.epsilon_ ∧ agent'.epsilon_decay_ = agent.epsilon_decay_ ∧
    agent'.epsilon_min_ = agent.epsilon_min_ := by
  unfold predict at h
  cases hf : forward exp agent.q_network_ state with
  | error err =>
    rw [hf] at h
    cases h
  | ok r =>
    rw [hf] at h
    obtain ⟨q, q_values⟩ := r
    simp only [bind, Except.bind] at h
    split_ifs at h <;>
    · simp only [pure, Except.pure, Except.ok.injEq, Prod.mk.injEq] at h
      obtain ⟨h1, -⟩ := h
      subst h1
      exact ⟨rfl, rfl, rfl⟩

theorem getQValues_frame (exp : K → K) (agent agent' : MusicRecommendationDQN K)
    (state q_values : List K)
    (h : getQValues exp agent state = Except.ok (agent', q_values)) :
    ∃ q : NeuralNetwork K, forward exp agent.q_network_ state = Except.ok (q, q_values) ∧
      agent' = { agent with q_network_ := q } := by
  unfold getQValues at h
  cases hf : forward exp agent.q_network_ state with
  | error err =>
    rw [hf] at h
    cases h
  | ok r =>
    rw [hf] at h
    obtain ⟨q, qv⟩ := r
    simp only [bind, Except.bind, pure, Except.pure, Except.ok.injEq, Prod.mk.injEq] at h
    obtain ⟨h1, h2⟩ := h
    subst h1 h2
    exact ⟨q, rfl, rfl⟩

/-- C12: for an agent with `0 < epsilon_decay ≤ 1` and `epsilon_min ≥ 0`, every
`train` call that returns leaves `epsilon' ≤ epsilon`, with
`epsilon' = epsilon * epsilon_decay` when `epsilon > epsilon_min` and
`epsilon' = epsilon` otherwise; `predict`, `getQValues` and
`updateTargetNetwork` do not change `epsilon`. -/
theorem epsilon_non_increasing (exp : K → K) (agent : MusicRecommendationDQN K)
    (_hd0 : 0 < agent.epsilon_decay_) (hd1 : agent.epsilon_decay_ ≤ 1)
    (hmin : 0 ≤ agent.epsilon_min_) :
    (∀ (state : List K) (action : Int) (reward : K) (next_state : List K) (done : Bool)
        (shuffle : List Nat → List Nat) (agent' : MusicRecommendationDQN K),
      train exp agent state action reward next_state done shuffle = Except.ok agent' →
      agent'.epsilon_ =
        (if agent.epsilon_ > agent.epsilon_min_ then agent.epsilon_ * agent.epsilon_decay_
          else agent.epsilon_) ∧
      agent'.epsilon_ ≤ agent.epsilon_) ∧
    (∀ (state : List K) (u : K) (random_action action : Int)
        (agent' : MusicRecommendationDQN K),
      predict exp agent state u random_action = Except.ok (agent', action) →
      agent'.epsilon_ = agent.epsilon_) ∧
    (∀ (state q_values : List K) (agent' : MusicRecommendationDQN K),
      getQValues exp agent state = Except.ok (agent', q_values) →
      agent'.epsilon_ = agent.epsilon_) ∧
    (updateTargetNetwork agent).epsilon_ = agent.epsilon_ := by
  refine ⟨?_, ?_, ?_, rfl⟩
  · intro state action reward next_state done shuffle agent' h
    obtain ⟨-, -, h3⟩ := train_epsilon exp agent agent' _ _ _ _ _ _ h
    refine ⟨h3, ?_⟩
    rw [h3]
    exact decayOnce_le _ _ _ hd1 hmin
  · intro state u random_action action agent' h
    exact (predict_epsilon exp agent agent' state u random_action action h).1
  · intro state q_values agent' h
    obtain ⟨q, -, rfl⟩ := getQValues_frame exp agent agent' state q_values h
    rfl

/-- C12 at a concrete input: the agent constructed with the default
hyperparameters and one `train` call. -/
theorem epsilon_non_increasing_witness :
    0 < defaultAgent.epsilon_decay_ ∧ defaultAgent.epsilon_decay_ ≤ 1 ∧
    0 ≤ defaultAgent.epsilon_min_ ∧
    ∃ agent' : MusicRecommendationDQN ℚ,
      train (fun _ => 1) defaultAgent (List.replicate 8 0) 2 0.7 (List.replicate 8 0) true
        List.reverse = Except.ok agent' ∧
      agent'.epsilon_ =
        (if defaultAgent.epsilon_ > defaultAgent.epsilon_min_
          then defaultAgent.epsilon_ * defaultAgent.epsilon_decay_
          else defaultAgent.epsilon_) ∧
      agent'.epsilon_ ≤ defaultAgent.epsilon_ := by
  have h1 : 0 < defaultAgent.epsilon_decay_ := by
    norm_num [defaultAgent, new, updateTargetNetwork]
  have h2 : defaultAgent.epsilon_decay_ ≤ 1 := by
    norm_num [defaultAgent, new, updateTargetNetwork]
  have h3 : 0 ≤ defaultAgent.epsilon_min_ := by
    norm_num [defaultAgent, new, updateTargetNetwork]
  have hrun : ∃ agent' : MusicRecommendationDQN ℚ,
      train (fun _ => 1) defaultAgent (List.replicate 8 0) 2 0.7 (List.replicate 8 0) true
        List.reverse = Except.ok agent' := by
    rw [train_no_replay _ _ _ _ _ _ _ _ (by decide) (by decide)]
    obtain ⟨a1, ha1, -⟩ := finishTrain_spec
      { defaultAgent with
        experience_buffer_ :=
          { defaultAgent.experience_buffer_ with
            buffer_ := defaultAgent.experience_buffer_.buffer_ ++
              [{ state := List.replicate 8 (0 : ℚ), action := 2, reward := 0.7,
                 next_state := List.replicate 8 0, done := true }] } }
      (by decide) (by decide)
    exact ⟨a1, ha1⟩
  obtain ⟨agent', hrun⟩ := hrun
  exact ⟨h1, h2, h3, agent', hrun,
    (epsilon_non_increasing (fun _ => 1) defaultAgent h1 h2 h3).1 _ _ _ _ _ _ agent' hrun⟩

/-- A sequence of `train` calls that keeps the buffer below 32 transitions and
the counter below the period: every call succeeds without a replay step; the
networks stay as they are, the transitions are appended in order, the counter
advances by one per call and `epsilon` decays once per call. -/
theorem trainAll_no_replay (exp : K → K) (calls : List (TrainCall K)) :
    ∀ agent : MusicRecommendationDQN K,
      agent.experience_buffer_.buffer_.length + calls.length ≤ 31 →
      32 ≤ agent.experience_buffer_.max_size_ →
      0 ≤ agent.training_step_ →
      agent.training_step_ + calls.length < agent.target_update_freq_ →
      agent.target_update_freq_ ≤ 2147483647 →
      ∃ agent' : MusicRecommendationDQN K,
        trainAll exp agent calls = Except.ok agent' ∧
        agent'.q_network_ = agent.q_network_ ∧
        agent'.target_network_ = agent.target_network_ ∧
        agent'.experience_buffer_.buffer_ =
          agent.experience_buffer_.buffer_ ++ calls.map TrainCall.experience ∧
        agent'.experience_buffer_.max_size_ = agent.experience_buffer_.max_size_ ∧
        agent'.training_step_ = agent.training_step_ + calls.length ∧
        agent'.epsilon_ =
          (decayOnce agent.epsilon_decay_ agent.epsilon_min_)^[calls.length] agent.epsilon_ ∧
        agent'.epsilon_decay_ = agent.epsilon_decay_ ∧
        agent'.epsilon_min_ = agent.epsilon_min_ ∧
        agent'.gamma_ = agent.gamma_ ∧
        agent'.target_update_freq_ = agent.target_update_freq_ := by
  induction calls with
  | nil =>
    intro agent _ _ _ _ _
    exact ⟨agent, rfl, rfl, rfl, by simp, rfl, by simp, rfl, rfl, rfl, rfl, rfl⟩
  | cons c rest ih =>
    intro agent hlen hcap hstep hfreq hmax
    simp only [List.length_cons] at hlen hfreq
    push_cast at hfreq
    have hrun := train_no_replay exp agent c.state c.action c.reward c.next_state c.done
      c.shuffle (by omega) (by omega)
    obtain ⟨a1, ha1, s1, e1, q1, t1, b1, d1, m1, g1, f1⟩ := finishTrain_spec
      { agent with
        experience_buffer_ :=
          { agent.experience_buffer_ with
            buffer_ := agent.experience_buffer_.buffer_ ++
              [{ state := c.state, action := c.action, reward := c.reward,
                 next_state := c.next_state, done := c.done }] } }
      (by simp only; omega) (by simp only; omega)
    simp only at s1 e1 q1 t1 b1 d1 m1 g1 f1
    have hnosync : Int.tmod (agent.training_step_ + 1) agent.target_update_freq_ ≠ 0 := by
      rw [Int.tmod_eq_of_lt (by omega) (by omega)]
      omega
    rw [if_neg hnosync] at t1
    obtain ⟨a2, ha2, q2, t2, b2, c2, s2, e2, d2, m2, g2, f2⟩ := ih a1
      (by rw [b1]; simp only [List.length_append, List.length_cons, List.length_nil]; omega)
      (by rw [b1]; exact hcap)
      (by rw [s1]; omega)
      (by rw [s1, f1]; omega)
      (by rw [f1]; exact hmax)
    refine ⟨a2, ?_, by rw [q2, q1], by rw [t2, t1], ?_, by rw [c2, b1], ?_, ?_,
      by rw [d2, d1], by rw [m2, m1], by rw [g2, g1], by rw [f2, f1]⟩
    · unfold trainAll
      rw [hrun, ha1]
      simp only [bind, Except.bind]
      exact ha2
    · rw [b2, b1]
      simp [TrainCall.experience]
    · rw [s2, s1]
      simp only [List.length_cons]
      push_cast
      ring
    · rw [e2, e1, d1, m1]
      simp only [List.length_cons, Function.iterate_succ, Function.comp_apply]

/-- C18: on a freshly constructed agent every sequence of at most 31 `train`
calls succeeds; no replay step runs (the buffer never reaches 32 transitions),
the value network stays as constructed, and each call appends its transition,
increments the training step and applies the decay of `epsilon`. -/
theorem fresh_agent_defers_replay (exp : K → K)
    (learning_rate epsilon epsilon_decay epsilon_min gamma : K)
    (draw draw_target : Nat → Nat → Nat → K) (calls : List (TrainCall K))
    (hlen : calls.length ≤ 31)
    (_hvalid : ∀ call ∈ calls, call.state.length = 8 ∧ call.next_state.length = 8 ∧
      0 ≤ call.action ∧ call.action ≤ 4) :
    ∃ agent' : MusicRecommendationDQN K,
      trainAll exp (new learning_rate epsilon epsilon_decay epsilon_min gamma draw draw_target)
        calls = Except.ok agent' ∧
      agent'.q_network_ = NeuralNetwork.new learning_rate draw ∧
      agent'.experience_buffer_.buffer_ = calls.map TrainCall.experience ∧
      agent'.experience_buffer_.size = calls.length ∧
      agent'.experience_buffer_.canSample 32 = false ∧
      agent'.getTrainingStep = calls.length ∧
      agent'.getEpsilon = (decayOnce epsilon_decay epsilon_min)^[calls.length] epsilon := by
  obtain ⟨agent', hrun, hq, -, hb, -, hs, he, -⟩ := trainAll_no_replay exp calls
    (new learning_rate epsilon epsilon_decay epsilon_min gamma draw draw_target)
    (by simpa [new, updateTargetNetwork, ExperienceBuffer.new] using hlen)
    (by simp [new, updateTargetNetwork, ExperienceBuffer.new])
    (by simp [new, updateTargetNetwork])
    (by simp only [new, updateTargetNetwork]; omega)
    (by simp [new, updateTargetNetwork])
  have hb' : agent'.experience_buffer_.buffer_ = calls.map TrainCall.experience := by
    rw [hb]
    simp [new, updateTargetNetwork, ExperienceBuffer.new]
  refine ⟨agent', hrun, by rw [hq]; rfl, hb', ?_, ?_, ?_, ?_⟩
  · simp [ExperienceBuffer.size, hb']
  · simp only [ExperienceBuffer.canSample, hb', List.length_map, decide_eq_false_iff_not]
    omega
  · simp only [getTrainingStep, hs]
    simp [new, updateTargetNetwork]
  · simp only [getEpsilon, he]
    rfl

/-- C18 at a concrete input: two `train` calls on the agent constructed with the
default hyperparameters. -/
theorem fresh_agent_defers_replay_witness :
    [plainCall ℚ, plainCall ℚ].length ≤ 31 ∧
    (∀ call ∈ [plainCall ℚ, plainCall ℚ], call.state.length = 8 ∧
      call.next_state.length = 8 ∧ 0 ≤ call.action ∧ call.action ≤ 4) ∧
    ∃ agent' : MusicRecommendationDQN ℚ,
      trainAll (fun _ => 1)
        (new 0.001 1.0 0.995 0.01 0.95 (fun _ _ _ => 0) (fun _ _ _ => 0))
        [plainCall ℚ, plainCall ℚ] = Except.ok agent' ∧
      agent'.q_network_ = NeuralNetwork.new 0.001 (fun _ _ _ => 0) ∧
      agent'.experience_buffer_.buffer_ =
        [plainCall ℚ, plainCall ℚ].map TrainCall.experience ∧
      agent'.experience_buffer_.size = [plainCall ℚ, plainCall ℚ].length ∧
      agent'.experience_buffer_.canSample 32 = false ∧
      agent'.getTrainingStep = [plainCall ℚ, plainCall ℚ].length ∧
      agent'.getEpsilon =
        (decayOnce (0.995 : ℚ) 0.01)^[[plainCall ℚ, plainCall ℚ].length] 1.0 :=
  ⟨by decide, by decide,
    fresh_agent_defers_replay (fun _ => 1) 0.001 1.0 0.995 0.01 0.95 (fun _ _ _ => 0)
      (fun _ _ _ => 0) [plainCall ℚ, plainCall ℚ] (by decide) (by decide)⟩

/-- C17 (the failing input): `train` does not inspect `action`.  On a freshly
constructed agent a call with any action, in range or not, returns normally with
the transition stored, the training step 1 and `epsilon` decayed; and when a
later replay step meets a stored transition whose action is outside `0..4`, the
write `target_q(exp.action)` is out of range. -/
theorem train_accepts_any_action (exp : K → K)
    (learning_rate epsilon epsilon_decay epsilon_min gamma : K)
    (draw draw_target : Nat → Nat → Nat → K) (state next_state : List K) (action : Int)
    (reward : K) (done : Bool) (shuffle : List Nat → List Nat) :
    (∃ agent' : MusicRecommendationDQN K,
      train exp (new learning_rate epsilon epsilon_decay epsilon_min gamma draw draw_target)
        state action reward next_state done shuffle = Except.ok agent' ∧
      agent'.experience_buffer_.buffer_ =
        [{ state := state, action := action, reward := reward, next_state := next_state,
           done := done }] ∧
      agent'.training_step_ = 1 ∧
      agent'.epsilon_ = decayOnce epsilon_decay epsilon_min epsilon) ∧
    (∀ (q target : NeuralNetwork K), WellShaped q → state.length = 8 →
      ¬ (0 ≤ action ∧ action ≤ 4) →
      replayTarget exp gamma q target
        { state := state, action := action, reward := reward, next_state := next_state,
          done := true } =
        Except.error (Error.undefined_behavior "index out of range")) := by
  constructor
  · obtain ⟨agent', hrun, -, -, hb, -, hs, he, -⟩ := trainAll_no_replay exp
      [{ state := state, action := action, reward := reward, next_state := next_state,
         done := done, shuffle := shuffle }]
      (new learning_rate epsilon epsilon_decay epsilon_min gamma draw draw_target)
      (by simp [new, updateTargetNetwork, ExperienceBuffer.new])
      (by simp [new, updateTargetNetwork, ExperienceBuffer.new])
      (by simp [new, updateTargetNetwork])
      (by simp [new, updateTargetNetwork])
      (by simp [new, updateTargetNetwork])
    refine ⟨agent', ?_, ?_, ?_, ?_⟩
    · unfold trainAll at hrun
      cases htr : train exp
          (new learning_rate epsilon epsilon_decay epsilon_min gamma draw draw_target)
          state action reward next_state done shuffle with
      | error err =>
        simp only [htr, bind, Except.bind] at hrun
        cases hrun
      | ok a1 =>
        simp only [htr, bind, Except.bind, trainAll, pure, Except.pure] at hrun
        exact hrun
    · rw [hb]
      simp [new, updateTargetNetwork, ExperienceBuffer.new, TrainCall.experience]
    · rw [hs]
      simp [new, updateTargetNetwork]
    · rw [he]
      simp [new, updateTargetNetwork]
  · intro q target hq hs hrange
    obtain ⟨acts, z, hz, -, -, -, hf⟩ := forward_ok exp q state hq hs
    unfold replayTarget
    simp only [hf q hq rfl rfl, bind, Except.bind, if_true]
    unfold setCoeff
    have hcond : ¬ (0 ≤ action ∧ action.toNat < (softmax exp z).length) := by
      rw [length_softmax, hz]
      omega
    rw [if_neg hcond]

end MusicRecommendationDQN

end TrainProofs

/-! ## Theorems: queries of the agent -/

section QueryProofs

set_option linter.unusedSectionVars false

variable {K : Type} [LinearOrderedField K]

open NeuralNetwork

namespace MusicRecommendationDQN

theorem getActivations_of_lt (nn : NeuralNetwork K) (i : Nat) (a : VectorXd K)
    (h : nn.activations_[i]? = some a) : nn.getActivations (i : Int) = a := by
  have hlt : i < nn.activations_.length := by
    rcases List.getElem?_eq_some.mp h with ⟨hlt, -⟩
    exact hlt
  unfold NeuralNetwork.getActivations
  rw [if_neg (by omega)]
  simp [h]

/-- C16 (as amended): for an agent with a well-shaped value network and a state
vector of length 8, `getQValues` returns the 5 outputs of the value network's
forward pass; `epsilon`, the training step, the replay memory, the target
network and the parameters of the value network stay as they are, while the
cached activations become those of this pass (layer 0 the state, layer 4 the
returned values). -/
theorem getQValues_refreshes_activations (exp : K → K) (agent : MusicRecommendationDQN K)
    (state : List K) (hq : WellShaped agent.q_network_) (hs : state.length = 8) :
    ∃ (agent' : MusicRecommendationDQN K) (q' : NeuralNetwork K) (q_values : List K),
      getQValues exp agent state = Except.ok (agent', q_values) ∧
      forward exp agent.q_network_ state = Except.ok (q', q_values) ∧
      q_values.length = 5 ∧
      agent'.epsilon_ = agent.epsilon_ ∧
      agent'.training_step_ = agent.training_step_ ∧
      agent'.experience_buffer_ = agent.experience_buffer_ ∧
      agent'.target_network_ = agent.target_network_ ∧
      agent'.q_network_.weights_ = agent.q_network_.weights_ ∧
      agent'.q_network_.biases_ = agent.q_network_.biases_ ∧
      agent'.getActivations 0 = state ∧
      agent'.getActivations 4 = q_values := by
  obtain ⟨acts, z, hz, hacts, h0, h4, hf⟩ := forward_ok exp agent.q_network_ state hq hs
  have hfq := hf agent.q_network_ hq rfl rfl
  refine ⟨{ agent with q_network_ := { agent.q_network_ with activations_ := acts } },
    _, softmax exp z, ?_, hfq, by rw [length_softmax, hz], rfl, rfl, rfl, rfl, rfl, rfl, ?_, ?_⟩
  · unfold getQValues
    rw [hfq]
    rfl
  · exact getActivations_of_lt { agent.q_network_ with activations_ := acts } 0 state h0
  · exact getActivations_of_lt { agent.q_network_ with activations_ := acts } 4 _ h4

/-- C16 at a concrete input: the agent constructed with the default
hyperparameters and the zero state vector. -/
theorem getQValues_refreshes_activations_witness :
    WellShaped defaultAgent.q_network_ ∧ (List.replicate 8 (0 : ℚ)).length = 8 ∧
    ∃ (agent' : MusicRecommendationDQN ℚ) (q' : NeuralNetwork ℚ) (q_values : List ℚ),
      getQValues (fun _ => 1) defaultAgent (List.replicate 8 0) =
        Except.ok (agent', q_values) ∧
      forward (fun _ => 1) defaultAgent.q_network_ (List.replicate 8 0) =
        Except.ok (q', q_values) ∧
      q_values.length = 5 ∧
      agent'.epsilon_ = defaultAgent.epsilon_ ∧
      agent'.training_step_ = defaultAgent.training_step_ ∧
      agent'.experience_buffer_ = defaultAgent.experience_buffer_ ∧
      agent'.target_network_ = defaultAgent.target_network_ ∧
      agent'.q_network_.weights_ = defaultAgent.q_network_.weights_ ∧
      agent'.q_network_.biases_ = defaultAgent.q_network_.biases_ ∧
      agent'.getActivations 0 = List.replicate 8 0 ∧
      agent'.getActivations 4 = q_values :=
  ⟨wellShaped_new _ _, rfl,
    getQValues_refreshes_activations (fun _ => 1) defaultAgent (List.replicate 8 0)
      (wellShaped_new _ _) rfl⟩

/-- C16 (as stated) fails: on the agent constructed with the default
hyperparameters over the real numbers, `getQValues` on the state vector
`[1, 0, 0, 0, 0, 0, 0, 0]` succeeds, and afterwards `getActivations(0)` is that
vector, while before the call it was the zero vector. -/
theorem getQValues_changes_cached_activations :
    ∃ (agent' : MusicRecommendationDQN ℝ) (q_values : List ℝ),
      getQValues Real.exp (defaultAgentOver ℝ) [1, 0, 0, 0, 0, 0, 0, 0] =
        Except.ok (agent', q_values) ∧
      (defaultAgentOver ℝ).getActivations 0 = [0, 0, 0, 0, 0, 0, 0, 0] ∧
      agent'.getActivations 0 = [1, 0, 0, 0, 0, 0, 0, 0] ∧
      agent'.getActivations 0 ≠ (defaultAgentOver ℝ).getActivations 0 := by
  obtain ⟨acts, z, hz, hacts, h0, h4, hf⟩ := forward_ok Real.exp
    (defaultAgentOver ℝ).q_network_ [1, 0, 0, 0, 0, 0, 0, 0] (wellShaped_new _ _) rfl
  have hfq := hf (defaultAgentOver ℝ).q_network_ (wellShaped_new _ _) rfl rfl
  have hbefore : (defaultAgentOver ℝ).getActivations 0 = [0, 0, 0, 0, 0, 0, 0, 0] := by
    apply getActivations_of_lt (defaultAgentOver ℝ).q_network_ 0
    simp [defaultAgentOver, new, updateTargetNetwork, NeuralNetwork.new, INPUT_SIZE,
      List.replicate]
  have hafter : getActivations
      { defaultAgentOver ℝ with
        q_network_ := { (defaultAgentOver ℝ).q_network_ with activations_ := acts } } 0
      = [1, 0, 0, 0, 0, 0, 0, 0] :=
    getActivations_of_lt { (defaultAgentOver ℝ).q_network_ with activations_ := acts } 0 _ h0
  refine ⟨_, softmax Real.exp z, ?_, hbefore, hafter, ?_⟩
  · unfold getQValues
    rw [hfq]
    rfl
  · rw [hafter, hbefore]
    simp

end MusicRecommendationDQN

end QueryProofs

/-! ## Theorems: the failure of `forward` -/

section ForwardFailureProofs

set_option linter.unusedSectionVars false

variable {K : Type} [LinearOrderedField K]

namespace NeuralNetwork

/-- The loop over the hidden layers, in its two formulations. -/
theorem hiddenLoop_eq_effect (nn : NeuralNetwork K) :
    ∀ (count i : Nat) (current : VectorXd K) (m : NeuralNetwork K),
      m.weights_ = nn.weights_ → m.biases_ = nn.biases_ →
      hiddenLoop nn i count current m.activations_ =
        (match hiddenLoopEffect m i count current with
          | (m', Except.ok c) => Except.ok (c, m'.activations_)
          | (_, Except.error err) => Except.error err) ∧
      (hiddenLoopEffect m i count current).1.weights_ = m.weights_ ∧
      (hiddenLoopEffect m i count current).1.biases_ = m.biases_ ∧
      (hiddenLoopEffect m i count current).1.learning_rate_ = m.learning_rate_ := by
  intro count
  induction count with
  | zero =>
    intro i current m _ _
    exact ⟨rfl, rfl, rfl, rfl⟩
  | succ n ih =>
    intro i current m hw hb
    unfold hiddenLoop hiddenLoopEffect
    rw [← hw, ← hb]
    cases h1 : elemAt m.weights_ i with
    | error err => simp [bind, Except.bind]
    | ok W =>
      cases h2 : elemAt m.biases_ i with
      | error err => simp [bind, Except.bind]
      | ok b =>
        cases h3 : affine W current b with
        | error err => simp [bind, Except.bind, h3]
        | ok z =>
          cases h4 : setAt m.activations_ (i + 1) (z.map relu) with
          | error err => simp [bind, Except.bind, h3, h4]
          | ok acts =>
            obtain ⟨g1, g2, g3, g4⟩ := ih (i + 1) (z.map relu)
              { m with activations_ := acts } hw hb
            simp only [bind, Except.bind, h3, h4]
            exact ⟨g1, g2, g3, g4⟩

/-- The function `forward` in its two formulations: the outcome and, on a
normal return, the network are the same. -/
theorem forward_eq_effect (exp : K → K) (nn : NeuralNetwork K) (x : VectorXd K) :
    forward exp nn x =
      (match forwardEffect exp nn x with
        | (m, Except.ok out) => Except.ok (m, out)
        | (_, Except.error err) => Except.error err) := by
  unfold forward forwardEffect
  by_cases hx : x.length ≠ INPUT_SIZE
  · simp only [bind, Except.bind]
    rw [if_pos hx, if_pos hx]
  · simp only [bind, Except.bind, pure, Except.pure]
    rw [if_neg hx, if_neg hx]
    cases h1 : setAt nn.activations_ 0 x with
    | error err => rfl
    | ok acts =>
      simp only []
      by_cases hw : nn.weights_.length = 0
      · rw [if_pos hw, if_pos hw]
      · rw [if_neg hw, if_neg hw]
        obtain ⟨g1, g2, g3, g4⟩ := hiddenLoop_eq_effect nn (nn.weights_.length - 1) 0 x
          { nn with activations_ := acts } rfl rfl
        simp only at g1 g2 g3 g4
        rw [g1]
        rcases hE : hiddenLoopEffect { nn with activations_ := acts } 0
          (nn.weights_.length - 1) x with ⟨nn2, r⟩
        rw [hE] at g2 g3 g4
        simp only at g2 g3 g4
        cases r with
        | error err => rfl
        | ok current =>
          simp only [g2, g3]
          cases h2 : elemAt nn.weights_ (nn.weights_.length - 1) with
          | error err => rfl
          | ok W =>
            cases h3 : elemAt nn.biases_ (nn.weights_.length - 1) with
            | error err => rfl
            | ok b =>
              cases h4 : affine W current b with
              | error err => simp only [h4]
              | ok z =>
                cases h5 : setAt nn2.activations_ (nn.weights_.length - 1 + 1)
                    (softmax exp z) with
                | error err => simp only [h4, h5]
                | ok acts2 => simp only [h4, h5, g4]

theorem elemAt_error {α : Type} (xs : List α) (i : Nat) (err : Error)
    (h : elemAt xs i = Except.error err) :
    err = Error.undefined_behavior "index out of range" := by
  unfold elemAt at h
  cases hx : xs[i]? with
  | none =>
    rw [hx] at h
    cases h
    rfl
  | some a =>
    rw [hx] at h
    cases h

theorem setAt_error {α : Type} (xs : List α) (i : Nat) (v : α) (err : Error)
    (h : setAt xs i v = Except.error err) :
    err = Error.undefined_behavior "index out of range" := by
  unfold setAt at h
  split_ifs at h
  · cases h
  · cases h
    rfl

theorem affine_error (W : MatrixXd K) (x b : VectorXd K) (err : Error)
    (h : affine W x b = Except.error err) :
    err = Error.undefined_behavior "Eigen size mismatch" := by
  unfold affine at h
  split_ifs at h
  · cases h
  · cases h
    rfl

/-- No statement of the hidden-layer loop throws `std::invalid_argument`. -/
theorem hiddenLoopEffect_not_invalid (count : Nat) :
    ∀ (i : Nat) (current : VectorXd K) (m : NeuralNetwork K) (what : String),
      (hiddenLoopEffect m i count current).2 ≠ Except.error (Error.invalid_argument what) := by
  induction count with
  | zero =>
    intro i current m what h
    cases h
  | succ n ih =>
    intro i current m what
    unfold hiddenLoopEffect
    cases h1 : elemAt m.weights_ i with
    | error err =>
      rw [elemAt_error _ _ _ h1]
      simp
    | ok W =>
      cases h2 : elemAt m.biases_ i with
      | error err =>
        rw [elemAt_error _ _ _ h2]
        simp
      | ok b =>
        cases h3 : affine W current b with
        | error err =>
          simp only [h3]
          rw [affine_error _ _ _ _ h3]
          simp
        | ok z =>
          cases h4 : setAt m.activations_ (i + 1) (z.map relu) with
          | error err =>
            simp only [h3, h4]
            rw [setAt_error _ _ _ _ h4]
            simp
          | ok acts =>
            simp only [h3, h4]
            exact ih _ _ _ _

/-- With an input of length 8, `forward` does not throw `std::invalid_argument`. -/
theorem forwardEffect_not_invalid (exp : K → K) (nn : NeuralNetwork K) (x : VectorXd K)
    (hx : x.length = 8) (what : String) :
    (forwardEffect exp nn x).2 ≠ Except.error (Error.invalid_argument what) := by
  unfold forwardEffect
  rw [if_neg (by simpa [INPUT_SIZE] using hx)]
  cases h1 : setAt nn.activations_ 0 x with
  | error err =>
    rw [setAt_error _ _ _ _ h1]
    simp
  | ok acts =>
    simp only []
    split_ifs with hw
    · simp
    · rcases hE : hiddenLoopEffect { nn with activations_ := acts } 0
        (nn.weights_.length - 1) x with ⟨nn2, r⟩
      have hr := hiddenLoopEffect_not_invalid (nn.weights_.length - 1) 0 x
        { nn with activations_ := acts } what
      rw [hE] at hr
      cases r with
      | error err =>
        simpa using hr
      | ok current =>
        simp only []
        cases h2 : elemAt nn2.weights_ (nn2.weights_.length - 1) with
        | error err =>
          rw [elemAt_error _ _ _ h2]
          simp
        | ok W =>
          cases h3 : elemAt nn2.biases_ (nn2.weights_.length - 1) with
          | error err =>
            rw [elemAt_error _ _ _ h3]
            simp
          | ok b =>
            cases h4 : affine W current b with
            | error err =>
              simp only [h4]
              rw [affine_error _ _ _ _ h4]
              simp
            | ok z =>
              cases h5 : setAt nn2.activations_ (nn2.weights_.length - 1 + 1)
                  (softmax exp z) with
              | error err =>
                simp only [h4, h5]
                rw [setAt_error _ _ _ _ h5]
                simp
              | ok acts2 =>
                simp only [h4, h5]
                simp

theorem forward_throws_iff (exp : K → K) (nn : NeuralNetwork K) (x : VectorXd K) :
    (∃ what, forward exp nn x = Except.error (Error.invalid_argument what)) ↔
      x.length ≠ 8 := by
  constructor
  · rintro ⟨what, h⟩ hx
    have hne := forwardEffect_not_invalid exp nn x hx what
    rw [forward_eq_effect] at h
    rcases hE : forwardEffect exp nn x with ⟨m, r⟩
    rw [hE] at h hne
    cases r with
    | error err =>
      simp only [Except.error.injEq] at h
      subst h
      exact hne rfl
    | ok out => cases h
  · intro hx
    refine ⟨"Input size mismatch", ?_⟩
    unfold forward
    simp only [bind, Except.bind]
    rw [if_pos (by simpa [INPUT_SIZE] using hx)]

theorem forwardEffect_of_bad_length (exp : K → K) (nn : NeuralNetwork K) (x : VectorXd K)
    (hx : x.length ≠ 8) :
    forwardEffect exp nn x = (nn, Except.error (Error.invalid_argument "Input size mismatch")) := by
  unfold forwardEffect
  rw [if_pos (by simpa [INPUT_SIZE] using hx)]

/-- C19: for every network and every input vector `x`, `forward(x)` throws
`std::invalid_argument` if and only if the length of `x` is not 8; the throw
precedes every assignment, so it leaves the network (weights, biases and the
activations that `getActivations` returns) as it was. -/
theorem forward_invalid_shape (exp : K → K) (nn : NeuralNetwork K) (x : VectorXd K) :
    ((∃ what, forward exp nn x = Except.error (Error.invalid_argument what)) ↔
      x.length ≠ 8) ∧
    (x.length ≠ 8 →
      forward exp nn x = Except.error (Error.invalid_argument "Input size mismatch") ∧
      (forwardEffect exp nn x).2 =
        Except.error (Error.invalid_argument "Input size mismatch") ∧
      (forwardEffect exp nn x).1.weights_ = nn.weights_ ∧
      (forwardEffect exp nn x).1.biases_ = nn.biases_ ∧
      ∀ layer : Int,
        (forwardEffect exp nn x).1.getActivations layer = nn.getActivations layer) ∧
    forward exp nn x =
      (match forwardEffect exp nn x with
        | (m, Except.ok out) => Except.ok (m, out)
        | (_, Except.error err) => Except.error err) := by
  refine ⟨forward_throws_iff exp nn x, ?_, forward_eq_effect exp nn x⟩
  intro hx
  have hE := forwardEffect_of_bad_length exp nn x hx
  refine ⟨?_, by rw [hE], by rw [hE], by rw [hE], fun layer => by rw [hE]⟩
  rw [forward_eq_effect, hE]

/-- C19 at a concrete input: the network constructed with all weights 0 and a
vector of length 3. -/
theorem forward_invalid_shape_witness :
    ([1, 2, 3] : VectorXd ℚ).length ≠ 8 ∧
    forward (fun _ => 1) (zeroNetwork ℚ) [1, 2, 3] =
      Except.error (Error.invalid_argument "Input size mismatch") ∧
    (forwardEffect (fun _ => 1) (zeroNetwork ℚ) [1, 2, 3]).1.weights_ =
      (zeroNetwork ℚ).weights_ :=
  ⟨by decide,
    ((forward_invalid_shape (fun _ => 1) (zeroNetwork ℚ) [1, 2, 3]).2.1 (by decide)).1,
    ((forward_invalid_shape (fun _ => 1) (zeroNetwork ℚ) [1, 2, 3]).2.1 (by decide)).2.2.1⟩

end NeuralNetwork

end ForwardFailureProofs

/-! ## Theorems: model files -/

section ModelFileProofs

set_option linter.unusedSectionVars false

variable {K : Type} [LinearOrderedField K]

namespace NeuralNetwork

theorem length_columnsFrom (W : MatrixXd K) (count : Nat) :
    ∀ c : Nat, (columnsFrom W c count).length = count * W.length := by
  induction count with
  | zero => intro c; simp [columnsFrom]
  | succ n ih =>
    intro c
    simp only [columnsFrom, List.length_append, List.length_map, ih]
    ring

/-- The position of a coefficient in the storage: with `R` rows, the entry at
row `r` of the `k`-th column listed has index `k * R + r`. -/
theorem columnsFrom_getElem? (W : MatrixXd K) (count : Nat) :
    ∀ (c k r : Nat), k < count → r < W.length →
      (columnsFrom W c count)[k * W.length + r]? =
        some ((W.getD r []).getD (c + k) 0) := by
  induction count with
  | zero => intro c k r hk; omega
  | succ n ih =>
    intro c k r hk hr
    unfold columnsFrom
    cases k with
    | zero =>
      rw [List.getElem?_append_left (by simpa using hr)]
      simp [List.getElem?_map, List.getD_eq_getElem?_getD, List.getElem?_eq_getElem hr]
    | succ k =>
      rw [List.getElem?_append_right (by simp; nlinarith)]
      have hidx : (k + 1) * W.length + r - (W.map (fun row => row.getD c 0)).length
          = k * W.length + r := by
        simp only [List.length_map]
        have : (k + 1) * W.length = k * W.length + W.length := by ring
        omega
      rw [hidx, ih (c + 1) k r (by omega) hr]
      congr 2
      omega

theorem data_getElem? (W : MatrixXd K) (r c : Nat) (hr : r < W.length) (hc : c < cols W) :
    (data W)[c * W.length + r]? = some ((W.getD r []).getD c 0) := by
  unfold data
  rw [columnsFrom_getElem? W (cols W) 0 c r hc hr]
  simp

theorem length_data (W : MatrixXd K) : (data W).length = cols W * W.length :=
  length_columnsFrom W (cols W) 0

theorem map_getD_range (l : List K) :
    (List.range l.length).map (fun c => l.getD c 0) = l := by
  apply List.ext_getElem?
  intro i
  by_cases hi : i < l.length
  · simp [List.getElem?_map, List.getElem?_range hi, List.getElem?_eq_getElem hi]
  · rw [List.getElem?_eq_none (by simpa using hi), List.getElem?_eq_none (by simpa using hi)]

/-- Storing a matrix with `data()` and rebuilding it from the storage gives the
matrix back. -/
theorem ofData_data (W : MatrixXd K) (hW : ∀ row ∈ W, row.length = cols W) :
    ofData W.length (cols W) (data W) = W := by
  apply List.ext_getElem?
  intro r
  by_cases hr : r < W.length
  · have hrow : (W.getD r []) = W[r] := by
      simp [List.getD_eq_getElem?_getD, List.getElem?_eq_getElem hr]
    have hlen : (W[r]).length = cols W := hW _ (List.getElem_mem _)
    simp only [ofData, List.getElem?_map, List.getElem?_range hr, Option.map_some',
      List.getElem?_eq_getElem hr, Option.some.injEq]
    rw [← map_getD_range W[r], hlen]
    apply List.map_congr_left
    intro c hc
    have hc' : c < cols W := List.mem_range.mp hc
    rw [List.getD_eq_getElem?_getD, data_getElem? W r c hr hc', hrow]
    simp
  · rw [List.getElem?_eq_none (by simpa [ofData] using hr),
      List.getElem?_eq_none (by simpa using hr)]

theorem readDoubles_append (xs : List K) (rest : List (Datum K)) :
    readDoubles xs.length (xs.map Datum.double ++ rest) = Except.ok (xs, rest) := by
  induction xs with
  | nil => rfl
  | cons x xs ih =>
    simp only [List.length_cons, List.map_cons, List.cons_append, readDoubles, bind,
      Except.bind, pure, Except.pure]
    have ih' : readDoubles xs.length ((xs.map Datum.double).append rest) =
        Except.ok (xs, rest) := ih
    rw [ih']

/-- Reading back what one iteration of `saveWeights` wrote for a layer with a
rectangular weight matrix yields that layer. -/
theorem loadLoop_layerBlock (W : MatrixXd K) (b : VectorXd K)
    (hW : ∀ row ∈ W, row.length = cols W) (count : Nat) (rest : List (Datum K)) :
    loadLoop (count + 1) (layerBlock W b ++ rest) =
      (match loadLoop count rest with
        | Except.error err => Except.error err
        | Except.ok (weights, biases) => Except.ok (W :: weights, b :: biases)) := by
  have hlen : ((W.length : Int).toNat * ((cols W : Nat) : Int).toNat) = (data W).length := by
    rw [length_data]
    simp only [Int.toNat_ofNat]
    ring
  have hstream : layerBlock W b ++ rest =
      Datum.int (W.length : Int) :: Datum.int (cols W : Int) ::
        ((data W).map Datum.double ++
          (Datum.int (b.length : Int) :: (b.map Datum.double ++ rest))) := by
    simp [layerBlock]
  rw [hstream, loadLoop]
  simp only [readInt, bind, Except.bind, pure, Except.pure]
  rw [if_neg (by omega)]
  simp only [hlen, readDoubles_append, readInt]
  rw [if_neg (by omega)]
  simp only [Int.toNat_ofNat, readDoubles_append, ofData_data W hW]
  cases loadLoop count rest with
  | error err => rfl
  | ok r => rfl

/-- Reading back what the loop of `saveWeights` wrote yields the layers saved. -/
theorem loadLoop_saveLoop (nn : NeuralNetwork K)
    (hW : ∀ W ∈ nn.weights_, ∀ row ∈ W, row.length = cols W) (count : Nat) :
    ∀ i : Nat, i + count ≤ nn.weights_.length → i + count ≤ nn.biases_.length →
      ∃ written : List (Datum K), saveLoop nn i count = Except.ok written ∧
        ∀ rest : List (Datum K),
          loadLoop count (written ++ rest) =
            Except.ok ((nn.weights_.drop i).take count, (nn.biases_.drop i).take count) := by
  induction count with
  | zero =>
    intro i _ _
    exact ⟨[], rfl, fun rest => by simp [loadLoop, pure, Except.pure]⟩
  | succ n ih =>
    intro i hw hb
    have hiw : i < nn.weights_.length := by omega
    have hib : i < nn.biases_.length := by omega
    obtain ⟨written, hsave, hload⟩ := ih (i + 1) (by omega) (by omega)
    refine ⟨layerBlock (nn.weights_.get ⟨i, hiw⟩) (nn.biases_.get ⟨i, hib⟩) ++ written, ?_, ?_⟩
    · unfold saveLoop
      rw [ExperienceBuffer.elemAt_of_lt _ _ hiw, ExperienceBuffer.elemAt_of_lt _ _ hib, hsave]
      rfl
    · intro rest
      rw [List.append_assoc, loadLoop_layerBlock _ _
        (hW _ (List.get_mem _ _ _)), hload rest]
      simp only [List.get_eq_getElem]
      rw [List.drop_eq_getElem_cons hiw, List.drop_eq_getElem_cons hib, List.take_succ_cons,
        List.take_succ_cons]

theorem cols_of_isMatrix (W : MatrixXd K) (rows cols' : Nat) (h : IsMatrix W rows cols')
    (hpos : 0 < rows) : cols W = cols' := by
  obtain ⟨h1, h2⟩ := h
  cases W with
  | nil => simp at h1; omega
  | cons row rest => exact h2 row (List.mem_cons_self _ _)

theorem WellShaped.rectangular {nn : NeuralNetwork K} (h : WellShaped nn) :
    ∀ W ∈ nn.weights_, ∀ row ∈ W, row.length = cols W := by
  obtain ⟨W0, W1, W2, W3, b0, b1, b2, b3, a0, a1, a2, a3, a4, hnn, h0, h1, h2, h3, -⟩ :=
    h.exists_eq
  rw [hnn]
  intro W hW row hrow
  simp only [List.mem_cons, List.mem_singleton, List.not_mem_nil, or_false] at hW
  rcases hW with rfl | rfl | rfl | rfl
  · rw [cols_of_isMatrix _ _ _ h0 (by norm_num)]; exact h0.2 row hrow
  · rw [cols_of_isMatrix _ _ _ h1 (by norm_num)]; exact h1.2 row hrow
  · rw [cols_of_isMatrix _ _ _ h2 (by norm_num)]; exact h2.2 row hrow
  · rw [cols_of_isMatrix _ _ _ h3 (by norm_num)]; exact h3.2 row hrow

/-- Saving a network with as many biases as weight matrices, all matrices
rectangular, and loading the file into any network: both calls succeed and the
loaded network has the saved weights and biases. -/
theorem loadWeights_saveWeights (nn fresh : NeuralNetwork K)
    (hW : ∀ W ∈ nn.weights_, ∀ row ∈ W, row.length = cols W)
    (hb : nn.biases_.length = nn.weights_.length) :
    ∃ file : List (Datum K), saveWeights nn true = Except.ok file ∧
      loadWeights fresh (some file) = Except.ok
        { fresh with
          weights_ := nn.weights_
          biases_ := nn.biases_
          activations_ := List.replicate INPUT_SIZE 0 ::
            nn.weights_.map (fun weight => List.replicate weight.length 0) } := by
  obtain ⟨written, hsave, hload⟩ := loadLoop_saveLoop nn hW nn.weights_.length 0
    (by omega) (by omega)
  refine ⟨Datum.size_t nn.weights_.length :: written, ?_, ?_⟩
  · unfold saveWeights
    rw [if_neg (by simp), hsave]
    rfl
  · have h := hload []
    rw [List.append_nil] at h
    simp only [loadWeights, readSizeT, bind, Except.bind, pure, Except.pure, h, List.drop_zero,
      List.take_length]
    rw [← hb, List.take_length]

/-- C14: for every network `N` with the fixed architecture, `saveWeights`
succeeds (when the file opens), and loading the file written into any network
yields a network with the weights and biases of `N`, whose `forward` returns on
every input of length 8 exactly what `N.forward` returns. -/
theorem save_load_round_trip (exp : K → K) (N fresh : NeuralNetwork K) (hN : WellShaped N) :
    ∃ (file : List (Datum K)) (N' : NeuralNetwork K),
      saveWeights N true = Except.ok file ∧
      loadWeights fresh (some file) = Except.ok N' ∧
      N'.weights_ = N.weights_ ∧ N'.biases_ = N.biases_ ∧
      ∀ x : VectorXd K, x.length = 8 →
        ∃ (m m' : NeuralNetwork K) (out : VectorXd K),
          forward exp N x = Except.ok (m, out) ∧ forward exp N' x = Except.ok (m', out) := by
  obtain ⟨file, hsave, hload⟩ := loadWeights_saveWeights N fresh hN.rectangular
    (by rw [hN.1, hN.2.1])
  refine ⟨file, _, hsave, hload, rfl, rfl, ?_⟩
  intro x hx
  obtain ⟨acts, z, -, -, -, -, hf⟩ := forward_ok exp N x hN hx
  have hN' : WellShaped
      { fresh with
        weights_ := N.weights_
        biases_ := N.biases_
        activations_ := List.replicate INPUT_SIZE 0 ::
          N.weights_.map (fun weight => List.replicate weight.length 0) } :=
    wellShaped_of_params hN rfl rfl (by simp [hN.1])
  exact ⟨_, _, _, hf N hN rfl rfl, hf _ hN' rfl rfl⟩

/-- C14 at a concrete input: the network constructed with all weights 0, saved
and loaded into the marked network. -/
theorem save_load_round_trip_witness :
    WellShaped (zeroNetwork ℚ) ∧
    ∃ (file : List (Datum ℚ)) (N' : NeuralNetwork ℚ),
      saveWeights (zeroNetwork ℚ) true = Except.ok file ∧
      loadWeights markedNetwork (some file) = Except.ok N' ∧
      N'.weights_ = (zeroNetwork ℚ).weights_ ∧ N'.biases_ = (zeroNetwork ℚ).biases_ ∧
      ∀ x : VectorXd ℚ, x.length = 8 →
        ∃ (m m' : NeuralNetwork ℚ) (out : VectorXd ℚ),
          forward (fun _ => 1) (zeroNetwork ℚ) x = Except.ok (m, out) ∧
          forward (fun _ => 1) N' x = Except.ok (m', out) :=
  ⟨wellShaped_new _ _,
    save_load_round_trip (fun _ => 1) (zeroNetwork ℚ) markedNetwork (wellShaped_new _ _)⟩

/-- The doubles of a layer's weight block follow the two integers `rows` and
`cols`, in the order of `data()`. -/
theorem layerBlock_getElem? (W : MatrixXd K) (b : VectorXd K) (k : Nat)
    (hk : k < (data W).length) :
    (layerBlock W b)[0]? = some (Datum.int (W.length : Int)) ∧
    (layerBlock W b)[1]? = some (Datum.int (cols W : Int)) ∧
    (layerBlock W b)[2 + k]? = ((data W)[k]?).map Datum.double := by
  have hblock : layerBlock W b =
      Datum.int (W.length : Int) :: Datum.int (cols W : Int) ::
        ((data W).map Datum.double ++ (Datum.int (b.length : Int) :: b.map Datum.double)) := by
    simp [layerBlock]
  rw [hblock]
  refine ⟨rfl, by simp, ?_⟩
  have h2 : 2 + k = (k + 1) + 1 := by omega
  rw [h2, List.getElem?_cons_succ, List.getElem?_cons_succ,
    List.getElem?_append_left (by simpa using hk), List.getElem?_map]

/-- The file that `saveWeights` writes for a well-shaped network: the number of
layers, then the four layer blocks. -/
theorem saveWeights_wellShaped (W0 W1 W2 W3 : MatrixXd K)
    (b0 b1 b2 b3 : VectorXd K) (acts : List (VectorXd K)) (lr : K) :
    saveWeights
        { weights_ := [W0, W1, W2, W3], biases_ := [b0, b1, b2, b3], activations_ := acts,
          learning_rate_ := lr } true =
      Except.ok (Datum.size_t 4 ::
        (layerBlock W0 b0 ++ (layerBlock W1 b1 ++ (layerBlock W2 b2 ++
          (layerBlock W3 b3 ++ []))))) := by
  simp [saveWeights, saveLoop, elemAt, bind, Except.bind, pure, Except.pure]

/-- The network that the constructor builds, layer by layer. -/
theorem new_eq (learning_rate : K) (draw : Nat → Nat → Nat → K) :
    NeuralNetwork.new learning_rate draw =
      { weights_ :=
          [(List.range 64).map (fun row => (List.range 8).map (fun col => draw 0 row col)),
           (List.range 32).map (fun row => (List.range 64).map (fun col => draw 1 row col)),
           (List.range 16).map (fun row => (List.range 32).map (fun col => draw 2 row col)),
           (List.range 5).map (fun row => (List.range 16).map (fun col => draw 3 row col))]
        biases_ :=
          [List.replicate 64 0.01, List.replicate 32 0.01, List.replicate 16 0.01,
           List.replicate 5 0.01]
        activations_ :=
          [List.replicate 8 0, List.replicate 64 0, List.replicate 32 0,
           List.replicate 16 0, List.replicate 5 0]
        learning_rate_ := learning_rate } := by
  rfl

theorem new_first_layer_entry (learning_rate : K) (draw : Nat → Nat → Nat → K)
    (r c : Nat) (hr : r < 64) (hc : c < 8) :
    (((NeuralNetwork.new learning_rate draw).weights_.getD 0 []).getD r []).getD c 0 =
      draw 0 r c := by
  rw [new_eq]
  simp [List.getD_eq_getElem?_getD, List.getElem?_map, List.getElem?_range hr,
    List.getElem?_range hc]

/-- The file written for a well-shaped network: the layer count 4, then the
four layer blocks. -/
theorem WellShaped.saveWeights_eq {nn : NeuralNetwork K} (h : WellShaped nn) :
    ∃ (W0 W1 W2 W3 : MatrixXd K) (b0 b1 b2 b3 : VectorXd K),
      nn.weights_ = [W0, W1, W2, W3] ∧ nn.biases_ = [b0, b1, b2, b3] ∧
      IsMatrix W0 64 8 ∧
      saveWeights nn true =
        Except.ok (Datum.size_t 4 ::
          (layerBlock W0 b0 ++ (layerBlock W1 b1 ++ (layerBlock W2 b2 ++
            (layerBlock W3 b3 ++ []))))) := by
  obtain ⟨W0, W1, W2, W3, b0, b1, b2, b3, a0, a1, a2, a3, a4, hnn, h0, -⟩ := h.exists_eq
  refine ⟨W0, W1, W2, W3, b0, b1, b2, b3, by rw [hnn], by rw [hnn], h0, ?_⟩
  rw [hnn]
  exact saveWeights_wellShaped W0 W1 W2 W3 b0 b1 b2 b3 _ _

/-- The place of a coefficient in a layer block: after the integers `rows` and
`cols`, the entry at row `r` and column `c` is the double number
`c * rows + r`. -/
theorem layerBlock_entry (W : MatrixXd K) (b : VectorXd K) (r c : Nat)
    (hr : r < W.length) (hc : c < cols W) :
    (layerBlock W b)[0]? = some (Datum.int (W.length : Int)) ∧
    (layerBlock W b)[1]? = some (Datum.int (cols W : Int)) ∧
    (layerBlock W b)[2 + (c * W.length + r)]? =
      some (Datum.double ((W.getD r []).getD c 0)) := by
  have hk : c * W.length + r < (data W).length := by
    rw [length_data]
    calc c * W.length + r < c * W.length + W.length := by omega
      _ = (c + 1) * W.length := by ring
      _ ≤ cols W * W.length := Nat.mul_le_mul_right _ hc
  obtain ⟨g0, g1, g2⟩ := layerBlock_getElem? W b (c * W.length + r) hk
  refine ⟨g0, g1, ?_⟩
  rw [g2, data_getElem? W r c hr hc]
  rfl

/-- C15 (as amended): in the stream written by `saveWeights` for a network of
the fixed architecture, the layer count is followed by the four layer blocks,
and in each block, after the integers `rows` and `cols`, the weight matrix is
emitted in column-major order: the entry at row `r` and column `c` is the
`(c * rows + r)`-th double of the block. -/
theorem saveWeights_column_major (nn : NeuralNetwork K) (h : WellShaped nn) :
    (∃ (W0 W1 W2 W3 : MatrixXd K) (b0 b1 b2 b3 : VectorXd K),
      nn.weights_ = [W0, W1, W2, W3] ∧ nn.biases_ = [b0, b1, b2, b3] ∧
      saveWeights nn true =
        Except.ok (Datum.size_t 4 ::
          (layerBlock W0 b0 ++ (layerBlock W1 b1 ++ (layerBlock W2 b2 ++
            (layerBlock W3 b3 ++ [])))))) ∧
    (∀ (W : MatrixXd K) (b : VectorXd K) (r c : Nat), r < W.length → c < cols W →
      (layerBlock W b)[0]? = some (Datum.int (W.length : Int)) ∧
      (layerBlock W b)[1]? = some (Datum.int (cols W : Int)) ∧
      (layerBlock W b)[2 + (c * W.length + r)]? =
        some (Datum.double ((W.getD r []).getD c 0))) := by
  constructor
  · obtain ⟨W0, W1, W2, W3, b0, b1, b2, b3, hw, hb, -, hsave⟩ := h.saveWeights_eq
    exact ⟨W0, W1, W2, W3, b0, b1, b2, b3, hw, hb, hsave⟩
  · intro W b r c hr hc
    exact layerBlock_entry W b r c hr hc

/-- C15 at a concrete input: the network constructed with all weights 0. -/
theorem saveWeights_column_major_witness :
    WellShaped (zeroNetwork ℚ) ∧
    (∃ (W0 W1 W2 W3 : MatrixXd ℚ) (b0 b1 b2 b3 : VectorXd ℚ),
      (zeroNetwork ℚ).weights_ = [W0, W1, W2, W3] ∧
      (zeroNetwork ℚ).biases_ = [b0, b1, b2, b3] ∧
      saveWeights (zeroNetwork ℚ) true =
        Except.ok (Datum.size_t 4 ::
          (layerBlock W0 b0 ++ (layerBlock W1 b1 ++ (layerBlock W2 b2 ++
            (layerBlock W3 b3 ++ [])))))) :=
  ⟨wellShaped_new _ _, (saveWeights_column_major (zeroNetwork ℚ) (wellShaped_new _ _)).1⟩

/-- C15 (as stated) fails: for the network whose first weight matrix (64 rows,
8 columns) is 1 at row 0, column 1 and 0 elsewhere, the double at position
`0 * 8 + 1` of the first weight block of the file is 0 (the entry at row 1,
column 0), not the entry 1 at row 0, column 1. -/
theorem saveWeights_not_row_major :
    ∃ (W0 : MatrixXd ℚ) (b0 : VectorXd ℚ) (rest : List (Datum ℚ)),
      markedNetwork.weights_[0]? = some W0 ∧
      saveWeights markedNetwork true =
        Except.ok (Datum.size_t 4 :: (layerBlock W0 b0 ++ rest)) ∧
      (layerBlock W0 b0)[0]? = some (Datum.int 64) ∧
      (layerBlock W0 b0)[1]? = some (Datum.int 8) ∧
      (W0.getD 0 []).getD 1 0 = 1 ∧
      (layerBlock W0 b0)[2 + (0 * 8 + 1)]? = some (Datum.double 0) ∧
      (layerBlock W0 b0)[2 + (0 * 8 + 1)]? ≠
        some (Datum.double ((W0.getD 0 []).getD 1 0)) := by
  obtain ⟨W0, W1, W2, W3, b0, b1, b2, b3, hw, hb, h0, hsave⟩ :=
    (wellShaped_new (0.001 : ℚ)
      (fun i row col => if i = 0 ∧ row = 0 ∧ col = 1 then 1 else 0)).saveWeights_eq
  have hW0 : W0 = (NeuralNetwork.new (0.001 : ℚ)
      (fun i row col => if i = 0 ∧ row = 0 ∧ col = 1 then 1 else 0)).weights_.getD 0 [] := by
    rw [hw]
    rfl
  have hentry01 : (W0.getD 0 []).getD 1 0 = 1 := by
    rw [hW0, new_first_layer_entry _ _ 0 1 (by norm_num) (by norm_num)]
    simp
  have hentry10 : (W0.getD 1 []).getD 0 0 = 0 := by
    rw [hW0, new_first_layer_entry _ _ 1 0 (by norm_num) (by norm_num)]
    simp
  have hcols : cols W0 = 8 := cols_of_isMatrix W0 64 8 h0 (by norm_num)
  obtain ⟨g0, g1, g2⟩ := layerBlock_entry W0 b0 1 0 (by rw [h0.1]; norm_num)
    (by rw [hcols]; norm_num)
  rw [h0.1] at g0 g2
  rw [hcols] at g1
  rw [hentry10] at g2
  have g2' : (layerBlock W0 b0)[2 + (0 * 8 + 1)]? = some (Datum.double 0) := by
    have h3 : 2 + (0 * 8 + 1) = 2 + (0 * 64 + 1) := by norm_num
    rw [h3]
    exact g2
  refine ⟨W0, b0, _, ?_, hsave, g0, g1, hentry01, g2', ?_⟩
  · show (NeuralNetwork.new (0.001 : ℚ)
      (fun i row col => if i = 0 ∧ row = 0 ∧ col = 1 then 1 else 0)).weights_[0]? = some W0
    rw [hw]
    rfl
  · rw [g2', hentry01]
    simp

end NeuralNetwork

end ModelFileProofs

/-! ## Theorems: the synchronisation of the target network -/

section SyncProofs

set_option linter.unusedSectionVars false

variable {K : Type} [LinearOrderedField K]

open NeuralNetwork

namespace MusicRecommendationDQN

theorem loadModel_target (agent agent' : MusicRecommendationDQN K)
    (file : Option (List (Datum K))) (h : loadModel agent file = Except.ok agent') :
    agent'.target_network_ = agent'.q_network_ := by
  unfold loadModel at h
  cases hl : agent.q_network_.loadWeights file with
  | error err =>
    rw [hl] at h
    cases h
  | ok q =>
    rw [hl] at h
    simp only [bind, Except.bind, pure, Except.pure, Except.ok.injEq] at h
    subst h
    rfl

/-- C13: immediately after `updateTargetNetwork`, after the construction of an
agent, and after a `loadModel` that returns, the target network's weights and
biases equal the value network's, and `targetNetwork.forward(x)` equals
`valueNetwork.forward(x)` for every input `x` of length 8. -/
theorem target_network_synced (exp : K → K) (agent' : MusicRecommendationDQN K)
    (h : (∃ agent : MusicRecommendationDQN K, agent' = updateTargetNetwork agent) ∨
      (∃ (learning_rate epsilon epsilon_decay epsilon_min gamma : K)
          (draw draw_target : Nat → Nat → Nat → K),
        agent' = new learning_rate epsilon epsilon_decay epsilon_min gamma draw draw_target) ∨
      (∃ (agent : MusicRecommendationDQN K) (file : Option (List (Datum K))),
        loadModel agent file = Except.ok agent')) :
    agent'.target_network_.weights_ = agent'.q_network_.weights_ ∧
    agent'.target_network_.biases_ = agent'.q_network_.biases_ ∧
    ∀ x : VectorXd K, x.length = 8 →
      (forward exp agent'.target_network_ x).map Prod.snd =
        (forward exp agent'.q_network_ x).map Prod.snd := by
  have key : agent'.target_network_ = agent'.q_network_ := by
    rcases h with ⟨agent, rfl⟩ | ⟨lr, e, d, m, g, draw, draw_target, rfl⟩ | ⟨agent, file, hl⟩
    · rfl
    · rfl
    · exact loadModel_target agent agent' file hl
  rw [key]
  exact ⟨rfl, rfl, fun _ _ => rfl⟩

/-- C13 at concrete inputs: the agent constructed with the default
hyperparameters, and the agent after it has loaded the file that it saved. -/
theorem target_network_synced_witness :
    (defaultAgent.target_network_.weights_ = defaultAgent.q_network_.weights_ ∧
      defaultAgent.target_network_.biases_ = defaultAgent.q_network_.biases_ ∧
      ∀ x : VectorXd ℚ, x.length = 8 →
        (forward (fun _ => 1) defaultAgent.target_network_ x).map Prod.snd =
          (forward (fun _ => 1) defaultAgent.q_network_ x).map Prod.snd) ∧
    ∃ (file : List (Datum ℚ)) (agent' : MusicRecommendationDQN ℚ),
      saveModel defaultAgent true = Except.ok file ∧
      loadModel defaultAgent (some file) = Except.ok agent' ∧
      agent'.target_network_.weights_ = agent'.q_network_.weights_ ∧
      agent'.target_network_.biases_ = agent'.q_network_.biases_ ∧
      ∀ x : VectorXd ℚ, x.length = 8 →
        (forward (fun _ => 1) agent'.target_network_ x).map Prod.snd =
          (forward (fun _ => 1) agent'.q_network_ x).map Prod.snd := by
  refine ⟨target_network_synced (fun _ => 1) defaultAgent
    (Or.inr (Or.inl ⟨_, _, _, _, _, _, _, rfl⟩)), ?_⟩
  obtain ⟨file, hsave, hload⟩ := loadWeights_saveWeights defaultAgent.q_network_
    defaultAgent.q_network_ (wellShaped_new _ _).rectangular rfl
  have hl : loadModel defaultAgent (some file) = Except.ok
      (updateTargetNetwork { defaultAgent with
        q_network_ :=
          { defaultAgent.q_network_ with
            weights_ := defaultAgent.q_network_.weights_
            biases_ := defaultAgent.q_network_.biases_
            activations_ := List.replicate INPUT_SIZE 0 ::
              defaultAgent.q_network_.weights_.map
                (fun weight => List.replicate weight.length 0) } }) := by
    unfold loadModel
    rw [hload]
    rfl
  obtain ⟨g1, g2, g3⟩ := target_network_synced (fun _ => 1) _ (Or.inr (Or.inr ⟨_, _, hl⟩))
  exact ⟨file, _, hsave, hl, g1, g2, g3⟩

end MusicRecommendationDQN

end SyncProofs

/-! ## Theorems: the backward pass and the replay step succeed -/

section BackwardProofs

set_option linter.unusedSectionVars false

variable {K : Type} [LinearOrderedField K]

namespace NeuralNetwork

theorem forall_mem_zipWith {α β γ : Type} (f : α → β → γ) (P : α → Prop) (Q : β → Prop)
    (R : γ → Prop) (hf : ∀ a b, P a → Q b → R (f a b)) :
    ∀ (l₁ : List α) (l₂ : List β), (∀ a ∈ l₁, P a) → (∀ b ∈ l₂, Q b) →
      ∀ z ∈ List.zipWith f l₁ l₂, R z := by
  intro l₁
  induction l₁ with
  | nil => intro l₂ _ _ z hz; simp at hz
  | cons a l₁ ih =>
    intro l₂ h1 h2 z hz
    cases l₂ with
    | nil => simp at hz
    | cons b l₂ =>
      simp only [List.zipWith_cons_cons, List.mem_cons] at hz
      rcases hz with rfl | hz
      · exact hf a b (h1 a (List.mem_cons_self _ _)) (h2 b (List.mem_cons_self _ _))
      · exact ih l₂ (fun a' ha' => h1 a' (List.mem_cons_of_mem _ ha'))
          (fun b' hb' => h2 b' (List.mem_cons_of_mem _ hb')) z hz

theorem vecSub_ok (a b : VectorXd K) (h : a.length = b.length) :
    ∃ v : VectorXd K, vecSub a b = Except.ok v ∧ v.length = a.length := by
  refine ⟨List.zipWith (fun x y => x - y) a b, ?_, by simp [h]⟩
  unfold vecSub
  rw [if_pos h]
  rfl

theorem transposeMul_ok (W : MatrixXd K) (d : VectorXd K) (h : W.length = d.length) :
    ∃ v : VectorXd K, transposeMul W d = Except.ok v ∧ v.length = cols W := by
  refine ⟨(List.range (cols W)).map (fun j => dot (W.map (fun row => row.getD j 0)) d), ?_,
    by simp⟩
  unfold transposeMul
  rw [if_pos h]
  rfl

theorem reluMask_ok (error activation : VectorXd K) (h : error.length ≤ activation.length) :
    ∃ v : VectorXd K, reluMask error activation = Except.ok v ∧ v.length = error.length := by
  refine ⟨List.zipWith (fun e a => e * (if a > 0 then 1.0 else 0.0)) error activation, ?_,
    by simp [h]⟩
  unfold reluMask
  rw [if_pos h]
  rfl

theorem isMatrix_scaledOuter (learning_rate : K) (d prev : VectorXd K) :
    IsMatrix (scaledOuter learning_rate d prev) d.length prev.length := by
  refine ⟨by simp [scaledOuter], ?_⟩
  intro row hrow
  simp only [scaledOuter, List.mem_map] at hrow
  obtain ⟨di, -, rfl⟩ := hrow
  simp

theorem matSub_ok (W G : MatrixXd K) (rows cols' : Nat) (hW : IsMatrix W rows cols')
    (hG : IsMatrix G rows cols') :
    ∃ W' : MatrixXd K, matSub W G = Except.ok W' ∧ IsMatrix W' rows cols' := by
  refine ⟨List.zipWith (fun r g => List.zipWith (fun x y => x - y) r g) W G, ?_, ?_, ?_⟩
  · unfold matSub
    rw [if_pos]
    · rfl
    · refine ⟨by rw [hW.1, hG.1], ?_⟩
      rintro ⟨r, g⟩ hp
      obtain ⟨h1, h2⟩ := List.of_mem_zip hp
      simp only
      rw [hW.2 r h1, hG.2 g h2]
  · simp [hW.1, hG.1]
  · exact forall_mem_zipWith (fun r g : List K => List.zipWith (fun x y => x - y) r g)
      (fun r : List K => r.length = cols') (fun g : List K => g.length = cols')
      (fun z : List K => z.length = cols')
      (fun a b ha hb => by simp only [List.length_zipWith, ha, hb, min_self]) W G hW.2 hG.2

theorem backpropLoop_step (nn : NeuralNetwork K) (i : Nat) (deltas : List (VectorXd K))
    (W : MatrixXd K) (d a error masked : VectorXd K)
    (hW : elemAt nn.weights_ (i + 1) = Except.ok W)
    (hd : elemAt deltas 0 = Except.ok d)
    (he : transposeMul W d = Except.ok error)
    (ha : elemAt nn.activations_ (i + 1) = Except.ok a)
    (hm : reluMask error a = Except.ok masked) :
    backpropLoop nn (i + 1) deltas = backpropLoop nn i (masked :: deltas) := by
  rw [backpropLoop]
  simp only [hW, hd, he, ha, hm, bind, Except.bind]

theorem updateLoop_step (input : VectorXd K) (deltas : List (VectorXd K)) (i count : Nat)
    (nn : NeuralNetwork K) (prev d b b' : VectorXd K) (W W' : MatrixXd K)
    (hprev : (if i = 0 then pure input else elemAt nn.activations_ i) = Except.ok prev)
    (hd : elemAt deltas i = Except.ok d)
    (hW : elemAt nn.weights_ i = Except.ok W)
    (hW' : matSub W (scaledOuter nn.learning_rate_ d prev) = Except.ok W')
    (hiw : i < nn.weights_.length)
    (hb : elemAt nn.biases_ i = Except.ok b)
    (hb' : vecSub b (d.map (fun di => nn.learning_rate_ * di)) = Except.ok b')
    (hib : i < nn.biases_.length) :
    updateLoop input deltas i (count + 1) nn =
      updateLoop input deltas (i + 1) count
        { nn with weights_ := nn.weights_.set i W', biases_ := nn.biases_.set i b' } := by
  rw [updateLoop]
  by_cases hi : i = 0
  · rw [if_pos hi] at hprev
    simp only [pure, Except.pure, Except.ok.injEq] at hprev
    subst hprev
    rw [if_pos hi]
    simp only [hd, hW, hW', hb, hb', bind, Except.bind, setAt, if_pos hiw,
      if_pos hib, pure, Except.pure]
  · rw [if_neg hi] at hprev
    simp only [hi, if_false, hprev, hd, hW, hW', hb, hb', bind, Except.bind, setAt,
      if_pos hiw, if_pos hib, pure, Except.pure]

/-- The backward pass on a well-shaped network, an input of length 8 and a
target of length 5: every operation is defined, and the network stays well
shaped. -/
theorem backward_ok_explicit (exp : K → K) (W0 W1 W2 W3 : MatrixXd K)
    (b0 b1 b2 b3 a0 a1 a2 a3 a4 x target : VectorXd K) (lr : K)
    (hx : x.length = 8) (ht : target.length = 5)
    (h0 : IsMatrix W0 64 8) (h1 : IsMatrix W1 32 64) (h2 : IsMatrix W2 16 32)
    (h3 : IsMatrix W3 5 16)
    (hb0 : b0.length = 64) (hb1 : b1.length = 32) (hb2 : b2.length = 16)
    (hb3 : b3.length = 5) :
    ∃ nn' : NeuralNetwork K,
      backward exp
        { weights_ := [W0, W1, W2, W3], biases_ := [b0, b1, b2, b3],
          activations_ := [a0, a1, a2, a3, a4], learning_rate_ := lr } x target =
        Except.ok nn' ∧
      WellShaped nn' ∧ nn'.learning_rate_ = lr := by
  have l1 : ((affineVal W0 x b0).map relu).length = 64 := by
    rw [List.length_map]; exact length_affineVal W0 x b0 64 h0.1 hb0
  have l2 : ((affineVal W1 ((affineVal W0 x b0).map relu) b1).map relu).length = 32 := by
    rw [List.length_map]; exact length_affineVal W1 _ b1 32 h1.1 hb1
  have l3 : ((affineVal W2 ((affineVal W1 ((affineVal W0 x b0).map relu) b1).map relu)
      b2).map relu).length = 16 := by
    rw [List.length_map]; exact length_affineVal W2 _ b2 16 h2.1 hb2
  have l4 : (softmax exp (affineVal W3
      ((affineVal W2 ((affineVal W1 ((affineVal W0 x b0).map relu) b1).map relu)
        b2).map relu) b3)).length = 5 := by
    rw [length_softmax]; exact length_affineVal W3 _ b3 5 h3.1 hb3
  unfold backward
  rw [forward_explicit exp W0 W1 W2 W3 b0 b1 b2 b3 a0 a1 a2 a3 a4 x lr hx h0 h1 h2 h3
    hb0 hb1 hb2 hb3]
  generalize (affineVal W0 x b0).map relu = v1 at l1 l2 l3 l4 ⊢
  generalize (affineVal W1 v1 b1).map relu = v2 at l2 l3 l4 ⊢
  generalize (affineVal W2 v2 b2).map relu = v3 at l3 l4 ⊢
  generalize softmax exp (affineVal W3 v3 b3) = out at l4 ⊢
  simp only [bind, Except.bind, List.length_cons, List.length_nil]
  -- the output-layer error
  obtain ⟨d3, hd3, ld3⟩ := vecSub_ok out target (by rw [l4, ht])
  rw [l4] at ld3
  rw [hd3]
  simp only []
  -- backpropagation
  obtain ⟨e2, he2, le2⟩ := transposeMul_ok W3 d3 (by rw [h3.1, ld3])
  rw [cols_of_isMatrix W3 5 16 h3 (by norm_num)] at le2
  obtain ⟨d2, hd2, ld2⟩ := reluMask_ok e2 v3 (by rw [le2, l3])
  rw [le2] at ld2
  obtain ⟨e1, he1, le1⟩ := transposeMul_ok W2 d2 (by rw [h2.1, ld2])
  rw [cols_of_isMatrix W2 16 32 h2 (by norm_num)] at le1
  obtain ⟨d1, hd1, ld1⟩ := reluMask_ok e1 v2 (by rw [le1, l2])
  rw [le1] at ld1
  obtain ⟨e0, he0, le0⟩ := transposeMul_ok W1 d1 (by rw [h1.1, ld1])
  rw [cols_of_isMatrix W1 32 64 h1 (by norm_num)] at le0
  obtain ⟨d0, hd0, ld0⟩ := reluMask_ok e0 v1 (by rw [le0, l1])
  rw [le0] at ld0
  have hback : backpropLoop
      { weights_ := [W0, W1, W2, W3], biases_ := [b0, b1, b2, b3],
        activations_ := [x, v1, v2, v3, out], learning_rate_ := lr } (0 + 1 + 1 + 1 + 1 - 1)
      [d3] = Except.ok [d0, d1, d2, d3] :=
    (backpropLoop_step
      { weights_ := [W0, W1, W2, W3], biases_ := [b0, b1, b2, b3],
        activations_ := [x, v1, v2, v3, out], learning_rate_ := lr }
      2 [d3] W3 d3 v3 e2 d2 rfl rfl he2 rfl hd2).trans
    ((backpropLoop_step
      { weights_ := [W0, W1, W2, W3], biases_ := [b0, b1, b2, b3],
        activations_ := [x, v1, v2, v3, out], learning_rate_ := lr }
      1 [d2, d3] W2 d2 v2 e1 d1 rfl rfl he1 rfl hd1).trans
    ((backpropLoop_step
      { weights_ := [W0, W1, W2, W3], biases_ := [b0, b1, b2, b3],
        activations_ := [x, v1, v2, v3, out], learning_rate_ := lr }
      0 [d1, d2, d3] W1 d1 v1 e0 d0 rfl rfl he0 rfl hd0).trans rfl))
  rw [hback]
  simp only []
  -- the updates
  obtain ⟨W0', hW0', s0⟩ := matSub_ok W0 (scaledOuter lr d0 x) 64 8 h0
    (by have := isMatrix_scaledOuter lr d0 x; rwa [ld0, hx] at this)
  obtain ⟨b0', hb0', t0⟩ := vecSub_ok b0 (d0.map (fun di => lr * di))
    (by rw [List.length_map, hb0, ld0])
  obtain ⟨W1', hW1', s1⟩ := matSub_ok W1 (scaledOuter lr d1 v1) 32 64 h1
    (by have := isMatrix_scaledOuter lr d1 v1; rwa [ld1, l1] at this)
  obtain ⟨b1', hb1', t1⟩ := vecSub_ok b1 (d1.map (fun di => lr * di))
    (by rw [List.length_map, hb1, ld1])
  obtain ⟨W2', hW2', s2⟩ := matSub_ok W2 (scaledOuter lr d2 v2) 16 32 h2
    (by have := isMatrix_scaledOuter lr d2 v2; rwa [ld2, l2] at this)
  obtain ⟨b2', hb2', t2⟩ := vecSub_ok b2 (d2.map (fun di => lr * di))
    (by rw [List.length_map, hb2, ld2])
  obtain ⟨W3', hW3', s3⟩ := matSub_ok W3 (scaledOuter lr d3 v3) 5 16 h3
    (by have := isMatrix_scaledOuter lr d3 v3; rwa [ld3, l3] at this)
  obtain ⟨b3', hb3', t3⟩ := vecSub_ok b3 (d3.map (fun di => lr * di))
    (by rw [List.length_map, hb3, ld3])
  refine ⟨{ weights_ := [W0', W1', W2', W3'], biases_ := [b0', b1', b2', b3'],
            activations_ := [x, v1, v2, v3, out], learning_rate_ := lr }, ?_,
    wellShaped_mk _ _ _ _ _ _ _ _ _ _ _ _ _ _ s0 s1 s2 s3 (by rw [t0, hb0]) (by rw [t1, hb1])
      (by rw [t2, hb2]) (by rw [t3, hb3]), rfl⟩
  exact
    (updateLoop_step x [d0, d1, d2, d3] 0 3
      { weights_ := [W0, W1, W2, W3], biases_ := [b0, b1, b2, b3],
        activations_ := [x, v1, v2, v3, out], learning_rate_ := lr }
      x d0 b0 b0' W0 W0' rfl rfl rfl hW0' (by simp) rfl hb0' (by simp)).trans
    ((updateLoop_step x [d0, d1, d2, d3] 1 2
      { weights_ := [W0', W1, W2, W3], biases_ := [b0', b1, b2, b3],
        activations_ := [x, v1, v2, v3, out], learning_rate_ := lr }
      v1 d1 b1 b1' W1 W1' rfl rfl rfl hW1' (by simp) rfl hb1' (by simp)).trans
    ((updateLoop_step x [d0, d1, d2, d3] 2 1
      { weights_ := [W0', W1', W2, W3], biases_ := [b0', b1', b2, b3],
        activations_ := [x, v1, v2, v3, out], learning_rate_ := lr }
      v2 d2 b2 b2' W2 W2' rfl rfl rfl hW2' (by simp) rfl hb2' (by simp)).trans
    ((updateLoop_step x [d0, d1, d2, d3] 3 0
      { weights_ := [W0', W1', W2', W3], biases_ := [b0', b1', b2', b3],
        activations_ := [x, v1, v2, v3, out], learning_rate_ := lr }
      v3 d3 b3 b3' W3 W3' rfl rfl rfl hW3' (by simp) rfl hb3' (by simp)).trans rfl)))

theorem backward_ok (exp : K → K) (nn : NeuralNetwork K) (x target : VectorXd K)
    (h : WellShaped nn) (hx : x.length = 8) (ht : target.length = 5) :
    ∃ nn' : NeuralNetwork K, backward exp nn x target = Except.ok nn' ∧
      WellShaped nn' ∧ nn'.learning_rate_ = nn.learning_rate_ := by
  obtain ⟨W0, W1, W2, W3, b0, b1, b2, b3, a0, a1, a2, a3, a4, hnn, h0, h1, h2, h3,
    hb0, hb1, hb2, hb3⟩ := h.exists_eq
  rw [hnn]
  exact backward_ok_explicit exp W0 W1 W2 W3 b0 b1 b2 b3 a0 a1 a2 a3 a4 x target _ hx ht
    h0 h1 h2 h3 hb0 hb1 hb2 hb3

/-- The loop of `updateWeights` succeeds on 8-element inputs and 5-element
targets, and keeps the architecture. -/
theorem updateWeightsLoop_ok (exp : K → K) (inputs targets : List (VectorXd K))
    (hin : ∀ v ∈ inputs, v.length = 8) (htg : ∀ t ∈ targets, t.length = 5) :
    ∀ (count i : Nat) (nn : NeuralNetwork K), WellShaped nn →
      i + count ≤ inputs.length → i + count ≤ targets.length →
      ∃ nn' : NeuralNetwork K,
        updateWeightsLoop exp inputs targets i count nn = Except.ok nn' ∧
        WellShaped nn' ∧ nn'.learning_rate_ = nn.learning_rate_ := by
  intro count
  induction count with
  | zero =>
    intro i nn h _ _
    exact ⟨nn, rfl, h, rfl⟩
  | succ n ih =>
    intro i nn h hi ht
    have hlt : i < inputs.length := by omega
    have hlt' : i < targets.length := by omega
    obtain ⟨nn1, hb, hw1, hl1⟩ :=
      backward_ok exp nn (inputs.get ⟨i, hlt⟩) (targets.get ⟨i, hlt'⟩) h
        (hin _ (List.get_mem _ _ _)) (htg _ (List.get_mem _ _ _))
    obtain ⟨nn2, hrest, hw2, hl2⟩ := ih (i + 1) nn1 hw1 (by omega) (by omega)
    refine ⟨nn2, ?_, hw2, hl2.trans hl1⟩
    rw [updateWeightsLoop, ExperienceBuffer.elemAt_of_lt inputs i hlt]
    simp only [bind, Except.bind]
    rw [ExperienceBuffer.elemAt_of_lt targets i hlt']
    simp only [hb, hrest]

theorem updateWeights_ok (exp : K → K) (nn : NeuralNetwork K)
    (inputs targets : List (VectorXd K)) (h : WellShaped nn)
    (hin : ∀ v ∈ inputs, v.length = 8) (htg : ∀ t ∈ targets, t.length = 5)
    (hlen : inputs.length = targets.length) :
    ∃ nn' : NeuralNetwork K, updateWeights exp nn inputs targets = Except.ok nn' ∧
      WellShaped nn' ∧ nn'.learning_rate_ = nn.learning_rate_ :=
  updateWeightsLoop_ok exp inputs targets hin htg inputs.length 0 nn h (by omega) (by omega)

end NeuralNetwork

end BackwardProofs

/-! ## Theorems: `train` succeeds on valid arguments -/

section TrainSuccessProofs

set_option linter.unusedSectionVars false

variable {K : Type} [LinearOrderedField K]

open NeuralNetwork

namespace MusicRecommendationDQN

theorem mem_of_sampled (buffer : List (Experience K)) (out : List (Experience K))
    (ps : List Nat) (h : List.Forall₂ (fun e p => buffer[p]? = some e) out ps) :
    ∀ e ∈ out, e ∈ buffer := by
  induction h with
  | nil =>
    intro e he
    cases he
  | cons hhead _ ih =>
    intro e he
    rcases List.mem_cons.1 he with rfl | he'
    · exact List.getElem?_mem hhead
    · exact ih e he'

theorem length_of_isReplayTarget (exp : K → K) (gamma : K) (q t : NeuralNetwork K)
    (e : Experience K) (τ : VectorXd K) (hq : WellShaped q) (hs : e.state.length = 8)
    (h : IsReplayTarget exp gamma q t e τ) : τ.length = 5 := by
  obtain ⟨q1, cq, hf, hlen, -⟩ := h
  obtain ⟨acts, z, hz, -, -, -, hfw⟩ := forward_ok exp q e.state hq hs
  rw [hfw q hq rfl rfl] at hf
  cases hf
  rw [hlen, length_softmax, hz]

theorem length_of_replayTargets (exp : K → K) (gamma : K) (q t : NeuralNetwork K)
    (hq : WellShaped q) (es : List (Experience K)) (targets : List (VectorXd K))
    (h : List.Forall₂ (IsReplayTarget exp gamma q t) es targets) :
    (∀ e ∈ es, e.state.length = 8) → ∀ τ ∈ targets, τ.length = 5 := by
  induction h with
  | nil =>
    intro _ τ hτ
    cases hτ
  | cons hhead _ ih =>
    intro hes τ hτ
    rcases List.mem_cons.1 hτ with rfl | hτ'
    · exact length_of_isReplayTarget exp gamma q t _ _ hq (hes _ (List.mem_cons_self _ _)) hhead
    · exact ih (fun e he => hes e (List.mem_cons_of_mem _ he)) τ hτ'

/-- A replay step succeeds on an agent with well-shaped networks whose buffer
holds at least 32 valid transitions, whatever permutation the shuffle yields;
it keeps the architecture of both networks. -/
theorem replayExperience_ok (exp : K → K) (agent : MusicRecommendationDQN K)
    (shuffle : List Nat → List Nat)
    (hq : WellShaped agent.q_network_) (ht : WellShaped agent.target_network_)
    (hbuf : ∀ e ∈ agent.experience_buffer_.buffer_, Experience.Valid e)
    (hlen : 32 ≤ agent.experience_buffer_.buffer_.length)
    (hperm : (shuffle (List.range agent.experience_buffer_.buffer_.length)).Perm
      (List.range agent.experience_buffer_.buffer_.length)) :
    ∃ agent' : MusicRecommendationDQN K,
      replayExperience exp agent shuffle = Except.ok agent' ∧
      WellShaped agent'.q_network_ ∧ WellShaped agent'.target_network_ := by
  have hidx : ∀ j ∈ shuffle (List.range agent.experience_buffer_.buffer_.length),
      j < agent.experience_buffer_.buffer_.length := fun j hj =>
    List.mem_range.1 (hperm.mem_iff.1 hj)
  have hlen' : 0 + 32 ≤ (shuffle (List.range agent.experience_buffer_.buffer_.length)).length := by
    rw [hperm.length_eq, List.length_range]
    omega
  obtain ⟨out, hout, hall⟩ := ExperienceBuffer.sampleLoop_spec
    agent.experience_buffer_.buffer_ _ hidx 32 0 hlen'
  have hvalid : ∀ e ∈ out, Experience.Valid e := fun e he =>
    hbuf e (mem_of_sampled _ _ _ hall e he)
  obtain ⟨q1, t1, targets, hloop, hq1, -, -, -, ht1, -, -, -, htargets⟩ :=
    replayLoop_ok exp agent.gamma_ agent.q_network_ agent.target_network_ hq ht out
      agent.q_network_ agent.target_network_ hq rfl rfl ht rfl rfl hvalid
  have h5 : ∀ τ ∈ targets, τ.length = 5 :=
    length_of_replayTargets exp agent.gamma_ _ _ hq out targets htargets
      (fun e he => (hvalid e he).1)
  have h8 : ∀ v ∈ out.map (fun e => e.state), v.length = 8 := by
    intro v hv
    obtain ⟨e, he, rfl⟩ := List.mem_map.1 hv
    exact (hvalid e he).1
  obtain ⟨q2, hupd, hq2, -⟩ := updateWeights_ok exp q1 (out.map (fun e => e.state)) targets
    hq1 h8 h5 (by rw [List.length_map]; exact htargets.length_eq)
  refine ⟨{ agent with q_network_ := q2, target_network_ := t1 }, ?_, hq2, ht1⟩
  have hsample : agent.experience_buffer_.sample 32 shuffle = Except.ok out := by
    unfold ExperienceBuffer.sample
    rw [if_neg (by omega)]
    exact hout
  unfold replayExperience
  simp only [bind, Except.bind, hsample, hloop, hupd]
  rfl

theorem add_ok (b : ExperienceBuffer K) (e : Experience K) (hcap : 0 < b.max_size_) :
    ∃ b' : ExperienceBuffer K, b.add e = Except.ok b' ∧ b'.max_size_ = b.max_size_ ∧
      ∀ x ∈ b'.buffer_, x ∈ b.buffer_ ∨ x = e := by
  by_cases h : b.buffer_.length < b.max_size_
  · refine ⟨_, ExperienceBuffer.add_of_lt b e h, rfl, ?_⟩
    intro x hx
    simp only [List.mem_append, List.mem_singleton] at hx
    exact hx
  · refine ⟨_, ExperienceBuffer.add_of_full b e (by omega) (by omega), rfl, ?_⟩
    intro x hx
    simp only [List.mem_append, List.mem_singleton] at hx
    rcases hx with hx | hx
    · exact Or.inl (List.mem_of_mem_tail hx)
    · exact Or.inr hx

/-- A `train` call with valid arguments on a usable agent whose counter is not
`INT_MAX` succeeds, with or without a replay step, and leaves a usable agent. -/
theorem train_ok (exp : K → K) (agent : MusicRecommendationDQN K) (c : TrainCall K)
    (h : Usable agent) (hc : TrainCall.Valid c) (hstep : agent.training_step_ ≠ 2147483647) :
    ∃ agent' : MusicRecommendationDQN K,
      train exp agent c.state c.action c.reward c.next_state c.done c.shuffle =
        Except.ok agent' ∧
      Usable agent' ∧ agent'.training_step_ = agent.training_step_ + 1 := by
  obtain ⟨hq, ht, hcap, hbuf, hfreq⟩ := h
  obtain ⟨b1, hadd, hmax, hmem⟩ := add_ok agent.experience_buffer_ (TrainCall.experience c) hcap
  have hbuf1 : ∀ x ∈ b1.buffer_, Experience.Valid x := by
    intro x hx
    rcases hmem x hx with hx | rfl
    · exact hbuf x hx
    · exact hc.1
  have hadd1 : agent.experience_buffer_.add
      { state := c.state, action := c.action, reward := c.reward,
        next_state := c.next_state, done := c.done } = Except.ok b1 := hadd
  by_cases hcs : b1.canSample 32 = true
  · have hlen : 32 ≤ b1.buffer_.length := by
      simpa [ExperienceBuffer.canSample] using hcs
    obtain ⟨a1, hrep, hq1, ht1⟩ := replayExperience_ok exp
      { agent with experience_buffer_ := b1 } c.shuffle hq ht hbuf1 hlen (hc.2 _)
    obtain ⟨-, -, -, -, f1, s1, e1⟩ := replayExperience_frame exp _ _ _ hrep
    simp only at f1 s1 e1
    obtain ⟨a2, hfin, s2, -, q2, t2, e2, -, -, -, f2⟩ :=
      finishTrain_spec a1 (by rw [s1]; exact hstep) (by rw [f1]; exact hfreq)
    refine ⟨a2, ?_, ⟨by rw [q2]; exact hq1, ?_, by rw [e2, e1, hmax]; exact hcap,
      by rw [e2, e1]; exact hbuf1, by rw [f2, f1]; exact hfreq⟩, by rw [s2, s1]⟩
    · unfold train
      dsimp only
      rw [hadd1]
      simp only [bind, Except.bind]
      rw [if_pos hcs, hrep]
      exact hfin
    · rw [t2]
      split_ifs
      · exact hq1
      · exact ht1
  · obtain ⟨a2, hfin, s2, -, q2, t2, e2, -, -, -, f2⟩ :=
      finishTrain_spec { agent with experience_buffer_ := b1 } hstep hfreq
    simp only at s2 q2 t2 e2 f2
    refine ⟨a2, ?_, ⟨by rw [q2]; exact hq, ?_, by rw [e2, hmax]; exact hcap,
      by rw [e2]; exact hbuf1, by rw [f2]; exact hfreq⟩, s2⟩
    · unfold train
      dsimp only
      rw [hadd1]
      simp only [bind, Except.bind]
      rw [if_neg hcs]
      exact hfin
    · rw [t2]
      split_ifs
      · exact hq
      · exact ht

/-- Every sequence of `train` calls with valid arguments succeeds on a usable
agent, as long as the counter stays within `int`. -/
theorem trainAll_ok (exp : K → K) (calls : List (TrainCall K)) :
    ∀ agent : MusicRecommendationDQN K, Usable agent →
      (∀ c ∈ calls, TrainCall.Valid c) →
      agent.training_step_ + calls.length ≤ 2147483647 →
      ∃ agent' : MusicRecommendationDQN K,
        trainAll exp agent calls = Except.ok agent' ∧ Usable agent' ∧
        agent'.training_step_ = agent.training_step_ + calls.length := by
  induction calls with
  | nil =>
    intro agent h _ _
    exact ⟨agent, rfl, h, by simp⟩
  | cons c rest ih =>
    intro agent h hcalls hstep
    simp only [List.length_cons] at hstep
    push_cast at hstep
    obtain ⟨a1, hrun, h1, s1⟩ := train_ok exp agent c h (hcalls c (List.mem_cons_self _ _))
      (by omega)
    obtain ⟨a2, hrest, h2, s2⟩ := ih a1 h1 (fun c' hc' => hcalls c' (List.mem_cons_of_mem _ hc'))
      (by rw [s1]; omega)
    refine ⟨a2, ?_, h2, ?_⟩
    · unfold trainAll
      rw [hrun]
      simp only [bind, Except.bind]
      exact hrest
    · rw [s2, s1]
      simp only [List.length_cons]
      push_cast
      ring

/-- The exploration rate after a sequence of `train` calls that return: the
decay step applied once per call. -/
theorem trainAll_epsilon_iterate (exp : K → K) (calls : List (TrainCall K)) :
    ∀ agent agent' : MusicRecommendationDQN K,
      trainAll exp agent calls = Except.ok agent' →
      agent'.epsilon_decay_ = agent.epsilon_decay_ ∧
      agent'.epsilon_min_ = agent.epsilon_min_ ∧
      agent'.epsilon_ =
        (decayOnce agent.epsilon_decay_ agent.epsilon_min_)^[calls.length] agent.epsilon_ := by
  induction calls with
  | nil =>
    intro agent agent' h
    cases h
    exact ⟨rfl, rfl, rfl⟩
  | cons c rest ih =>
    intro agent agent' h
    unfold trainAll at h
    cases hstep : train exp agent c.state c.action c.reward c.next_state c.done c.shuffle with
    | error err =>
      rw [hstep] at h
      cases h
    | ok a1 =>
      rw [hstep] at h
      simp only [bind, Except.bind] at h
      obtain ⟨h1, h2, h3⟩ := train_epsilon exp agent a1 _ _ _ _ _ _ hstep
      obtain ⟨g1, g2, g3⟩ := ih a1 agent' h
      refine ⟨g1.trans h1, g2.trans h2, ?_⟩
      rw [g3, h1, h2, h3]
      simp only [List.length_cons, Function.iterate_succ, Function.comp_apply, decayOnce]

/-- While every earlier value is above `epsilon_min`, `n` decay steps multiply
the exploration rate by `epsilon_decay ^ n`. -/
theorem iterate_decayOnce (d m e : K) :
    ∀ n : Nat, (∀ k, k < n → m < e * d ^ k) → (decayOnce d m)^[n] e = e * d ^ n := by
  intro n
  induction n with
  | zero =>
    intro _
    simp
  | succ n ih =>
    intro h
    rw [Function.iterate_succ_apply', ih (fun k hk => h k (Nat.lt_succ_of_lt hk))]
    unfold decayOnce
    rw [if_pos (h n (Nat.lt_succ_self n)), pow_succ, mul_assoc]

/-- The default hyperparameters: 919 decay steps take the exploration rate from
`1.0` below `epsilon_min = 0.01`. -/
theorem default_decay_below_min :
    (decayOnce (0.995 : K) 0.01)^[919] 1.0 < 0.01 := by
  have h918 : (0.01 : K) < 0.995 ^ 918 := by norm_num
  have hle : ∀ k, k < 919 → (0.01 : K) < 1.0 * 0.995 ^ k := by
    intro k hk
    have hpow : (0.995 : K) ^ 918 ≤ 0.995 ^ k :=
      pow_le_pow_of_le_one (by norm_num) (by norm_num) (by omega)
    calc (0.01 : K) < 0.995 ^ 918 := h918
      _ ≤ 0.995 ^ k := hpow
      _ = 1.0 * 0.995 ^ k := by norm_num
  rw [iterate_decayOnce _ _ _ 919 hle]
  norm_num

theorem usable_new (learning_rate epsilon epsilon_decay epsilon_min gamma : K)
    (draw draw_target : Nat → Nat → Nat → K) :
    Usable (MusicRecommendationDQN.new learning_rate epsilon epsilon_decay epsilon_min gamma
      draw draw_target) := by
  refine ⟨wellShaped_new _ _, wellShaped_new _ _, (by decide : 0 < 10000), ?_,
    (by decide : (100 : Int) ≠ 0)⟩
  intro e he
  cases he

theorem valid_plainCall : TrainCall.Valid (plainCall K) :=
  ⟨⟨rfl, fun _ => rfl, le_refl _, (by decide : (0 : Int) ≤ 4)⟩, fun _ => List.Perm.refl _⟩

end MusicRecommendationDQN

end TrainSuccessProofs

/-! ## Theorems: the floor of the exploration rate -/

section FloorProofs

set_option linter.unusedSectionVars false

variable {K : Type} [LinearOrderedField K]

open NeuralNetwork

namespace MusicRecommendationDQN

/-- A lower bound that every decay step taken from above `epsilon_min` respects
is kept by any number of decay steps. -/
theorem iterate_decayOnce_ge (d m L : K) (hL : ∀ e, m < e → L ≤ e * d) :
    ∀ (n : Nat) (e : K), L ≤ e → L ≤ (decayOnce d m)^[n] e := by
  intro n
  induction n with
  | zero =>
    intro e h
    simpa using h
  | succ n ih =>
    intro e h
    rw [Function.iterate_succ_apply]
    apply ih
    unfold decayOnce
    split_ifs with hgt
    · exact hL e hgt
    · exact h

/-- C11 (amended): for an agent with `epsilon ≥ epsilon_min` and
`0 < epsilon_decay < 1`, such as the agent constructed with the default
hyperparameters, after every sequence of `train` calls that return the
exploration rate is at least the smaller of `epsilon_min` and
`epsilon_min * epsilon_decay`: the last decay step may take it below
`epsilon_min`, by at most the factor `epsilon_decay`. -/
theorem epsilon_floor_up_to_one_decay (exp : K → K) (agent agent' : MusicRecommendationDQN K)
    (calls : List (TrainCall K))
    (hd0 : 0 < agent.epsilon_decay_) (hd1 : agent.epsilon_decay_ < 1)
    (heps : agent.epsilon_min_ ≤ agent.epsilon_)
    (h : trainAll exp agent calls = Except.ok agent') :
    min agent'.epsilon_min_ (agent'.epsilon_min_ * agent'.epsilon_decay_) ≤
      agent'.epsilon_ := by
  obtain ⟨g1, g2, g3⟩ := trainAll_epsilon_iterate exp calls agent agent' h
  rw [g1, g2, g3]
  apply iterate_decayOnce_ge
  · intro e he
    by_cases hm : 0 ≤ agent.epsilon_min_
    · exact le_trans (min_le_right _ _) (mul_le_mul_of_nonneg_right he.le hd0.le)
    · by_cases he0 : 0 ≤ e
      · exact le_trans (min_le_left _ _)
          (le_trans (le_of_lt (lt_of_not_le hm)) (mul_nonneg he0 hd0.le))
      · have hge : e ≤ e * agent.epsilon_decay_ := by
          have := mul_le_mul_of_nonpos_left hd1.le (le_of_lt (lt_of_not_le he0))
          simpa using this
        exact le_trans (min_le_left _ _) (le_trans he.le hge)
  · exact le_trans (min_le_left _ _) heps

/-- C11 (amended) at a concrete input: two `train` calls on the agent
constructed with the default hyperparameters. -/
theorem epsilon_floor_up_to_one_decay_witness :
    0 < defaultAgent.epsilon_decay_ ∧ defaultAgent.epsilon_decay_ < 1 ∧
    defaultAgent.epsilon_min_ ≤ defaultAgent.epsilon_ ∧
    ∃ agent' : MusicRecommendationDQN ℚ,
      trainAll (fun _ => 1) defaultAgent [plainCall ℚ, plainCall ℚ] = Except.ok agent' ∧
      min agent'.epsilon_min_ (agent'.epsilon_min_ * agent'.epsilon_decay_) ≤
        agent'.epsilon_ := by
  obtain ⟨agent', hrun, -, -⟩ := trainAll_ok (fun _ => (1 : ℚ)) [plainCall ℚ, plainCall ℚ]
    defaultAgent (usable_new _ _ _ _ _ _ _)
    (fun c hc => by
      simp only [List.mem_cons, List.mem_singleton, List.mem_nil_iff, or_false, or_self] at hc
      rw [hc]
      exact valid_plainCall)
    (by decide)
  have h1 : 0 < defaultAgent.epsilon_decay_ := by
    norm_num [defaultAgent, new, updateTargetNetwork]
  have h2 : defaultAgent.epsilon_decay_ < 1 := by
    norm_num [defaultAgent, new, updateTargetNetwork]
  have h3 : defaultAgent.epsilon_min_ ≤ defaultAgent.epsilon_ := by
    norm_num [defaultAgent, new, updateTargetNetwork]
  exact ⟨h1, h2, h3, agent', hrun,
    epsilon_floor_up_to_one_decay (fun _ => 1) defaultAgent agent' _ h1 h2 h3 hrun⟩

/-- C11 refuted: the agent constructed with the default hyperparameters
(`epsilon = 1.0`, `epsilon_decay = 0.995`, `epsilon_min = 0.01`, so
`epsilon ≥ epsilon_min` and `0 < epsilon_decay < 1`) and 919 `train` calls on
the zero state with action 0 and reward 0: every call returns, and afterwards
`epsilon = 0.995 ^ 919 < epsilon_min`.  And already one such call takes an
agent constructed with `epsilon = 1`, `epsilon_decay = 0.5` and
`epsilon_min = 0.9` to `epsilon = 0.5 < epsilon_min`. -/
theorem default_agent_epsilon_below_min :
    ((defaultAgentOver ℝ).epsilon_min_ ≤ (defaultAgentOver ℝ).epsilon_ ∧
      0 < (defaultAgentOver ℝ).epsilon_decay_ ∧ (defaultAgentOver ℝ).epsilon_decay_ < 1 ∧
      ∃ agent' : MusicRecommendationDQN ℝ,
        trainAll Real.exp (defaultAgentOver ℝ) (List.replicate 919 (plainCall ℝ)) =
          Except.ok agent' ∧
        agent'.epsilon_ = 0.995 ^ 919 ∧ agent'.epsilon_min_ = 0.01 ∧
        agent'.epsilon_ < agent'.epsilon_min_) ∧
    ∃ agent' : MusicRecommendationDQN ℚ,
      trainAll (fun _ => 1)
        (MusicRecommendationDQN.new 0.001 1 0.5 0.9 0.95 (fun _ _ _ => 0) (fun _ _ _ => 0))
        [plainCall ℚ] = Except.ok agent' ∧
      agent'.epsilon_ = 0.5 ∧ agent'.epsilon_min_ = 0.9 ∧
      agent'.epsilon_ < agent'.epsilon_min_ := by
  constructor
  · obtain ⟨agent', hrun, -, -⟩ := trainAll_ok Real.exp (List.replicate 919 (plainCall ℝ))
      (defaultAgentOver ℝ) (usable_new _ _ _ _ _ _ _)
      (fun c hc => by
        rw [List.eq_of_mem_replicate hc]
        exact valid_plainCall)
      (by
        rw [List.length_replicate]
        decide)
    obtain ⟨g1, g2, g3⟩ := trainAll_epsilon_iterate Real.exp _ _ agent' hrun
    have e0 : (defaultAgentOver ℝ).epsilon_ = 1.0 := rfl
    have d0 : (defaultAgentOver ℝ).epsilon_decay_ = 0.995 := rfl
    have m0 : (defaultAgentOver ℝ).epsilon_min_ = 0.01 := rfl
    rw [e0, d0, m0, List.length_replicate] at g3
    have hlt : (decayOnce (0.995 : ℝ) 0.01)^[919] 1.0 < 0.01 := default_decay_below_min
    have hle : ∀ k, k < 919 → (0.01 : ℝ) < 1.0 * 0.995 ^ k := by
      intro k hk
      have hpow : (0.995 : ℝ) ^ 918 ≤ 0.995 ^ k :=
        pow_le_pow_of_le_one (by norm_num) (by norm_num) (by omega)
      have h918 : (0.01 : ℝ) < 0.995 ^ 918 := by norm_num
      calc (0.01 : ℝ) < 0.995 ^ 918 := h918
        _ ≤ 0.995 ^ k := hpow
        _ = 1.0 * 0.995 ^ k := by norm_num
    have hval : agent'.epsilon_ = 0.995 ^ 919 := by
      rw [g3, iterate_decayOnce _ _ _ 919 hle]
      norm_num
    refine ⟨by rw [e0, m0]; norm_num, by rw [d0]; norm_num, by rw [d0]; norm_num,
      agent', hrun, hval, g2.trans m0, ?_⟩
    rw [g3, g2, m0]
    exact hlt
  · obtain ⟨agent', hrun, -, -⟩ := trainAll_ok (fun _ => (1 : ℚ)) [plainCall ℚ]
      (MusicRecommendationDQN.new 0.001 1 0.5 0.9 0.95 (fun _ _ _ => 0) (fun _ _ _ => 0))
      (usable_new _ _ _ _ _ _ _)
      (fun c hc => by
        rw [List.mem_singleton.1 hc]
        exact valid_plainCall)
      (by decide)
    obtain ⟨-, g2, g3⟩ := trainAll_epsilon_iterate (fun _ => (1 : ℚ)) _ _ agent' hrun
    have hval : agent'.epsilon_ = 0.5 := by
      rw [g3]
      norm_num [MusicRecommendationDQN.new, updateTargetNetwork, decayOnce]
    have hmin : agent'.epsilon_min_ = 0.9 := by
      rw [g2]
      rfl
    refine ⟨agent', hrun, hval, hmin, ?_⟩
    rw [hval, hmin]
    norm_num

end MusicRecommendationDQN

end FloorProofs

/-! ## Theorems: actions and their labels -/

section LabelProofs

theorem intToAction_of_range (i : Int) (h0 : 0 ≤ i) (h4 : i ≤ 4) :
    ∃ a : Action, intToAction i = Except.ok a ∧ a.toInt = i ∧
      specLabels[i.toNat]? = some (actionToString a) := by
  have hcases : i = 0 ∨ i = 1 ∨ i = 2 ∨ i = 3 ∨ i = 4 := by omega
  rcases hcases with rfl | rfl | rfl | rfl | rfl
  · exact ⟨Action.CHILL_LOFI, rfl, rfl, rfl⟩
  · exact ⟨Action.POP_HITS, rfl, rfl, rfl⟩
  · exact ⟨Action.ROCK_ENERGY, rfl, rfl, rfl⟩
  · exact ⟨Action.JAZZ_SMOOTH, rfl, rfl, rfl⟩
  · exact ⟨Action.ELECTRONIC_DANCE, rfl, rfl, rfl⟩

theorem intToAction_outside (i : Int) (h : i < 0 ∨ 4 < i) :
    intToAction i = Except.error (Error.invalid_argument "Action must be in range [0, 4]") := by
  unfold intToAction
  rw [dif_pos h]
  rfl

/-- C21: for every integer `i`, `intToAction(i)` throws `std::invalid_argument` if
`i` is outside `[0, 4]`, and otherwise it returns the action with underlying
value `i`, whose `actionToString` is the `i`-th of the labels "Chill/Lofi",
"Pop Hits", "Rock/Energy", "Jazz/Smooth", "Electronic/Dance"; these five labels
are pairwise distinct and none is "Unknown". -/
theorem intToAction_actionToString (i : Int) :
    ((i < 0 ∨ 4 < i) →
      ∃ what, intToAction i = Except.error (Error.invalid_argument what)) ∧
    ((0 ≤ i ∧ i ≤ 4) →
      ∃ a : Action, intToAction i = Except.ok a ∧ a.toInt = i ∧
        specLabels[i.toNat]? = some (actionToString a)) ∧
    specLabels.Nodup ∧ "Unknown" ∉ specLabels ∧
    ∀ a : Action, actionToString a ∈ specLabels :=
  ⟨fun h => ⟨_, intToAction_outside i h⟩, fun h => intToAction_of_range i h.1 h.2,
    by decide, by decide, fun a => by cases a <;> decide⟩

/-- C21 at concrete inputs: the integers 7 and 2. -/
theorem intToAction_actionToString_witness :
    (∃ what, intToAction 7 = Except.error (Error.invalid_argument what)) ∧
    ∃ a : Action, intToAction 2 = Except.ok a ∧ a.toInt = 2 ∧
      specLabels[(2 : Int).toNat]? = some (actionToString a) ∧
      actionToString a = "Rock/Energy" := by
  obtain ⟨a, h1, h2, h3⟩ := (intToAction_actionToString 2).2.1 ⟨by decide, by decide⟩
  refine ⟨(intToAction_actionToString 7).1 (Or.inr (by decide)), a, h1, h2, h3, ?_⟩
  have h4 : specLabels[(2 : Int).toNat]? = some "Rock/Energy" := rfl
  rw [h4] at h3
  exact (Option.some.inj h3).symm

end LabelProofs

/-! ## Theorems: bounds and monotonicity of the reward -/

section RewardProofs

variable {K : Type} [LinearOrderedField K]

theorem action_value_mem_Icc (action : Action) :
    (0 : K) ≤ (action.toInt : K) / 4 ∧ (action.toInt : K) / 4 ≤ 1 := by
  cases action <;> simp only [Action.toInt] <;> norm_num

/-- For two numbers of the unit interval, `1 - |a - h|` lies in the unit
interval as well. -/
theorem similarity_term_mem_Icc (a h : K) (ha0 : 0 ≤ a) (ha1 : a ≤ 1) (hh0 : 0 ≤ h)
    (hh1 : h ≤ 1) : 0 ≤ 1 - |a - h| ∧ 1 - |a - h| ≤ 1 := by
  have habs : |a - h| ≤ 1 := abs_le.2 ⟨by linarith, by linarith⟩
  exact ⟨by linarith, by linarith [abs_nonneg (a - h)]⟩

/-- C25: for every action and every genre history whose three entries lie in
`[0, 1]`, `getGenreConsistency(history, action)` lies in `[0, 1]`. -/
theorem getGenreConsistency_mem_Icc (history : Fin 3 → K) (action : Action)
    (h : ∀ i, 0 ≤ history i ∧ history i ≤ 1) :
    0 ≤ getGenreConsistency history action ∧ getGenreConsistency history action ≤ 1 := by
  rw [getGenreConsistency_eq]
  have hav : (0 : K) ≤ (action.toInt : K) / 4 ∧ (action.toInt : K) / 4 ≤ 1 :=
    action_value_mem_Icc action
  obtain ⟨ha0, ha1⟩ := hav
  obtain ⟨l0, u0⟩ := similarity_term_mem_Icc _ _ ha0 ha1 (h 0).1 (h 0).2
  obtain ⟨l1, u1⟩ := similarity_term_mem_Icc _ _ ha0 ha1 (h 1).1 (h 1).2
  obtain ⟨l2, u2⟩ := similarity_term_mem_Icc _ _ ha0 ha1 (h 2).1 (h 2).2
  constructor
  · apply div_nonneg _ (by norm_num)
    have e1 : (0 : K) ≤ 0.8 * (1 - |(action.toInt : K) / 4 - history 1|) :=
      mul_nonneg (by norm_num) l1
    have e2 : (0 : K) ≤ 0.6 * (1 - |(action.toInt : K) / 4 - history 2|) :=
      mul_nonneg (by norm_num) l2
    linarith
  · rw [div_le_iff₀ (by norm_num)]
    have e1 : (0.8 : K) * (1 - |(action.toInt : K) / 4 - history 1|) ≤ 0.8 * 1 :=
      mul_le_mul_of_nonneg_left u1 (by norm_num)
    have e2 : (0.6 : K) * (1 - |(action.toInt : K) / 4 - history 2|) ≤ 0.6 * 1 :=
      mul_le_mul_of_nonneg_left u2 (by norm_num)
    have e3 : (0.8 : K) * 1 + 0.6 * 1 ≤ 2 := by norm_num
    linarith

/-- C25 at a concrete input: the action `ROCK_ENERGY` and the history
`(0.25, 0.25, 0.25)`. -/
theorem getGenreConsistency_mem_Icc_witness :
    0 ≤ getGenreConsistency (![0.25, 0.25, 0.25] : Fin 3 → ℚ) Action.ROCK_ENERGY ∧
    getGenreConsistency (![0.25, 0.25, 0.25] : Fin 3 → ℚ) Action.ROCK_ENERGY ≤ 1 :=
  getGenreConsistency_mem_Icc _ _ (fun i => by fin_cases i <;> simp <;> norm_num)

/-- C27 (amended): for every action, every state whose weather code lies
strictly between -2147483649 and 2147483648 and all ratings `r1 ≤ r2`,
`calculateReward` returns for both ratings, and the value for `r1` is at most
the value for `r2`. -/
theorem calculateReward_monotone [FloorRing K] (action : Action) (state : State K)
    (r1 r2 : K) (h1 : -2147483649 < state.weather_condition)
    (h2 : state.weather_condition < 2147483648) (h : r1 ≤ r2) :
    ∃ v1 v2 : K, calculateReward action state r1 = Except.ok v1 ∧
      calculateReward action state r2 = Except.ok v2 ∧ v1 ≤ v2 := by
  have hbase : baseReward r1 ≤ baseReward r2 := by
    unfold baseReward
    exact div_le_div_of_nonneg_right (by linarith) (by norm_num)
  have hw := truncToInt_of_range state.weather_condition h1 h2
  refine ⟨_, _, (calculateReward_of_weather action state r1 _ hw).2,
    (calculateReward_of_weather action state r2 _ hw).2, ?_⟩
  exact max_le_max (le_refl _) (min_le_min (le_refl _) (by linarith))

/-- C27 (amended) at a concrete input: the scenario state with the ratings 1
and 4. -/
theorem calculateReward_monotone_witness :
    -2147483649 < (scenarioState (0 : ℚ)).weather_condition ∧
    (scenarioState (0 : ℚ)).weather_condition < 2147483648 ∧ (1 : ℚ) ≤ 4 ∧
    ∃ v1 v2 : ℚ, calculateReward Action.ROCK_ENERGY (scenarioState (0 : ℚ)) 1 = Except.ok v1 ∧
      calculateReward Action.ROCK_ENERGY (scenarioState (0 : ℚ)) 4 = Except.ok v2 ∧ v1 ≤ v2 :=
  ⟨by norm_num [scenarioState], by norm_num [scenarioState], by norm_num,
    calculateReward_monotone _ _ 1 4 (by norm_num [scenarioState])
      (by norm_num [scenarioState]) (by norm_num)⟩

/-- C27 (as stated) fails: for the state with the weather code `10000000000`
the conversion of the weather code is undefined, so `calculateReward` yields no
values to compare for the ratings 1 and 4. -/
theorem calculateReward_not_monotone_out_of_range :
    (1 : ℚ) ≤ 4 ∧
    ¬ ∃ v1 v2 : ℚ, calculateReward Action.ROCK_ENERGY (outOfRangeState ℚ) 1 = Except.ok v1 ∧
      calculateReward Action.ROCK_ENERGY (outOfRangeState ℚ) 4 = Except.ok v2 ∧ v1 ≤ v2 := by
  refine ⟨by norm_num, ?_⟩
  rintro ⟨v1, v2, hv1, -, -⟩
  rw [calculateReward_of_large Action.ROCK_ENERGY (outOfRangeState ℚ) 1
    outOfRangeState_large] at hv1
  cases hv1

end RewardProofs

/-! ## Theorems: the cached activations -/

section ActivationProofs

set_option linter.unusedSectionVars false

variable {K : Type} [LinearOrderedField K]

namespace NeuralNetwork

theorem relu_nonneg (x : K) : 0 ≤ relu x := by
  unfold relu
  exact le_trans (by norm_num) (le_max_left _ _)

theorem forall_relu_nonneg (z : VectorXd K) : ∀ v ∈ z.map relu, 0 ≤ v := by
  intro v hv
  obtain ⟨t, -, rfl⟩ := List.mem_map.1 hv
  exact relu_nonneg t

/-- C26: on a network with the fixed architecture and an input `x` of length 8,
`forward(x)` returns, and afterwards `getActivations(0)` is `x`,
`getActivations(i)` for `i = 1, 2, 3` is the ReLU output of layer `i` in that
pass (of length 64, 32, 16, all entries non-negative), `getActivations(4)` is
the returned softmax output, and `getActivations` of every index outside
`0..4` is the empty list. -/
theorem forward_caches_layers (exp : K → K) (nn : NeuralNetwork K) (x : VectorXd K)
    (h : WellShaped nn) (hx : x.length = 8) :
    ∃ (nn' : NeuralNetwork K) (out h1 h2 h3 : VectorXd K),
      forward exp nn x = Except.ok (nn', out) ∧
      h1 = (affineVal (nn.weights_.getD 0 []) x (nn.biases_.getD 0 [])).map relu ∧
      h2 = (affineVal (nn.weights_.getD 1 []) h1 (nn.biases_.getD 1 [])).map relu ∧
      h3 = (affineVal (nn.weights_.getD 2 []) h2 (nn.biases_.getD 2 [])).map relu ∧
      out = softmax exp (affineVal (nn.weights_.getD 3 []) h3 (nn.biases_.getD 3 [])) ∧
      nn'.getActivations 0 = x ∧ nn'.getActivations 1 = h1 ∧ nn'.getActivations 2 = h2 ∧
      nn'.getActivations 3 = h3 ∧ nn'.getActivations 4 = out ∧
      h1.length = 64 ∧ h2.length = 32 ∧ h3.length = 16 ∧ out.length = 5 ∧
      (∀ v ∈ h1, 0 ≤ v) ∧ (∀ v ∈ h2, 0 ≤ v) ∧ (∀ v ∈ h3, 0 ≤ v) ∧
      ∀ layer : Int, (layer < 0 ∨ 4 < layer) → nn'.getActivations layer = [] := by
  obtain ⟨W0, W1, W2, W3, b0, b1, b2, b3, a0, a1, a2, a3, a4, hnn, h0, h1, h2, h3,
    hb0, hb1, hb2, hb3⟩ := h.exists_eq
  rw [hnn]
  refine ⟨_, _, _, _, _,
    forward_explicit exp W0 W1 W2 W3 b0 b1 b2 b3 a0 a1 a2 a3 a4 x nn.learning_rate_
      hx h0 h1 h2 h3 hb0 hb1 hb2 hb3,
    rfl, rfl, rfl, rfl, rfl, rfl, rfl, rfl, rfl, ?_, ?_, ?_, ?_,
    forall_relu_nonneg _, forall_relu_nonneg _, forall_relu_nonneg _, ?_⟩
  · rw [List.length_map]
    exact length_affineVal W0 x b0 64 h0.1 hb0
  · rw [List.length_map]
    exact length_affineVal W1 _ b1 32 h1.1 hb1
  · rw [List.length_map]
    exact length_affineVal W2 _ b2 16 h2.1 hb2
  · rw [length_softmax]
    exact length_affineVal W3 _ b3 5 h3.1 hb3
  · intro layer hlayer
    unfold getActivations
    rw [if_pos]
    simp only [List.length_cons, List.length_nil]
    omega

/-- C26 at a concrete input: the network with all weights drawn as 0 and the
zero vector of length 8. -/
theorem forward_caches_layers_witness :
    ∃ (nn' : NeuralNetwork ℚ) (out h1 h2 h3 : VectorXd ℚ),
      forward (fun _ => 1) (zeroNetwork ℚ) (List.replicate 8 0) = Except.ok (nn', out) ∧
      nn'.getActivations 0 = List.replicate 8 0 ∧ nn'.getActivations 1 = h1 ∧
      nn'.getActivations 2 = h2 ∧ nn'.getActivations 3 = h3 ∧
      nn'.getActivations 4 = out ∧
      h1.length = 64 ∧ h2.length = 32 ∧ h3.length = 16 ∧ out.length = 5 ∧
      nn'.getActivations 5 = [] ∧ nn'.getActivations (-1) = [] := by
  obtain ⟨nn', out, h1, h2, h3, hf, -, -, -, -, g0, g1, g2, g3, g4, l1, l2, l3, l4, -, -, -,
    hout⟩ := forward_caches_layers (fun _ => (1 : ℚ)) (zeroNetwork ℚ) (List.replicate 8 0)
      (wellShaped_new _ _) rfl
  exact ⟨nn', out, h1, h2, h3, hf, g0, g1, g2, g3, g4, l1, l2, l3, l4,
    hout 5 (Or.inr (by decide)), hout (-1) (Or.inl (by decide))⟩

end NeuralNetwork

end ActivationProofs

/-! ## Theorems: the training step and the target network -/

section SyncStepProofs

set_option linter.unusedSectionVars false

variable {K : Type} [LinearOrderedField K]

open NeuralNetwork

namespace MusicRecommendationDQN

/-- A forward pass changes the cached activations only. -/
theorem forward_params (exp : K → K) (nn nn' : NeuralNetwork K) (x out : VectorXd K)
    (h : forward exp nn x = Except.ok (nn', out)) :
    nn'.weights_ = nn.weights_ ∧ nn'.biases_ = nn.biases_ ∧
      nn'.learning_rate_ = nn.learning_rate_ := by
  unfold forward at h
  simp only [bind, Except.bind, pure, Except.pure] at h
  repeat' split at h
  all_goals first
    | (cases h; exact ⟨rfl, rfl, rfl⟩)
    | cases h

/-- One iteration of the replay loop leaves the parameters of the target
network as they are. -/
theorem replayTarget_target_params (exp : K → K) (gamma : K) (q target q' t' : NeuralNetwork K)
    (e : Experience K) (τ : VectorXd K)
    (h : replayTarget exp gamma q target e = Except.ok (q', t', τ)) :
    t'.weights_ = target.weights_ ∧ t'.biases_ = target.biases_ := by
  unfold replayTarget at h
  cases h1 : forward exp q e.state with
  | error err =>
    rw [h1] at h
    cases h
  | ok r1 =>
    rw [h1] at h
    simp only [bind, Except.bind] at h
    cases hdone : e.done with
    | true =>
      rw [hdone] at h
      simp only [if_true] at h
      split at h
      · cases h
      · cases h
        exact ⟨rfl, rfl⟩
    | false =>
      rw [hdone] at h
      simp only [Bool.false_eq_true, if_false] at h
      cases h2 : forward exp r1.1 e.next_state with
      | error err =>
        rw [h2] at h
        cases h
      | ok r2 =>
        rw [h2] at h
        simp only at h
        cases h3 : forward exp target e.next_state with
        | error err =>
          rw [h3] at h
          cases h
        | ok r3 =>
          rw [h3] at h
          obtain ⟨t3, out3⟩ := r3
          obtain ⟨g1, g2, -⟩ := forward_params exp target t3 _ out3 h3
          simp only at h
          split at h
          · cases h
          · split at h
            · cases h
            · cases h
              exact ⟨g1, g2⟩

theorem replayLoop_target_params (exp : K → K) (gamma : K) :
    ∀ (es : List (Experience K)) (q target q' t' : NeuralNetwork K)
      (states targets : List (VectorXd K)),
      replayLoop exp gamma es q target = Except.ok (q', t', states, targets) →
      t'.weights_ = target.weights_ ∧ t'.biases_ = target.biases_ := by
  intro es
  induction es with
  | nil =>
    intro q target q' t' states targets h
    cases h
    exact ⟨rfl, rfl⟩
  | cons e rest ih =>
    intro q target q' t' states targets h
    unfold replayLoop at h
    cases h1 : replayTarget exp gamma q target e with
    | error err =>
      rw [h1] at h
      cases h
    | ok r1 =>
      rw [h1] at h
      obtain ⟨q1, t1, τ⟩ := r1
      obtain ⟨g1, g2⟩ := replayTarget_target_params exp gamma q target q1 t1 e τ h1
      simp only [bind, Except.bind] at h
      cases h2 : replayLoop exp gamma rest q1 t1 with
      | error err =>
        rw [h2] at h
        cases h
      | ok r2 =>
        rw [h2] at h
        obtain ⟨q2, t2, states2, targets2⟩ := r2
        obtain ⟨g3, g4⟩ := ih q1 t1 q2 t2 states2 targets2 h2
        cases h
        exact ⟨g3.trans g1, g4.trans g2⟩

/-- A replay step leaves the parameters of the target network as they are. -/
theorem replayExperience_target_params (exp : K → K) (agent agent' : MusicRecommendationDQN K)
    (shuffle : List Nat → List Nat)
    (h : replayExperience exp agent shuffle = Except.ok agent') :
    agent'.target_network_.weights_ = agent.target_network_.weights_ ∧
      agent'.target_network_.biases_ = agent.target_network_.biases_ := by
  unfold replayExperience at h
  simp only [bind, Except.bind] at h
  cases h1 : agent.experience_buffer_.sample 32 shuffle with
  | error err =>
    rw [h1] at h
    cases h
  | ok experiences =>
    rw [h1] at h
    simp only at h
    cases h2 : replayLoop exp agent.gamma_ experiences agent.q_network_
        agent.target_network_ with
    | error err =>
      rw [h2] at h
      cases h
    | ok r2 =>
      rw [h2] at h
      obtain ⟨q2, t2, states2, targets2⟩ := r2
      obtain ⟨g1, g2⟩ := replayLoop_target_params exp agent.gamma_ experiences _ _ q2 t2
        states2 targets2 h2
      simp only at h
      split at h
      · cases h
      · cases h
        exact ⟨g1, g2⟩

/-- A `train` call that returns, step by step: the buffer after `add`, the
agent `mid` after the replay step (if one runs), and the last steps applied to
`mid`. -/
theorem train_decompose (exp : K → K) (agent agent' : MusicRecommendationDQN K)
    (state : List K) (action : Int) (reward : K) (next_state : List K) (done : Bool)
    (shuffle : List Nat → List Nat)
    (h : train exp agent state action reward next_state done shuffle = Except.ok agent') :
    ∃ (buffer : ExperienceBuffer K) (mid : MusicRecommendationDQN K),
      agent.experience_buffer_.add
        { state := state, action := action, reward := reward, next_state := next_state,
          done := done } = Except.ok buffer ∧
      (if buffer.canSample 32 then
          replayExperience exp { agent with experience_buffer_ := buffer } shuffle
        else pure { agent with experience_buffer_ := buffer }) = Except.ok mid ∧
      finishTrain mid = Except.ok agent' := by
  unfold train at h
  dsimp only at h
  cases hadd : agent.experience_buffer_.add
      { state := state, action := action, reward := reward, next_state := next_state,
        done := done } with
  | error err =>
    rw [hadd] at h
    cases h
  | ok buffer =>
    rw [hadd] at h
    simp only [bind, Except.bind] at h
    by_cases hcs : buffer.canSample 32 = true
    · rw [if_pos hcs] at h
      cases hrep : replayExperience exp { agent with experience_buffer_ := buffer } shuffle with
      | error err =>
        rw [hrep] at h
        cases h
      | ok mid =>
        rw [hrep] at h
        exact ⟨buffer, mid, rfl, by rw [if_pos hcs]; exact hrep, h⟩
    · rw [if_neg hcs] at h
      exact ⟨buffer, _, rfl, by rw [if_neg hcs]; rfl, h⟩

theorem finishTrain_defined (agent agent' : MusicRecommendationDQN K)
    (h : finishTrain agent = Except.ok agent') :
    agent.training_step_ ≠ 2147483647 ∧ agent.target_update_freq_ ≠ 0 := by
  by_cases h1 : agent.training_step_ = 2147483647
  · rw [finishTrain, if_pos h1] at h
    cases h
  · by_cases h2 : agent.target_update_freq_ = 0
    · rw [finishTrain, if_neg h1, if_pos h2] at h
      cases h
    · exact ⟨h1, h2⟩

/-- The effect of a `train` call that returns on the counter and on the two
networks: the counter advances by one, the value network is the one the replay
step left, and the target network is a copy of it when the new counter is a
multiple of the period; otherwise the target network keeps its parameters. -/
theorem train_spec (exp : K → K) (agent agent' : MusicRecommendationDQN K)
    (state : List K) (action : Int) (reward : K) (next_state : List K) (done : Bool)
    (shuffle : List Nat → List Nat)
    (h : train exp agent state action reward next_state done shuffle = Except.ok agent') :
    agent'.training_step_ = agent.training_step_ + 1 ∧
    agent'.target_update_freq_ = agent.target_update_freq_ ∧
    (∃ (buffer : ExperienceBuffer K) (mid : MusicRecommendationDQN K),
      agent.experience_buffer_.add
        { state := state, action := action, reward := reward, next_state := next_state,
          done := done } = Except.ok buffer ∧
      (if buffer.canSample 32 then
          replayExperience exp { agent with experience_buffer_ := buffer } shuffle
        else pure { agent with experience_buffer_ := buffer }) = Except.ok mid ∧
      agent'.q_network_ = mid.q_network_) ∧
    (agent.target_update_freq_ ∣ agent'.training_step_ →
      agent'.target_network_ = agent'.q_network_) ∧
    (¬ agent.target_update_freq_ ∣ agent'.training_step_ →
      agent'.target_network_.weights_ = agent.target_network_.weights_ ∧
      agent'.target_network_.biases_ = agent.target_network_.biases_) := by
  obtain ⟨buffer, mid, hadd, hmid, hfin⟩ :=
    train_decompose exp agent agent' state action reward next_state done shuffle h
  have hframe : mid.training_step_ = agent.training_step_ ∧
      mid.target_update_freq_ = agent.target_update_freq_ ∧
      mid.target_network_.weights_ = agent.target_network_.weights_ ∧
      mid.target_network_.biases_ = agent.target_network_.biases_ := by
    by_cases hcs : buffer.canSample 32 = true
    · rw [if_pos hcs] at hmid
      obtain ⟨-, -, -, -, f1, s1, -⟩ := replayExperience_frame exp _ _ _ hmid
      obtain ⟨w1, b1⟩ := replayExperience_target_params exp _ _ _ hmid
      exact ⟨s1, f1, w1, b1⟩
    · rw [if_neg hcs] at hmid
      cases hmid
      exact ⟨rfl, rfl, rfl, rfl⟩
  obtain ⟨hs, hf, hw, hb⟩ := hframe
  obtain ⟨hstep, hfreq⟩ := finishTrain_defined mid agent' hfin
  obtain ⟨a2, hfin2, s2, -, q2, t2, -, -, -, -, f2⟩ := finishTrain_spec mid hstep hfreq
  rw [hfin] at hfin2
  cases hfin2
  refine ⟨by rw [s2, hs], by rw [f2, hf], ⟨buffer, mid, hadd, hmid, q2⟩, ?_, ?_⟩
  · intro hdvd
    rw [s2, ← hf] at hdvd
    rw [t2, if_pos (Int.dvd_iff_tmod_eq_zero.mp hdvd), q2]
  · intro hndvd
    rw [s2, ← hf] at hndvd
    rw [t2, if_neg (fun h0 => hndvd (Int.dvd_iff_tmod_eq_zero.mpr h0))]
    exact ⟨hw, hb⟩

theorem trainAll_training_step (exp : K → K) (calls : List (TrainCall K)) :
    ∀ agent agent' : MusicRecommendationDQN K,
      trainAll exp agent calls = Except.ok agent' →
      agent'.training_step_ = agent.training_step_ + calls.length := by
  induction calls with
  | nil =>
    intro agent agent' h
    cases h
    simp
  | cons c rest ih =>
    intro agent agent' h
    unfold trainAll at h
    cases hstep : train exp agent c.state c.action c.reward c.next_state c.done c.shuffle with
    | error err =>
      rw [hstep] at h
      cases h
    | ok a1 =>
      rw [hstep] at h
      simp only [bind, Except.bind] at h
      obtain ⟨s1, -⟩ := train_spec exp agent a1 _ _ _ _ _ _ hstep
      rw [ih a1 agent' h, s1]
      simp only [List.length_cons]
      push_cast
      ring

/-- C24: every `train` call that returns increments the training step by
exactly 1, so after `n` such calls on a freshly constructed agent
`getTrainingStep()` is `n`; the value network after the call is the one its
replay step left (or the old one, if no replay step ran); if the new step count
is a multiple of 100 the weights and biases of the target network after the
call are those of that value network, and otherwise they are those of the
target network before the call. -/
theorem train_counts_and_syncs (exp : K → K) :
    (∀ (agent agent' : MusicRecommendationDQN K) (state : List K) (action : Int)
        (reward : K) (next_state : List K) (done : Bool) (shuffle : List Nat → List Nat),
      agent.target_update_freq_ = 100 →
      train exp agent state action reward next_state done shuffle = Except.ok agent' →
      agent'.getTrainingStep = agent.getTrainingStep + 1 ∧
      (∃ (buffer : ExperienceBuffer K) (mid : MusicRecommendationDQN K),
        agent.experience_buffer_.add
          { state := state, action := action, reward := reward, next_state := next_state,
            done := done } = Except.ok buffer ∧
        (if buffer.canSample 32 then
            replayExperience exp { agent with experience_buffer_ := buffer } shuffle
          else pure { agent with experience_buffer_ := buffer }) = Except.ok mid ∧
        agent'.q_network_ = mid.q_network_) ∧
      ((100 : Int) ∣ agent'.getTrainingStep →
        agent'.target_network_.weights_ = agent'.q_network_.weights_ ∧
        agent'.target_network_.biases_ = agent'.q_network_.biases_) ∧
      (¬ (100 : Int) ∣ agent'.getTrainingStep →
        agent'.target_network_.weights_ = agent.target_network_.weights_ ∧
        agent'.target_network_.biases_ = agent.target_network_.biases_)) ∧
    (∀ (learning_rate epsilon epsilon_decay epsilon_min gamma : K)
        (draw draw_target : Nat → Nat → Nat → K) (calls : List (TrainCall K))
        (agent' : MusicRecommendationDQN K),
      trainAll exp
        (MusicRecommendationDQN.new learning_rate epsilon epsilon_decay epsilon_min gamma draw
          draw_target) calls = Except.ok agent' →
      agent'.getTrainingStep = calls.length) := by
  constructor
  · intro agent agent' state action reward next_state done shuffle hfreq h
    obtain ⟨s1, -, hmid, hsync, hkeep⟩ :=
      train_spec exp agent agent' state action reward next_state done shuffle h
    rw [hfreq] at hsync hkeep
    refine ⟨s1, hmid, fun hdvd => ?_, hkeep⟩
    rw [hsync hdvd]
    exact ⟨rfl, rfl⟩
  · intro learning_rate epsilon epsilon_decay epsilon_min gamma draw draw_target calls agent' h
    have hstep := trainAll_training_step exp calls _ agent' h
    unfold getTrainingStep
    rw [hstep]
    exact zero_add _

/-- C24 at a concrete input: one `train` call on the agent constructed with the
default hyperparameters; the new step count 1 is no multiple of 100. -/
theorem train_counts_and_syncs_witness :
    defaultAgent.target_update_freq_ = 100 ∧
    ∃ agent' : MusicRecommendationDQN ℚ,
      train (fun _ => 1) defaultAgent (List.replicate 8 0) 0 0 (List.replicate 8 0) false id =
        Except.ok agent' ∧
      agent'.getTrainingStep = 1 ∧
      agent'.target_network_.weights_ = defaultAgent.target_network_.weights_ ∧
      agent'.target_network_.biases_ = defaultAgent.target_network_.biases_ := by
  obtain ⟨agent', hrun, -, -⟩ := train_ok (fun _ => (1 : ℚ)) defaultAgent (plainCall ℚ)
    (usable_new _ _ _ _ _ _ _) valid_plainCall (by decide)
  have hrun' : train (fun _ => 1) defaultAgent (List.replicate 8 0) 0 0 (List.replicate 8 0)
      false id = Except.ok agent' := hrun
  obtain ⟨s1, -, -, hkeep⟩ :=
    (train_counts_and_syncs (fun _ => (1 : ℚ))).1 defaultAgent agent' _ _ _ _ _ _ rfl hrun'
  have hs : agent'.getTrainingStep = 1 := by
    rw [s1]
    rfl
  refine ⟨rfl, agent', hrun', hs, hkeep ?_⟩
  rw [hs]
  decide

end MusicRecommendationDQN

end SyncStepProofs

/-! ## Theorems: the backward pass on the two families of networks -/

section ProbeProofs

set_option linter.unusedSectionVars false

variable {K : Type} [LinearOrderedField K]

namespace NeuralNetwork

theorem dot_replicate (n : Nat) (a b : K) :
    dot (List.replicate n a) (List.replicate n b) = n * (a * b) := by
  simp [dot, List.zipWith_replicate, List.sum_replicate, nsmul_eq_mul]

theorem affineVal_replicate (m n : Nat) (w a b : K) :
    affineVal (List.replicate m (List.replicate n w)) (List.replicate n a)
      (List.replicate m b) = List.replicate m (n * (w * a) + b) := by
  simp [affineVal, dot_replicate, List.zipWith_replicate]

theorem relu_of_nonneg (x : K) (h : 0 ≤ x) : relu x = x := by
  unfold relu
  have h0 : (0.0 : K) = 0 := by norm_num
  rw [h0, max_eq_right h]

theorem map_range_eq_replicate {α : Type} (n : Nat) (f : Nat → α) (a : α)
    (h : ∀ j, j < n → f j = a) : (List.range n).map f = List.replicate n a := by
  apply List.ext_getElem
  · simp
  · intro i h1 h2
    simp only [List.getElem_map, List.getElem_range, List.getElem_replicate]
    exact h i (by simpa using h1)

/-- The backward pass, evaluated from the values of its intermediate
expressions. -/
theorem backward_eval (exp : K → K) (W0 W1 W2 W3 W0' W1' W2' W3' : MatrixXd K)
    (b0 b1 b2 b3 b0' b1' b2' b3' a0 a1 a2 a3 a4 x target : VectorXd K)
    (v1 v2 v3 out d3 e2 d2 e1 d1 e0 d0 : VectorXd K) (lr : K)
    (hf : forward exp
        { weights_ := [W0, W1, W2, W3], biases_ := [b0, b1, b2, b3],
          activations_ := [a0, a1, a2, a3, a4], learning_rate_ := lr } x =
      Except.ok
        ({ weights_ := [W0, W1, W2, W3], biases_ := [b0, b1, b2, b3],
           activations_ := [x, v1, v2, v3, out], learning_rate_ := lr }, out))
    (hd3 : vecSub out target = Except.ok d3)
    (he2 : transposeMul W3 d3 = Except.ok e2) (hd2 : reluMask e2 v3 = Except.ok d2)
    (he1 : transposeMul W2 d2 = Except.ok e1) (hd1 : reluMask e1 v2 = Except.ok d1)
    (he0 : transposeMul W1 d1 = Except.ok e0) (hd0 : reluMask e0 v1 = Except.ok d0)
    (hW0 : matSub W0 (scaledOuter lr d0 x) = Except.ok W0')
    (hb0 : vecSub b0 (d0.map (fun di => lr * di)) = Except.ok b0')
    (hW1 : matSub W1 (scaledOuter lr d1 v1) = Except.ok W1')
    (hb1 : vecSub b1 (d1.map (fun di => lr * di)) = Except.ok b1')
    (hW2 : matSub W2 (scaledOuter lr d2 v2) = Except.ok W2')
    (hb2 : vecSub b2 (d2.map (fun di => lr * di)) = Except.ok b2')
    (hW3 : matSub W3 (scaledOuter lr d3 v3) = Except.ok W3')
    (hb3 : vecSub b3 (d3.map (fun di => lr * di)) = Except.ok b3') :
    backward exp
        { weights_ := [W0, W1, W2, W3], biases_ := [b0, b1, b2, b3],
          activations_ := [a0, a1, a2, a3, a4], learning_rate_ := lr } x target =
      Except.ok
        { weights_ := [W0', W1', W2', W3'], biases_ := [b0', b1', b2', b3'],
          activations_ := [x, v1, v2, v3, out], learning_rate_ := lr } := by
  unfold backward
  rw [hf]
  simp only [bind, Except.bind, List.length_cons, List.length_nil]
  rw [hd3]
  simp only []
  have hback : backpropLoop
      { weights_ := [W0, W1, W2, W3], biases_ := [b0, b1, b2, b3],
        activations_ := [x, v1, v2, v3, out], learning_rate_ := lr } (0 + 1 + 1 + 1 + 1 - 1)
      [d3] = Except.ok [d0, d1, d2, d3] :=
    (backpropLoop_step
      { weights_ := [W0, W1, W2, W3], biases_ := [b0, b1, b2, b3],
        activations_ := [x, v1, v2, v3, out], learning_rate_ := lr }
      2 [d3] W3 d3 v3 e2 d2 rfl rfl he2 rfl hd2).trans
    ((backpropLoop_step
      { weights_ := [W0, W1, W2, W3], biases_ := [b0, b1, b2, b3],
        activations_ := [x, v1, v2, v3, out], learning_rate_ := lr }
      1 [d2, d3] W2 d2 v2 e1 d1 rfl rfl he1 rfl hd1).trans
    ((backpropLoop_step
      { weights_ := [W0, W1, W2, W3], biases_ := [b0, b1, b2, b3],
        activations_ := [x, v1, v2, v3, out], learning_rate_ := lr }
      0 [d1, d2, d3] W1 d1 v1 e0 d0 rfl rfl he0 rfl hd0).trans rfl))
  rw [hback]
  simp only []
  exact
    (updateLoop_step x [d0, d1, d2, d3] 0 3
      { weights_ := [W0, W1, W2, W3], biases_ := [b0, b1, b2, b3],
        activations_ := [x, v1, v2, v3, out], learning_rate_ := lr }
      x d0 b0 b0' W0 W0' rfl rfl rfl hW0 (by simp) rfl hb0 (by simp)).trans
    ((updateLoop_step x [d0, d1, d2, d3] 1 2
      { weights_ := [W0', W1, W2, W3], biases_ := [b0', b1, b2, b3],
        activations_ := [x, v1, v2, v3, out], learning_rate_ := lr }
      v1 d1 b1 b1' W1 W1' rfl rfl rfl hW1 (by simp) rfl hb1 (by simp)).trans
    ((updateLoop_step x [d0, d1, d2, d3] 2 1
      { weights_ := [W0', W1', W2, W3], biases_ := [b0', b1', b2, b3],
        activations_ := [x, v1, v2, v3, out], learning_rate_ := lr }
      v2 d2 b2 b2' W2 W2' rfl rfl rfl hW2 (by simp) rfl hb2 (by simp)).trans
    ((updateLoop_step x [d0, d1, d2, d3] 3 0
      { weights_ := [W0', W1', W2', W3], biases_ := [b0', b1', b2', b3],
        activations_ := [x, v1, v2, v3, out], learning_rate_ := lr }
      v3 d3 b3 b3' W3 W3' rfl rfl rfl hW3 (by simp) rfl hb3 (by simp)).trans rfl)))

theorem vecSub_replicate (n : Nat) (a b : K) :
    vecSub (List.replicate n a) (List.replicate n b) =
      Except.ok (List.replicate n (a - b)) := by
  unfold vecSub
  rw [if_pos (by simp)]
  simp [List.zipWith_replicate, pure, Except.pure]

theorem reluMask_replicate (n : Nat) (e a : K) :
    reluMask (List.replicate n e) (List.replicate n a) =
      Except.ok (List.replicate n (e * (if a > 0 then 1 else 0))) := by
  unfold reluMask
  rw [if_pos (by simp)]
  have h1 : (1.0 : K) = 1 := by norm_num
  have h0 : (0.0 : K) = 0 := by norm_num
  simp only [h1, h0, List.zipWith_replicate, min_self, pure, Except.pure]

theorem transposeMul_replicate (m n : Nat) (w d : K) (hm : 0 < m) :
    transposeMul (List.replicate m (List.replicate n w)) (List.replicate m d) =
      Except.ok (List.replicate n (m * (w * d))) := by
  unfold transposeMul
  rw [if_pos (by simp)]
  have hcols : cols (List.replicate m (List.replicate n w)) = n := by
    cases m with
    | zero => exact absurd hm (by decide)
    | succ k => simp [cols, List.replicate_succ]
  rw [hcols]
  have hmap : (List.range n).map (fun j =>
      dot ((List.replicate m (List.replicate n w)).map (fun row => row.getD j 0))
        (List.replicate m d)) = List.replicate n (m * (w * d)) := by
    apply map_range_eq_replicate
    intro j hj
    simp only [List.map_replicate]
    rw [List.getD_eq_getElem _ _ (by simpa using hj), List.getElem_replicate, dot_replicate]
  rw [hmap]
  rfl

theorem scaledOuter_replicate (lr : K) (m n : Nat) (d a : K) :
    scaledOuter lr (List.replicate m d) (List.replicate n a) =
      List.replicate m (List.replicate n (lr * (d * a))) := by
  simp [scaledOuter]

theorem matSub_replicate (m n : Nat) (w g : K) :
    matSub (List.replicate m (List.replicate n w)) (List.replicate m (List.replicate n g)) =
      Except.ok (List.replicate m (List.replicate n (w - g))) := by
  unfold matSub
  rw [if_pos]
  · simp [List.zipWith_replicate, pure, Except.pure]
  · refine ⟨by simp, ?_⟩
    rintro ⟨r, g'⟩ hp
    obtain ⟨h1, h2⟩ := List.of_mem_zip hp
    rw [List.eq_of_mem_replicate h1, List.eq_of_mem_replicate h2]
    simp

theorem affineVal_output_layer (u v c d a : K) :
    affineVal [List.replicate 16 v, List.replicate 16 v, List.replicate 16 u,
        List.replicate 16 v, List.replicate 16 v] (List.replicate 16 a) [d, d, c, d, d] =
      [16 * (v * a) + d, 16 * (v * a) + d, 16 * (u * a) + c, 16 * (v * a) + d,
        16 * (v * a) + d] := by
  simp only [affineVal, List.map_cons, List.map_nil, dot_replicate, List.zipWith_cons_cons,
    List.zipWith_nil_right, Nat.cast_ofNat]

theorem softmax_symmetric (exp : K → K) (zo z2 : K) :
    softmax exp [zo, zo, z2, zo, zo] =
      [exp zo / (4 * exp zo + exp z2), exp zo / (4 * exp zo + exp z2),
        exp z2 / (4 * exp zo + exp z2), exp zo / (4 * exp zo + exp z2),
        exp zo / (4 * exp zo + exp z2)] := by
  have hS : ([zo, zo, z2, zo, zo].map exp).sum = 4 * exp zo + exp z2 := by
    simp only [List.map_cons, List.map_nil, List.sum_cons, List.sum_nil]
    ring
  unfold softmax
  simp only [hS]
  rfl

end NeuralNetwork

namespace Probe

open NeuralNetwork

/-- The forward pass of a network of the family on the zero state. -/
theorem forward_network (exp : K → K) (lr : K) (p : Probe K) (a0 a1 a2 a3 a4 : VectorXd K)
    (hβ : 0 ≤ p.beta) :
    forward exp (p.network lr [a0, a1, a2, a3, a4]) (List.replicate 8 0) =
      Except.ok
        (p.network lr [List.replicate 8 0, List.replicate 64 0, List.replicate 32 0,
          List.replicate 16 p.beta, p.output exp], p.output exp) := by
  have hv1 : (affineVal (List.replicate 64 (List.replicate 8 (0 : K))) (List.replicate 8 0)
      (List.replicate 64 0)).map relu = List.replicate 64 0 := by
    rw [affineVal_replicate, List.map_replicate, relu_of_nonneg _ (by simp)]
    simp
  have hv2 : (affineVal (List.replicate 32 (List.replicate 64 (0 : K))) (List.replicate 64 0)
      (List.replicate 32 0)).map relu = List.replicate 32 0 := by
    rw [affineVal_replicate, List.map_replicate, relu_of_nonneg _ (by simp)]
    simp
  have hv3 : (affineVal (List.replicate 16 (List.replicate 32 (0 : K))) (List.replicate 32 0)
      (List.replicate 16 p.beta)).map relu = List.replicate 16 p.beta := by
    rw [affineVal_replicate, List.map_replicate, relu_of_nonneg _ (by simpa using hβ)]
    simp
  have hout : softmax exp (affineVal [List.replicate 16 p.v, List.replicate 16 p.v,
      List.replicate 16 p.u, List.replicate 16 p.v, List.replicate 16 p.v]
      (List.replicate 16 p.beta) [p.d, p.d, p.c, p.d, p.d]) = p.output exp := by
    rw [affineVal_output_layer, softmax_symmetric]
    rfl
  have hf := forward_explicit exp (List.replicate 64 (List.replicate 8 (0 : K)))
    (List.replicate 32 (List.replicate 64 0)) (List.replicate 16 (List.replicate 32 0))
    [List.replicate 16 p.v, List.replicate 16 p.v, List.replicate 16 p.u,
      List.replicate 16 p.v, List.replicate 16 p.v]
    (List.replicate 64 0) (List.replicate 32 0) (List.replicate 16 p.beta)
    [p.d, p.d, p.c, p.d, p.d] a0 a1 a2 a3 a4 (List.replicate 8 0) lr (by simp)
    ⟨by simp, fun r hr => by rw [List.eq_of_mem_replicate hr]; simp⟩
    ⟨by simp, fun r hr => by rw [List.eq_of_mem_replicate hr]; simp⟩
    ⟨by simp, fun r hr => by rw [List.eq_of_mem_replicate hr]; simp⟩
    ⟨by simp, fun r hr => by
      simp only [List.mem_cons, List.mem_singleton, List.mem_nil_iff, or_false] at hr
      rcases hr with rfl | rfl | rfl | rfl | rfl <;> simp⟩
    (by simp) (by simp) (by simp) (by simp)
  rw [hv1, hv2, hv3, hout] at hf
  exact hf

/-- The backward pass of a network of the family on the zero state and a target
that is symmetric in the coordinates other than 2: the result is the network of
the family with the parameters `step`. -/
theorem backward_network (exp : K → K) (lr target_o target_2 : K) (p : Probe K)
    (a0 a1 a2 a3 a4 : VectorXd K) (hβ : 0 ≤ p.beta) :
    backward exp (p.network lr [a0, a1, a2, a3, a4]) (List.replicate 8 0)
        [target_o, target_o, target_2, target_o, target_o] =
      Except.ok
        ((p.step exp lr target_o target_2).network lr
          [List.replicate 8 0, List.replicate 64 0, List.replicate 32 0,
            List.replicate 16 p.beta, p.output exp]) := by
  have hg : dot [p.v, p.v, p.u, p.v, p.v]
      [p.po exp - target_o, p.po exp - target_o, p.p2 exp - target_2, p.po exp - target_o,
        p.po exp - target_o] =
      4 * (p.v * (p.po exp - target_o)) + p.u * (p.p2 exp - target_2) := by
    simp only [dot, List.zipWith_cons_cons, List.zipWith_nil_right, List.sum_cons,
      List.sum_nil]
    ring
  have he2 : transposeMul [List.replicate 16 p.v, List.replicate 16 p.v,
      List.replicate 16 p.u, List.replicate 16 p.v, List.replicate 16 p.v]
      [p.po exp - target_o, p.po exp - target_o, p.p2 exp - target_2, p.po exp - target_o,
        p.po exp - target_o] =
      Except.ok (List.replicate 16
        (4 * (p.v * (p.po exp - target_o)) + p.u * (p.p2 exp - target_2))) := by
    unfold transposeMul
    simp only [List.length_cons, List.length_nil, eq_self_iff_true, if_true]
    have hcols : cols [List.replicate 16 p.v, List.replicate 16 p.v,
      List.replicate 16 p.u, List.replicate 16 p.v, List.replicate 16 p.v] = 16 := by
      simp [cols]
    rw [hcols, map_range_eq_replicate 16 _
      (4 * (p.v * (p.po exp - target_o)) + p.u * (p.p2 exp - target_2))]
    · rfl
    · intro j hj
      simp only [List.map_cons, List.map_nil]
      rw [List.getD_eq_getElem _ _ (by simpa using hj),
        List.getD_eq_getElem _ _ (by simpa using hj), List.getElem_replicate,
        List.getElem_replicate]
      exact hg
  have hd1 : reluMask (List.replicate 32 (0 : K)) (List.replicate 32 0) =
      Except.ok (List.replicate 32 0) := by
    rw [reluMask_replicate]
    simp
  have hd0 : reluMask (List.replicate 64 (0 : K)) (List.replicate 64 0) =
      Except.ok (List.replicate 64 0) := by
    rw [reluMask_replicate]
    simp
  have he1 : ∀ t : K, transposeMul (List.replicate 16 (List.replicate 32 (0 : K)))
      (List.replicate 16 t) = Except.ok (List.replicate 32 0) := by
    intro t
    rw [transposeMul_replicate _ _ _ _ (by decide)]
    simp
  have he0 : transposeMul (List.replicate 32 (List.replicate 64 (0 : K)))
      (List.replicate 32 0) = Except.ok (List.replicate 64 0) := by
    rw [transposeMul_replicate _ _ _ _ (by decide)]
    simp
  have hW0 : matSub (List.replicate 64 (List.replicate 8 (0 : K)))
      (scaledOuter lr (List.replicate 64 0) (List.replicate 8 0)) =
      Except.ok (List.replicate 64 (List.replicate 8 0)) := by
    rw [scaledOuter_replicate, matSub_replicate]
    simp
  have hW1 : matSub (List.replicate 32 (List.replicate 64 (0 : K)))
      (scaledOuter lr (List.replicate 32 0) (List.replicate 64 0)) =
      Except.ok (List.replicate 32 (List.replicate 64 0)) := by
    rw [scaledOuter_replicate, matSub_replicate]
    simp
  have hW2 : ∀ t : K, matSub (List.replicate 16 (List.replicate 32 (0 : K)))
      (scaledOuter lr (List.replicate 16 t) (List.replicate 32 0)) =
      Except.ok (List.replicate 16 (List.replicate 32 0)) := by
    intro t
    rw [scaledOuter_replicate, matSub_replicate]
    simp
  have hb0 : vecSub (List.replicate 64 (0 : K))
      ((List.replicate 64 (0 : K)).map (fun di => lr * di)) =
      Except.ok (List.replicate 64 0) := by
    rw [List.map_replicate, vecSub_replicate]
    simp
  have hb1 : vecSub (List.replicate 32 (0 : K))
      ((List.replicate 32 (0 : K)).map (fun di => lr * di)) =
      Except.ok (List.replicate 32 0) := by
    rw [List.map_replicate, vecSub_replicate]
    simp
  have hb2 : ∀ t : K, vecSub (List.replicate 16 p.beta)
      ((List.replicate 16 t).map (fun di => lr * di)) =
      Except.ok (List.replicate 16 (p.beta - lr * t)) := by
    intro t
    rw [List.map_replicate, vecSub_replicate]
  have hW3 : matSub [List.replicate 16 p.v, List.replicate 16 p.v,
      List.replicate 16 p.u, List.replicate 16 p.v, List.replicate 16 p.v]
      (scaledOuter lr [p.po exp - target_o, p.po exp - target_o, p.p2 exp - target_2,
        p.po exp - target_o, p.po exp - target_o] (List.replicate 16 p.beta)) =
      Except.ok [List.replicate 16 (p.v - lr * ((p.po exp - target_o) * p.beta)),
        List.replicate 16 (p.v - lr * ((p.po exp - target_o) * p.beta)),
        List.replicate 16 (p.u - lr * ((p.p2 exp - target_2) * p.beta)),
        List.replicate 16 (p.v - lr * ((p.po exp - target_o) * p.beta)),
        List.replicate 16 (p.v - lr * ((p.po exp - target_o) * p.beta))] := by
    unfold matSub
    rw [if_pos]
    · simp only [scaledOuter, List.map_cons, List.map_nil, List.map_replicate,
        List.zipWith_cons_cons, List.zipWith_nil_right, List.zipWith_replicate, min_self,
        pure, Except.pure]
    · refine ⟨rfl, ?_⟩
      intro q hq
      simp only [scaledOuter, List.map_cons, List.map_nil, List.zip_cons_cons,
        List.zip_nil_right, List.mem_cons, List.mem_singleton, List.mem_nil_iff,
        or_false] at hq
      rcases hq with rfl | rfl | rfl | rfl | rfl <;> simp
  exact backward_eval exp _ _ _ _ _ _ _ _ _ _ _ _ _ _ _ _ a0 a1 a2 a3 a4 _ _ _ _ _ _ _ _ _ _ _ _ _
    lr (forward_network exp lr p a0 a1 a2 a3 a4 hβ) rfl he2 (reluMask_replicate _ _ _)
    (he1 _) hd1 he0 hd0 hW0 hb0 hW1 hb1 (hW2 _) (hb2 _) hW3 rfl

theorem elemAt_replicate {α : Type} (n i : Nat) (a : α) (h : i < n) :
    elemAt (List.replicate n a) i = Except.ok a := by
  unfold elemAt
  rw [List.getElem?_eq_getElem (by simpa using h), List.getElem_replicate]
  rfl

/-- The loop of `updateWeights` on copies of the zero state and of a symmetric
target, started on a network of the family: each `backward` call applies
`step`, as long as `beta` stays non-negative. -/
theorem updateWeightsLoop_network (exp : K → K) (lr target_o target_2 : K) (n : Nat) :
    ∀ (count i : Nat) (p : Probe K) (acts : List (VectorXd K)), acts.length = 5 →
      i + count ≤ n →
      (∀ k, k < count → 0 ≤ ((step exp lr target_o target_2)^[k] p).beta) →
      ∃ acts' : List (VectorXd K), acts'.length = 5 ∧
        updateWeightsLoop exp (List.replicate n (List.replicate 8 0))
          (List.replicate n [target_o, target_o, target_2, target_o, target_o]) i count
          (p.network lr acts) =
        Except.ok (((step exp lr target_o target_2)^[count] p).network lr acts') := by
  intro count
  induction count with
  | zero =>
    intro i p acts hacts _ _
    exact ⟨acts, hacts, rfl⟩
  | succ m ih =>
    intro i p acts hacts hi hβ
    obtain ⟨a0, a1, a2, a3, a4, rfl⟩ := exists_of_length_five acts hacts
    obtain ⟨acts', hacts', hrest⟩ := ih (i + 1) (p.step exp lr target_o target_2)
      [List.replicate 8 0, List.replicate 64 0, List.replicate 32 0,
        List.replicate 16 p.beta, p.output exp] rfl (by omega)
      (fun k hk => by
        rw [← Function.iterate_succ_apply]
        exact hβ (k + 1) (by omega))
    refine ⟨acts', hacts', ?_⟩
    rw [updateWeightsLoop, elemAt_replicate n i _ (by omega),
      elemAt_replicate n i _ (by omega)]
    simp only [bind, Except.bind]
    rw [backward_network exp lr target_o target_2 p a0 a1 a2 a3 a4 (hβ 0 (by omega))]
    simp only [Function.iterate_succ_apply]
    exact hrest

theorem outputError_network (exp : K → K) (lr target_o target_2 : K) (p : Probe K)
    (acts : List (VectorXd K)) (hacts : acts.length = 5) (hβ : 0 ≤ p.beta) :
    outputError exp (p.network lr acts) (List.replicate 8 0)
        [target_o, target_o, target_2, target_o, target_o] =
      Except.ok [p.po exp - target_o, p.po exp - target_o, p.p2 exp - target_2,
        p.po exp - target_o, p.po exp - target_o] := by
  obtain ⟨a0, a1, a2, a3, a4, rfl⟩ := exists_of_length_five acts hacts
  unfold outputError
  rw [forward_network exp lr p a0 a1 a2 a3 a4 hβ]
  rfl

/-- The output-layer errors of the `backward` calls in the loop of
`updateWeights` on a network of the family: the `k`-th error is the output
after `k` applications of `step`, minus the target. -/
theorem updateWeightsErrors_network (exp : K → K) (lr target_o target_2 : K) (n : Nat) :
    ∀ (count i : Nat) (p : Probe K) (acts : List (VectorXd K)), acts.length = 5 →
      i + count ≤ n →
      (∀ k, k < count → 0 ≤ ((step exp lr target_o target_2)^[k] p).beta) →
      updateWeightsErrors exp (List.replicate n (List.replicate 8 0))
          (List.replicate n [target_o, target_o, target_2, target_o, target_o]) i count
          (p.network lr acts) =
        Except.ok ((List.range count).map (fun k =>
          [((step exp lr target_o target_2)^[k] p).po exp - target_o,
            ((step exp lr target_o target_2)^[k] p).po exp - target_o,
            ((step exp lr target_o target_2)^[k] p).p2 exp - target_2,
            ((step exp lr target_o target_2)^[k] p).po exp - target_o,
            ((step exp lr target_o target_2)^[k] p).po exp - target_o])) := by
  intro count
  induction count with
  | zero =>
    intro i p acts _ _ _
    rfl
  | succ m ih =>
    intro i p acts hacts hi hβ
    have hrest := ih (i + 1) (p.step exp lr target_o target_2)
      [List.replicate 8 0, List.replicate 64 0, List.replicate 32 0,
        List.replicate 16 p.beta, p.output exp] rfl (by omega)
      (fun k hk => by
        rw [← Function.iterate_succ_apply]
        exact hβ (k + 1) (by omega))
    obtain ⟨a0, a1, a2, a3, a4, rfl⟩ := exists_of_length_five acts hacts
    rw [updateWeightsErrors, elemAt_replicate n i _ (by omega),
      elemAt_replicate n i _ (by omega)]
    simp only [bind, Except.bind]
    rw [outputError_network exp lr target_o target_2 p [a0, a1, a2, a3, a4] rfl
        (hβ 0 (by omega)),
      backward_network exp lr target_o target_2 p a0 a1 a2 a3 a4 (hβ 0 (by omega))]
    simp only [hrest, List.range_succ_eq_map, List.map_cons, List.map_map,
      Function.iterate_zero, id_eq, pure, Except.pure, Except.ok.injEq, List.cons.injEq,
      true_and]
    rfl

end Probe

namespace MusicRecommendationDQN

open NeuralNetwork

/-- Sampling from a replay memory that holds 32 copies of one transition yields
32 copies of it, whatever permutation the shuffle produces. -/
theorem sample_batchAgent (nn : NeuralNetwork K) (shuffle : List Nat → List Nat)
    (hperm : (shuffle (List.range 32)).Perm (List.range 32)) :
    (batchAgent nn).experience_buffer_.sample 32 shuffle =
      Except.ok (List.replicate 32 (terminalTransitionOver K)) := by
  have hlen : (List.replicate 32 (terminalTransitionOver K)).length = 32 :=
    List.length_replicate _ _
  have hidx : ∀ j ∈ shuffle (List.range 32),
      j < (List.replicate 32 (terminalTransitionOver K)).length := fun j hj => by
    rw [hlen]
    exact List.mem_range.1 (hperm.mem_iff.1 hj)
  obtain ⟨out, hout, hall⟩ := ExperienceBuffer.sampleLoop_spec
    (List.replicate 32 (terminalTransitionOver K)) (shuffle (List.range 32)) hidx 32 0
    (by rw [hperm.length_eq, List.length_range])
  have hout32 : out.length = 32 := by
    rw [hall.length_eq, List.drop_zero, List.length_take, hperm.length_eq, List.length_range]
    rfl
  have heq : out = List.replicate 32 (terminalTransitionOver K) :=
    List.eq_replicate_iff.2 ⟨hout32, fun e he =>
      List.eq_of_mem_replicate (mem_of_sampled _ _ _ hall e he)⟩
  unfold ExperienceBuffer.sample batchAgent
  simp only [hlen, lt_irrefl, if_false]
  rw [hout, heq]

end MusicRecommendationDQN

namespace Probe

open NeuralNetwork MusicRecommendationDQN

theorem replayTarget_network (exp : K → K) (gamma lr : K) (p : Probe K)
    (a0 a1 a2 a3 a4 : VectorXd K) (target : NeuralNetwork K) (hβ : 0 ≤ p.beta) :
    replayTarget exp gamma (p.network lr [a0, a1, a2, a3, a4]) target
        (terminalTransitionOver K) =
      Except.ok
        (p.network lr [List.replicate 8 0, List.replicate 64 0, List.replicate 32 0,
          List.replicate 16 p.beta, p.output exp], target,
          [p.po exp, p.po exp, 0.7, p.po exp, p.po exp]) := by
  unfold replayTarget
  have hf : forward exp (p.network lr [a0, a1, a2, a3, a4]) (terminalTransitionOver K).state =
      Except.ok
        (p.network lr [List.replicate 8 0, List.replicate 64 0, List.replicate 32 0,
          List.replicate 16 p.beta, p.output exp], p.output exp) :=
    forward_network exp lr p a0 a1 a2 a3 a4 hβ
  rw [hf]
  rfl

/-- The loop of a replay step on copies of the terminal transition and a value
network of the family: the states are zero vectors and every target is the
output with the coordinate 2 replaced by the reward 0.7. -/
theorem replayLoop_network (exp : K → K) (gamma lr : K) (p : Probe K)
    (target : NeuralNetwork K) (hβ : 0 ≤ p.beta) :
    ∀ (n : Nat) (acts : List (VectorXd K)), acts.length = 5 →
      ∃ acts' : List (VectorXd K), acts'.length = 5 ∧
        replayLoop exp gamma (List.replicate n (terminalTransitionOver K)) (p.network lr acts)
          target =
        Except.ok (p.network lr acts', target, List.replicate n (List.replicate 8 0),
          List.replicate n [p.po exp, p.po exp, 0.7, p.po exp, p.po exp]) := by
  intro n
  induction n with
  | zero =>
    intro acts hacts
    exact ⟨acts, hacts, rfl⟩
  | succ m ih =>
    intro acts hacts
    obtain ⟨a0, a1, a2, a3, a4, rfl⟩ := exists_of_length_five acts hacts
    obtain ⟨acts', hacts', hrest⟩ := ih
      [List.replicate 8 0, List.replicate 64 0, List.replicate 32 0,
        List.replicate 16 p.beta, p.output exp] rfl
    refine ⟨acts', hacts', ?_⟩
    rw [List.replicate_succ, replayLoop, replayTarget_network exp gamma lr p a0 a1 a2 a3 a4
      target hβ]
    simp only [bind, Except.bind]
    rw [hrest]
    rfl

/-- A replay step on a minibatch of copies of the terminal transition and a
value network of the family applies `step` 32 times, with the targets fixed
at the start of the step. -/
theorem replayExperience_network (exp : K → K) (lr : K) (p : Probe K)
    (acts : List (VectorXd K)) (hacts : acts.length = 5) (shuffle : List Nat → List Nat)
    (hperm : (shuffle (List.range 32)).Perm (List.range 32))
    (hβ : ∀ k, k < 32 → 0 ≤ ((step exp lr (p.po exp) 0.7)^[k] p).beta) :
    ∃ acts' : List (VectorXd K), acts'.length = 5 ∧
      replayExperience exp (batchAgent (p.network lr acts)) shuffle =
        Except.ok
          { batchAgent (p.network lr acts) with
            q_network_ := ((step exp lr (p.po exp) 0.7)^[32] p).network lr acts' } := by
  obtain ⟨acts1, hacts1, hloop⟩ := replayLoop_network exp (0.95 : K) lr p (p.network lr acts)
    (hβ 0 (by decide)) 32 acts hacts
  obtain ⟨acts2, hacts2, hupd⟩ := updateWeightsLoop_network exp lr (p.po exp) 0.7 32 32 0 p
    acts1 hacts1 (by decide) hβ
  refine ⟨acts2, hacts2, ?_⟩
  unfold replayExperience
  dsimp only
  rw [sample_batchAgent _ shuffle hperm]
  have hloop' : replayLoop exp (batchAgent (p.network lr acts)).gamma_
      (List.replicate 32 (terminalTransitionOver K)) (batchAgent (p.network lr acts)).q_network_
      (batchAgent (p.network lr acts)).target_network_ =
      Except.ok (p.network lr acts1, p.network lr acts, List.replicate 32 (List.replicate 8 0),
        List.replicate 32 [p.po exp, p.po exp, 0.7, p.po exp, p.po exp]) := hloop
  simp only [bind, Except.bind]
  rw [hloop']
  simp only [updateWeights, List.length_replicate]
  rw [hupd]
  rfl

/-- The output-layer errors in a replay step on a minibatch of copies of the
terminal transition and a value network of the family. -/
theorem replayErrors_network (exp : K → K) (lr : K) (p : Probe K)
    (acts : List (VectorXd K)) (hacts : acts.length = 5) (shuffle : List Nat → List Nat)
    (hperm : (shuffle (List.range 32)).Perm (List.range 32))
    (hβ : ∀ k, k < 32 → 0 ≤ ((step exp lr (p.po exp) 0.7)^[k] p).beta) :
    replayErrors exp (batchAgent (p.network lr acts)) shuffle =
      Except.ok (List.replicate 32 (terminalTransitionOver K),
        (List.range 32).map (fun k =>
          [((step exp lr (p.po exp) 0.7)^[k] p).po exp - p.po exp,
            ((step exp lr (p.po exp) 0.7)^[k] p).po exp - p.po exp,
            ((step exp lr (p.po exp) 0.7)^[k] p).p2 exp - 0.7,
            ((step exp lr (p.po exp) 0.7)^[k] p).po exp - p.po exp,
            ((step exp lr (p.po exp) 0.7)^[k] p).po exp - p.po exp])) := by
  obtain ⟨acts1, hacts1, hloop⟩ := replayLoop_network exp (0.95 : K) lr p (p.network lr acts)
    (hβ 0 (by decide)) 32 acts hacts
  have herr := updateWeightsErrors_network exp lr (p.po exp) 0.7 32 32 0 p
    acts1 hacts1 (by decide) hβ
  unfold replayErrors
  dsimp only
  rw [sample_batchAgent _ shuffle hperm]
  have hloop' : replayLoop exp (batchAgent (p.network lr acts)).gamma_
      (List.replicate 32 (terminalTransitionOver K)) (batchAgent (p.network lr acts)).q_network_
      (batchAgent (p.network lr acts)).target_network_ =
      Except.ok (p.network lr acts1, p.network lr acts, List.replicate 32 (List.replicate 8 0),
        List.replicate 32 [p.po exp, p.po exp, 0.7, p.po exp, p.po exp]) := hloop
  simp only [bind, Except.bind]
  rw [hloop']
  simp only [List.length_replicate]
  rw [herr]
  rfl

/-- The outputs on the zero state before and after a replay step on a minibatch
of copies of the terminal transition, for a value network of the family. -/
theorem replay_outputs (exp : K → K) (lr : K) (p : Probe K)
    (acts : List (VectorXd K)) (hacts : acts.length = 5) (shuffle : List Nat → List Nat)
    (hperm : (shuffle (List.range 32)).Perm (List.range 32))
    (hβ : ∀ k, k ≤ 32 → 0 ≤ ((step exp lr (p.po exp) 0.7)^[k] p).beta) :
    ∃ (agent' : MusicRecommendationDQN K) (q q' : NeuralNetwork K),
      replayExperience exp (batchAgent (p.network lr acts)) shuffle = Except.ok agent' ∧
      forward exp (p.network lr acts) (List.replicate 8 0) = Except.ok (q, p.output exp) ∧
      forward exp agent'.q_network_ (List.replicate 8 0) =
        Except.ok (q', ((step exp lr (p.po exp) 0.7)^[32] p).output exp) := by
  obtain ⟨acts', hacts', hrep⟩ := replayExperience_network exp lr p acts hacts shuffle hperm
    (fun k hk => hβ k (by omega))
  obtain ⟨a0, a1, a2, a3, a4, rfl⟩ := exists_of_length_five acts hacts
  obtain ⟨b0, b1, b2, b3, b4, rfl⟩ := exists_of_length_five acts' hacts'
  exact ⟨_, _, _, hrep, forward_network exp lr p a0 a1 a2 a3 a4 (hβ 0 (by omega)),
    forward_network exp lr _ b0 b1 b2 b3 b4 (hβ 32 (le_refl _))⟩

end Probe

namespace NeuralNetwork

end NeuralNetwork

namespace Tower

open NeuralNetwork MusicRecommendationDQN

end Tower

end ProbeProofs

/-! ## Theorems: one replay step on copies of the terminal transition -/

section DescentProofs

namespace Probe

theorem total_pos (p : Probe ℝ) : 0 < p.total Real.exp := by
  unfold total
  have h1 := Real.exp_pos p.zo
  have h2 := Real.exp_pos p.z2
  linarith

theorem four_po_add_p2 (p : Probe ℝ) : 4 * p.po Real.exp + p.p2 Real.exp = 1 := by
  have h := p.total_pos
  unfold po p2
  field_simp
  unfold total
  ring

theorem po_pos (p : Probe ℝ) : 0 < p.po Real.exp :=
  div_pos (Real.exp_pos _) p.total_pos

theorem lt_p2_of_lt (p : Probe ℝ) (h : p.zo < p.z2) : 1 / 5 < p.p2 Real.exp := by
  have hE : Real.exp p.zo < Real.exp p.z2 := Real.exp_lt_exp.2 h
  unfold p2
  rw [lt_div_iff₀ p.total_pos]
  unfold total
  linarith

theorem p2_eq_of_eq (p : Probe ℝ) (h : p.z2 = p.zo) : p.p2 Real.exp = 1 / 5 := by
  have hE := Real.exp_pos p.zo
  unfold p2 total
  rw [h]
  field_simp
  ring

theorem po_eq_of_eq (p : Probe ℝ) (h : p.z2 = p.zo) : p.po Real.exp = 1 / 5 := by
  have h1 := p.four_po_add_p2
  rw [p.p2_eq_of_eq h] at h1
  linarith

/-- While the pre-softmax output at coordinate 2 exceeds the others by at most
1, the output at coordinate 2 exceeds the others by less than one half. -/
theorem p2_sub_po_lt (p : Probe ℝ) (h : p.z2 ≤ p.zo + 1) :
    p.p2 Real.exp - p.po Real.exp < 1 / 2 := by
  have hE : Real.exp p.z2 ≤ Real.exp p.zo * Real.exp 1 := by
    rw [← Real.exp_add]
    exact Real.exp_le_exp.2 h
  have he : Real.exp 1 < 3 := lt_trans Real.exp_one_lt_d9 (by norm_num)
  have ho := Real.exp_pos p.zo
  have h3 : Real.exp p.zo * Real.exp 1 < Real.exp p.zo * 3 :=
    mul_lt_mul_of_pos_left he ho
  unfold p2 po
  rw [← sub_div, div_lt_iff₀ p.total_pos]
  unfold total
  linarith

theorem po_le_p2_of_le (p : Probe ℝ) (h : p.zo ≤ p.z2) :
    p.po Real.exp ≤ p.p2 Real.exp :=
  div_le_div_of_nonneg_right (Real.exp_le_exp.2 h) p.total_pos.le

/-- One `backward` call on a network of the family with `beta = u = v = 0`
whose output bias `c` exceeds `d` by at most 1: the three parameters stay 0,
and `c - d` grows, by at most half the learning rate. -/
theorem flat_step (α : ℝ) (hα : 0 < α) (p : Probe ℝ) (hβ : p.beta = 0) (hu : p.u = 0)
    (hv : p.v = 0) (h0 : 0 ≤ p.c - p.d) (h1 : p.c - p.d ≤ 1) :
    (p.step Real.exp α (1 / 5) 0.7).beta = 0 ∧ (p.step Real.exp α (1 / 5) 0.7).u = 0 ∧
    (p.step Real.exp α (1 / 5) 0.7).v = 0 ∧
    p.c - p.d < (p.step Real.exp α (1 / 5) 0.7).c - (p.step Real.exp α (1 / 5) 0.7).d ∧
    (p.step Real.exp α (1 / 5) 0.7).c - (p.step Real.exp α (1 / 5) 0.7).d ≤
      p.c - p.d + α / 2 := by
  have hz2 : p.z2 = p.c := by
    unfold z2
    rw [hu, hβ]
    ring
  have hzo : p.zo = p.d := by
    unfold zo
    rw [hv, hβ]
    ring
  have hlt : p.p2 Real.exp - p.po Real.exp < 1 / 2 :=
    p.p2_sub_po_lt (by rw [hz2, hzo]; linarith)
  have hle : p.po Real.exp ≤ p.p2 Real.exp :=
    p.po_le_p2_of_le (by rw [hz2, hzo]; linarith)
  have hdiff : (p.step Real.exp α (1 / 5) 0.7).c - (p.step Real.exp α (1 / 5) 0.7).d =
      p.c - p.d + α * (1 / 2 - (p.p2 Real.exp - p.po Real.exp)) := by
    simp only [step]
    ring
  have hprod : 0 < α * (1 / 2 - (p.p2 Real.exp - p.po Real.exp)) :=
    mul_pos hα (by linarith)
  have hprod' : α * (1 / 2 - (p.p2 Real.exp - p.po Real.exp)) ≤ α * (1 / 2) :=
    mul_le_mul_of_nonneg_left (by linarith) hα.le
  refine ⟨?_, ?_, ?_, ?_, ?_⟩
  · simp only [step, hβ, lt_irrefl, if_false, mul_zero, sub_zero]
  · simp only [step, hβ, hu, mul_zero, sub_zero]
  · simp only [step, hβ, hv, mul_zero, sub_zero]
  · rw [hdiff]
    linarith
  · rw [hdiff]
    linarith

/-- The parameters after `k ≤ 32` `backward` calls on the network with all
parameters zero, for a learning rate of at most 1/16. -/
theorem flat_iterate (α : ℝ) (hα0 : 0 < α) (hα1 : α ≤ 1 / 16) :
    ∀ k : Nat, k ≤ 32 →
      ((step Real.exp α (1 / 5) 0.7)^[k] (flat ℝ)).beta = 0 ∧
      ((step Real.exp α (1 / 5) 0.7)^[k] (flat ℝ)).u = 0 ∧
      ((step Real.exp α (1 / 5) 0.7)^[k] (flat ℝ)).v = 0 ∧
      0 ≤ ((step Real.exp α (1 / 5) 0.7)^[k] (flat ℝ)).c -
        ((step Real.exp α (1 / 5) 0.7)^[k] (flat ℝ)).d ∧
      ((step Real.exp α (1 / 5) 0.7)^[k] (flat ℝ)).c -
        ((step Real.exp α (1 / 5) 0.7)^[k] (flat ℝ)).d ≤ k * (α / 2) ∧
      (0 < k → 0 < ((step Real.exp α (1 / 5) 0.7)^[k] (flat ℝ)).c -
        ((step Real.exp α (1 / 5) 0.7)^[k] (flat ℝ)).d) := by
  intro k
  induction k with
  | zero =>
    intro _
    simp [flat]
  | succ n ih =>
    intro hn
    obtain ⟨i1, i2, i3, i4, i5, -⟩ := ih (by omega)
    have hn32 : (n : ℝ) ≤ 32 := by exact_mod_cast (by omega : n ≤ 32)
    have hbound : (n : ℝ) * (α / 2) ≤ 1 := by nlinarith
    obtain ⟨j1, j2, j3, j4, j5⟩ := flat_step α hα0 _ i1 i2 i3 i4 (le_trans i5 hbound)
    rw [Function.iterate_succ_apply']
    refine ⟨j1, j2, j3, by linarith, ?_, fun _ => by linarith⟩
    push_cast
    linarith

theorem flat_po : (flat ℝ).po Real.exp = 1 / 5 :=
  po_eq_of_eq _ rfl

theorem p2_lt_one (p : Probe ℝ) : p.p2 Real.exp < 1 := by
  have h1 := p.four_po_add_p2
  have h2 := p.po_pos
  linarith

theorem sq_error_lt_of_between (x : ℝ) (h0 : 1 / 5 < x) (h1 : x < 1) :
    (x - 0.7) ^ 2 < (1 / 5 - 0.7) ^ 2 := by
  have h07 : (0.7 : ℝ) = 7 / 10 := by norm_num
  rw [h07]
  nlinarith [mul_pos (sub_pos.2 h0) (sub_pos.2 h1)]

/-- For the network with all parameters zero and a learning rate of at most
1/16, the replay step moves `forward(state)[2]` from 1/5 towards 0.7. -/
theorem flat_specDescent (lr α : ℝ) (hα0 : 0 < α) (hα1 : α ≤ 1 / 16) :
    SpecDescent ((flat ℝ).network lr (zeroActivations ℝ)) α := by
  intro shuffle hperm
  have hβ : ∀ k, k ≤ 32 →
      0 ≤ ((step Real.exp α ((flat ℝ).po Real.exp) 0.7)^[k] (flat ℝ)).beta := by
    intro k hk
    rw [flat_po]
    exact le_of_eq (flat_iterate α hα0 hα1 k hk).1.symm
  obtain ⟨agent', q, q', hrep, hf, hf'⟩ := replay_outputs Real.exp α (flat ℝ)
    (zeroActivations ℝ) rfl shuffle hperm hβ
  rw [flat_po] at hf'
  obtain ⟨i1, i2, i3, -, -, i6⟩ := flat_iterate α hα0 hα1 32 (le_refl _)
  have hlt : 1 / 5 < ((step Real.exp α (1 / 5) 0.7)^[32] (flat ℝ)).p2 Real.exp := by
    apply lt_p2_of_lt
    unfold z2 zo
    rw [i1, i2, i3]
    have := i6 (by decide)
    linarith
  have hbefore : ((flat ℝ).output Real.exp).getD 2 0 = 1 / 5 := p2_eq_of_eq _ rfl
  have hafter : (((step Real.exp α (1 / 5) 0.7)^[32] (flat ℝ)).output Real.exp).getD 2 0 =
      ((step Real.exp α (1 / 5) 0.7)^[32] (flat ℝ)).p2 Real.exp := rfl
  have hsq := sq_error_lt_of_between _ hlt (p2_lt_one _)
  refine ⟨agent', q, q', _, _, hrep, hf, hf', ?_, fun _ => ?_⟩
  · rw [hbefore, hafter]
    exact hsq.le
  · rw [hbefore, hafter]
    exact hsq

end Probe

namespace Tower

end Tower

end DescentProofs

/-! ## Theorems: the output-layer errors of a replay step -/

section ErrorProofs

set_option linter.unusedSectionVars false

variable {K : Type} [LinearOrderedField K]

open NeuralNetwork

namespace NeuralNetwork

theorem outputError_ok (exp : K → K) (nn : NeuralNetwork K) (x target : VectorXd K)
    (h : WellShaped nn) (hx : x.length = 8) (ht : target.length = 5) :
    ∃ (q : NeuralNetwork K) (out : VectorXd K),
      forward exp nn x = Except.ok (q, out) ∧ out.length = 5 ∧
      outputError exp nn x target =
        Except.ok (List.zipWith (fun a b => a - b) out target) := by
  obtain ⟨acts, z, hz, -, -, -, hf⟩ := forward_ok exp nn x h hx
  have hlen : (softmax exp z).length = 5 := by rw [length_softmax, hz]
  refine ⟨_, _, hf nn h rfl rfl, hlen, ?_⟩
  unfold outputError
  rw [hf nn h rfl rfl]
  simp only [bind, Except.bind]
  unfold vecSub
  rw [if_pos (by rw [hlen, ht])]
  rfl

/-- The loop of `updateWeights` with its errors recorded succeeds on 8-element
inputs and 5-element targets; it records one error per `backward` call, the
first being the output-layer error of the network as the loop finds it. -/
theorem updateWeightsErrors_ok (exp : K → K) (inputs targets : List (VectorXd K))
    (hin : ∀ v ∈ inputs, v.length = 8) (htg : ∀ t ∈ targets, t.length = 5) :
    ∀ (count i : Nat) (nn : NeuralNetwork K), WellShaped nn →
      i + count ≤ inputs.length → i + count ≤ targets.length →
      ∃ errs : List (VectorXd K),
        updateWeightsErrors exp inputs targets i count nn = Except.ok errs ∧
        errs.length = count ∧
        ∀ (hi : i < inputs.length) (ht : i < targets.length), 0 < count →
          ∃ err : VectorXd K,
            outputError exp nn (inputs.get ⟨i, hi⟩) (targets.get ⟨i, ht⟩) = Except.ok err ∧
            errs[0]? = some err := by
  intro count
  induction count with
  | zero =>
    intro i nn _ _ _
    exact ⟨[], rfl, rfl, fun _ _ h0 => absurd h0 (lt_irrefl 0)⟩
  | succ n ih =>
    intro i nn h hi ht
    have hlt : i < inputs.length := by omega
    have hlt' : i < targets.length := by omega
    obtain ⟨q, out, -, -, herr⟩ := outputError_ok exp nn (inputs.get ⟨i, hlt⟩)
      (targets.get ⟨i, hlt'⟩) h (hin _ (List.get_mem _ _ _)) (htg _ (List.get_mem _ _ _))
    obtain ⟨nn1, hb, hw1, -⟩ :=
      backward_ok exp nn (inputs.get ⟨i, hlt⟩) (targets.get ⟨i, hlt'⟩) h
        (hin _ (List.get_mem _ _ _)) (htg _ (List.get_mem _ _ _))
    obtain ⟨rest, hrest, hlen, -⟩ := ih (i + 1) nn1 hw1 (by omega) (by omega)
    refine ⟨List.zipWith (fun a b => a - b) out (targets.get ⟨i, hlt'⟩) :: rest, ?_,
      by rw [List.length_cons, hlen], fun _ _ _ => ⟨_, herr, List.getElem?_cons_zero⟩⟩
    rw [updateWeightsErrors, ExperienceBuffer.elemAt_of_lt inputs i hlt]
    simp only [bind, Except.bind]
    rw [ExperienceBuffer.elemAt_of_lt targets i hlt']
    simp only [herr, hb, hrest]
    rfl

end NeuralNetwork

namespace MusicRecommendationDQN

/-- C23 (amended): in a replay step (well-shaped networks, at least 32 valid
transitions stored, any permutation as the outcome of the shuffle) the
output-layer error that `backward` computes for the first sample of the batch
is zero at every coordinate other than that sample's action.  The later
samples are excluded: their errors are computed on a value network that the
earlier `backward` calls of the same batch have already changed. -/
theorem first_sample_error_off_action (exp : K → K) (agent : MusicRecommendationDQN K)
    (shuffle : List Nat → List Nat)
    (hq : WellShaped agent.q_network_) (ht : WellShaped agent.target_network_)
    (hbuf : ∀ e ∈ agent.experience_buffer_.buffer_, Experience.Valid e)
    (hlen : 32 ≤ agent.experience_buffer_.buffer_.length)
    (hperm : (shuffle (List.range agent.experience_buffer_.buffer_.length)).Perm
      (List.range agent.experience_buffer_.buffer_.length)) :
    ∃ (es : List (Experience K)) (errs : List (VectorXd K)),
      replayErrors exp agent shuffle = Except.ok (es, errs) ∧
      es.length = 32 ∧ errs.length = 32 ∧
      ∀ (e : Experience K) (err : VectorXd K), es[0]? = some e → errs[0]? = some err →
        ∀ j : Nat, j < 5 → j ≠ e.action.toNat → err[j]? = some 0 := by
  have hidx : ∀ j ∈ shuffle (List.range agent.experience_buffer_.buffer_.length),
      j < agent.experience_buffer_.buffer_.length := fun j hj =>
    List.mem_range.1 (hperm.mem_iff.1 hj)
  have hlen' : 0 + 32 ≤ (shuffle (List.range agent.experience_buffer_.buffer_.length)).length := by
    rw [hperm.length_eq, List.length_range]
    omega
  obtain ⟨out, hout, hall⟩ := ExperienceBuffer.sampleLoop_spec
    agent.experience_buffer_.buffer_ _ hidx 32 0 hlen'
  have hout32 : out.length = 32 := by
    rw [hall.length_eq, List.drop_zero, List.length_take, hperm.length_eq, List.length_range]
    omega
  have hvalid : ∀ e ∈ out, Experience.Valid e := fun e he =>
    hbuf e (mem_of_sampled _ _ _ hall e he)
  obtain ⟨q1, t1, targets, hloop, hq1, hq1w, hq1b, -, -, -, -, -, htargets⟩ :=
    replayLoop_ok exp agent.gamma_ agent.q_network_ agent.target_network_ hq ht out
      agent.q_network_ agent.target_network_ hq rfl rfl ht rfl rfl hvalid
  have h5 : ∀ τ ∈ targets, τ.length = 5 :=
    length_of_replayTargets exp agent.gamma_ _ _ hq out targets htargets
      (fun e he => (hvalid e he).1)
  have h8 : ∀ v ∈ out.map (fun e => e.state), v.length = 8 := by
    intro v hv
    obtain ⟨e, he, rfl⟩ := List.mem_map.1 hv
    exact (hvalid e he).1
  have hslen : (out.map (fun e => e.state)).length = 32 := by
    rw [List.length_map, hout32]
  have htlen : targets.length = 32 := by rw [← htargets.length_eq, hout32]
  obtain ⟨errs, herrs, herrlen, hfirst⟩ := updateWeightsErrors_ok exp
    (out.map (fun e => e.state)) targets h8 h5 32 0 q1 hq1 (by omega) (by omega)
  have hsample : agent.experience_buffer_.sample 32 shuffle = Except.ok out := by
    unfold ExperienceBuffer.sample
    rw [if_neg (by omega)]
    exact hout
  refine ⟨out, errs, ?_, hout32, herrlen, ?_⟩
  · unfold replayErrors
    simp only [bind, Except.bind, hsample, hloop, hslen, herrs]
    rfl
  · intro e err he herr j hj hja
    cases htargets with
    | nil => simp at hout32
    | @cons e0 τ0 rest trest hτ0 _ =>
      simp only [List.getElem?_cons_zero, Option.some.injEq] at he
      subst he
      obtain ⟨err0, herr0, herrs0⟩ := hfirst (by rw [hslen]; decide) (by rw [htlen]; decide)
        (by decide)
      rw [herr] at herrs0
      cases herrs0
      have herr0' : outputError exp q1 e0.state τ0 = Except.ok err := herr0
      obtain ⟨hs, -⟩ := hvalid e0 (List.mem_cons_self _ _)
      obtain ⟨acts, z, hz, -, -, -, hf⟩ := forward_ok exp agent.q_network_ e0.state hq hs
      obtain ⟨qx, cq, hcq, hτlen, hoff, -⟩ := hτ0
      rw [hf agent.q_network_ hq rfl rfl] at hcq
      cases hcq
      obtain ⟨q2, out1, hf1, -, herr1⟩ := outputError_ok exp q1 e0.state τ0 hq1 hs
        (h5 τ0 (List.mem_cons_self _ _))
      rw [hf q1 hq1 hq1w hq1b] at hf1
      cases hf1
      rw [herr1] at herr0'
      cases herr0'
      have hjlt : j < (softmax exp z).length := by rw [length_softmax, hz]; exact hj
      have h1 : (softmax exp z)[j]? = some ((softmax exp z).get ⟨j, hjlt⟩) :=
        List.getElem?_eq_getElem hjlt
      have h2 : τ0[j]? = some ((softmax exp z).get ⟨j, hjlt⟩) := by
        rw [hoff j hja]
        exact h1
      simp [List.getElem?_zipWith, h1, h2]

theorem valid_terminalTransitionOver : Experience.Valid (terminalTransitionOver K) :=
  ⟨rfl, fun _ => rfl, (by decide : (0 : Int) ≤ 2), (by decide : (2 : Int) ≤ 4)⟩

/-- C23 (amended) at a concrete input: the freshly constructed network with all
weights drawn as 0, and a replay memory of 32 copies of the terminal
transition. -/
theorem first_sample_error_off_action_witness :
    WellShaped (batchAgent (zeroNetwork ℚ)).q_network_ ∧
    32 ≤ (batchAgent (zeroNetwork ℚ)).experience_buffer_.buffer_.length ∧
    ∃ (es : List (Experience ℚ)) (errs : List (VectorXd ℚ)),
      replayErrors (fun _ => 1) (batchAgent (zeroNetwork ℚ)) id = Except.ok (es, errs) ∧
      es.length = 32 ∧ errs.length = 32 ∧
      ∀ (e : Experience ℚ) (err : VectorXd ℚ), es[0]? = some e → errs[0]? = some err →
        ∀ j : Nat, j < 5 → j ≠ e.action.toNat → err[j]? = some 0 :=
  ⟨wellShaped_new _ _, by simp [batchAgent],
    first_sample_error_off_action (fun _ => (1 : ℚ)) (batchAgent (zeroNetwork ℚ)) id
      (wellShaped_new _ _) (wellShaped_new _ _)
      (fun e he => by
        rw [List.eq_of_mem_replicate he]
        exact valid_terminalTransitionOver)
      (by simp [batchAgent]) (List.Perm.refl _)⟩

/-- C23 refuted: the value network with all parameters zero, the learning rate
0.001 and a replay memory of 32 copies of the terminal transition (action 2).
For the second sample of the batch the output-layer error at coordinate 0 is
not zero: the first `backward` call has raised the output bias at coordinate 2,
so the output at coordinate 0 is below the 1/5 that its target holds. -/
theorem second_sample_error_off_action_nonzero :
    ∃ (es : List (Experience ℝ)) (errs : List (VectorXd ℝ)) (e : Experience ℝ)
        (err : VectorXd ℝ) (x : ℝ),
      replayErrors Real.exp (batchAgent ((Probe.flat ℝ).network 0.001 (zeroActivations ℝ)))
        id = Except.ok (es, errs) ∧
      es[1]? = some e ∧ e.action = 2 ∧ errs[1]? = some err ∧ err[0]? = some x ∧ x < 0 := by
  have hα0 : (0 : ℝ) < 0.001 := by norm_num
  have hα1 : (0.001 : ℝ) ≤ 1 / 16 := by norm_num
  have hβ : ∀ k, k < 32 →
      0 ≤ ((Probe.step Real.exp 0.001 ((Probe.flat ℝ).po Real.exp) 0.7)^[k]
        (Probe.flat ℝ)).beta := by
    intro k hk
    rw [Probe.flat_po]
    exact le_of_eq (Probe.flat_iterate 0.001 hα0 hα1 k (by omega)).1.symm
  have hrun := Probe.replayErrors_network Real.exp 0.001 (Probe.flat ℝ) (zeroActivations ℝ)
    rfl id (List.Perm.refl _) hβ
  obtain ⟨i1, i2, i3, -, -, i6⟩ := Probe.flat_iterate 0.001 hα0 hα1 1 (by decide)
  have hp2 : 1 / 5 < ((Probe.step Real.exp 0.001 (1 / 5) 0.7)^[1] (Probe.flat ℝ)).p2
      Real.exp := by
    apply Probe.lt_p2_of_lt
    unfold Probe.z2 Probe.zo
    rw [i1, i2, i3]
    have := i6 (by decide)
    linarith
  have hsum := Probe.four_po_add_p2
    ((Probe.step Real.exp 0.001 (1 / 5) 0.7)^[1] (Probe.flat ℝ))
  rw [Probe.flat_po] at hrun
  refine ⟨_, _, terminalTransitionOver ℝ, _,
    ((Probe.step Real.exp 0.001 (1 / 5) 0.7)^[1] (Probe.flat ℝ)).po Real.exp - 1 / 5,
    hrun, rfl, rfl, rfl, rfl, ?_⟩
  linarith

end MusicRecommendationDQN

end ErrorProofs

end MusicAI
